import Mathlib

/-!
# Schema-migration orchestrator of `tt` (cli/upgrade, cli/replicaset)

A shallow embedding of `cli/upgrade/upgrade.go`.  The program talks to remote
instances and prints to standard output, so every function threads the
chronological history of observable events (`Trace`).  The remote endpoints
are an arbitrary oracle `Env` that answers each call from the full history so
far, which covers every (also stateful or adversarial) behaviour of the
instances.  Go panics (`res[0]` on an empty slice, a failed type assertion)
are explicit outcomes.
-/

set_option linter.dupNamespace false

namespace TT

/-! ## Go values, errors, events -/

/-- Go `error` values: `errors.New` and `fmt.Errorf` without `%w` build an
`errorString`; `fmt.Errorf` with `%w` builds a `wrapError` around its cause. -/
inductive GoError
  | errorString (s : String)
  | wrapError (s : String) (err : GoError)
deriving DecidableEq, Repr

/-- The method `Error()` of a Go error: its message. -/
def GoError.Error : GoError → String
  | .errorString s => s
  | .wrapError s _ => s

/-- Dynamic values (`interface{}`) that a remote evaluation can return.  A Lua
table is a list of named fields holding a number or a string. -/
inductive Value
  | nil
  | bool (b : Bool)
  | int64 (i : Int)
  | uint8 (v : Nat)
  | uint16 (v : Nat)
  | uint32 (v : Nat)
  | uint64 (v : Nat)
  | string (s : String)
  | table (fields : List (String × (Nat ⊕ String)))
deriving DecidableEq, Repr

/-- The struct `connector.ConnectOpts` (the fields the orchestrator sets). -/
structure ConnectOpts where
  Network : String
  Address : String
deriving DecidableEq, Repr

/-- A value of interface `connector.Connector`: the address it was dialled at and
the position of its `Connect` call in the history, which tells apart two
connections to the same address. -/
structure Connector where
  Address : String
  id : Nat
deriving DecidableEq, Repr

deriving instance DecidableEq for Except

/-- The struct `running.InstanceCtx` (the fields used here). -/
structure InstanceCtx where
  AppName : String
  InstName : String
  ConsoleSocket : String
deriving DecidableEq, Repr

/-- Observable events of a run, in the order they happen.  A `call` is one
invocation of a caller-supplied `InstanceEvaler` with what it returned; `debugf`
is a line given to `log.Debugf`. -/
inductive Event
  | connect (opts : ConnectOpts) (err : Option GoError)
  | eval (conn : Connector) (expr : String) (args : List Value)
      (res : Except GoError (List Value))
  | close (conn : Connector)
  | print (s : String)
  | sleep
  | call (inst : InstanceCtx) (conn : Connector) (done : Bool) (err : Option GoError)
  | debugf (s : String)
deriving DecidableEq, Repr

abbrev Trace := List Event

/-- The struct `SyncInfo`. -/
structure SyncInfo where
  LSN : Nat
  IID : Nat
  Err : Option String
deriving DecidableEq, Repr

/-- Everything outside the repository that the orchestrator depends on: the
remote endpoints (`Connect`, `Eval` answer from the history so far),
`mapstructure.Decode` into a zero `SyncInfo` (the filled struct and the error),
the embedded files `lua/upgrade.lua` and `lua/downgrade.lua`, and the Unicode
tables of `strconv.IsPrint` for runes above U+00FF. -/
structure Env where
  Connect : Trace → ConnectOpts → Option GoError
  Eval : Trace → Connector → String → List Value → Except GoError (List Value)
  Decode : Value → SyncInfo × Option GoError
  upgradeLuaScript : String
  IsPrintTable : Char → Bool
  downgradeLuaScript : String

/-- The struct `replicaset.Instance` (the field used here). -/
structure Instance where
  InstanceCtx : InstanceCtx
deriving DecidableEq, Repr

/-- The struct `replicaset.Replicaset` (the fields used here). -/
structure Replicaset where
  Alias : String
  Instances : List Instance
deriving DecidableEq, Repr

/-- The struct `replicaset.Replicasets`. -/
structure Replicasets where
  Replicasets : List Replicaset
deriving DecidableEq, Repr

/-- Modelled from the spec: `running.GetAppInstanceName` is not among the sources;
the spec describes the display name as being of the form `app:instance`. -/
def GetAppInstanceName (run : InstanceCtx) : String :=
  run.AppName ++ ":" ++ run.InstName

/-- How a Go function ends: it returns a value or it panics. -/
inductive Outcome (α : Type)
  | ret (a : α)
  | panic (msg : String)
deriving DecidableEq, Repr

/-- How a block inside the body of `Upgrade` ends: control falls through with
the block's variables, `Upgrade` returns an error, or a panic unwinds. -/
inductive Flow (α : Type)
  | next (a : α)
  | abort (err : GoError)
  | panic (msg : String)
deriving DecidableEq, Repr

/-! ## `fmt` verbs -/

/-- The table `lowerhex` of `strconv`. -/
def lowerhex (n : Nat) : Char :=
  "0123456789abcdef".toList.getD n (Char.ofNat 48)

/-- The function `strconv.IsPrint`: the Latin-1 fast path is spelled out, the tables
for larger runes are a parameter. -/
def IsPrint (table : Char → Bool) (r : Char) : Bool :=
  if r.toNat ≤ 0xFF then
    if 0x20 ≤ r.toNat ∧ r.toNat ≤ 0x7E then true
    else if 0xA1 ≤ r.toNat ∧ r.toNat ≤ 0xFF then r.toNat != 0xAD
    else false
  else table r

/-- The function `appendEscapedRune` of `strconv` with quote `"`, `ASCIIonly` and
`graphicOnly` false; it returns the characters appended. -/
def appendEscapedRune (table : Char → Bool) (r : Char) : List Char :=
  if r.toNat = 34 ∨ r.toNat = 92 then [Char.ofNat 92, r]
  else if IsPrint table r then [r]
  else if r.toNat = 7 then "\\a".toList
  else if r.toNat = 8 then "\\b".toList
  else if r.toNat = 12 then "\\f".toList
  else if r.toNat = 10 then "\\n".toList
  else if r.toNat = 13 then "\\r".toList
  else if r.toNat = 9 then "\\t".toList
  else if r.toNat = 11 then "\\v".toList
  else if r.toNat < 32 ∨ r.toNat = 0x7f then
    "\\x".toList ++ [lowerhex (r.toNat / 16 % 16), lowerhex (r.toNat % 16)]
  else if r.toNat < 0x10000 then
    "\\u".toList ++ [lowerhex (r.toNat / 4096 % 16), lowerhex (r.toNat / 256 % 16),
      lowerhex (r.toNat / 16 % 16), lowerhex (r.toNat % 16)]
  else
    "\\U".toList ++ [lowerhex (r.toNat / 268435456 % 16), lowerhex (r.toNat / 16777216 % 16),
      lowerhex (r.toNat / 1048576 % 16), lowerhex (r.toNat / 65536 % 16),
      lowerhex (r.toNat / 4096 % 16), lowerhex (r.toNat / 256 % 16),
      lowerhex (r.toNat / 16 % 16), lowerhex (r.toNat % 16)]

/-- The verb `%q` of `fmt` on a string, that is `strconv.Quote` (strings here are
valid UTF-8, so the branch for invalid bytes does not arise). -/
def Quote (table : Char → Bool) (s : String) : String :=
  String.mk ([Char.ofNat 34] ++ (s.toList.map (appendEscapedRune table)).flatten
    ++ [Char.ofNat 34])

/-- The verb `%s` of `fmt` on an `error` operand; a nil error prints as
`%!s(<nil>)`. -/
def fmtErr : Option GoError → String
  | some err => err.Error
  | none => "%!s(<nil>)"

/-! ## `connector` -/

/-- The call `connector.Connect(opts)`: the endpoint decides, the call is recorded. -/
def Connect (env : Env) (tr : Trace) (opts : ConnectOpts) : Trace × Except GoError Connector :=
  match env.Connect tr opts with
  | some err => (tr ++ [Event.connect opts (some err)], .error err)
  | none => (tr ++ [Event.connect opts none], .ok ⟨opts.Address, tr.length⟩)

/-- The call `conn.Eval(expr, args, connector.RequestOpts{})`. -/
def Connector.Eval (conn : Connector) (env : Env) (tr : Trace) (expr : String)
    (args : List Value) : Trace × Except GoError (List Value) :=
  (tr ++ [Event.eval conn expr args (env.Eval tr conn expr args)], env.Eval tr conn expr args)

/-! ## `upgrade` -/

/-- The function `internalUpgrade`. -/
def internalUpgrade (env : Env) (tr : Trace) (conn : Connector) :
    Trace × Outcome (SyncInfo × Option GoError) :=
  match conn.Eval env tr env.upgradeLuaScript [] with
  | (tr1, .error err) => (tr1, .ret (⟨0, 0, none⟩, some err))
  | (tr1, .ok []) => (tr1, .panic "runtime error: index out of range [0] with length 0")
  | (tr1, .ok (v :: _)) =>
    match env.Decode v with
    | (upgradeInfo, some err) => (tr1, .ret (upgradeInfo, some err))
    | (upgradeInfo, none) =>
      match upgradeInfo.Err with
      | some s => (tr1, .ret (upgradeInfo, some (.errorString s)))
      | none => (tr1, .ret (upgradeInfo, none))

/-- The query of `WaitLSN`: `fmt.Sprintf("return box.info.vclock[%d]", iid)`. -/
def vclockExpr (iid : Nat) : String :=
  "return box.info.vclock[" ++ toString iid ++ "]"

/-- The type switch of `WaitLSN`: `lsn` stays zero for any other dynamic type. -/
def lsnOf : Value → Nat
  | .uint16 v => v
  | .uint32 v => v
  | _ => 0

/-- The loop of `WaitLSN`; the first argument is the number of iterations left,
`timeout - i`. -/
def WaitLSN.loop (env : Env) (conn : Connector) (masterUpgradeInfo : SyncInfo) :
    Nat → Trace → Trace × Option GoError
  | 0, tr => (tr, some (.errorString ""))
  | n + 1, tr =>
    match conn.Eval env tr (vclockExpr masterUpgradeInfo.IID) [] with
    | (tr1, .error err) => (tr1, some err)
    | (tr1, .ok []) => (tr1, none)
    | (tr1, .ok (v :: _)) =>
      if lsnOf v ≥ masterUpgradeInfo.LSN then (tr1, none)
      else WaitLSN.loop env conn masterUpgradeInfo n (tr1 ++ [Event.sleep])

/-- The function `WaitLSN`: `for i := 0; i < timeout; i++` runs `max(timeout, 0)`
times at most. -/
def WaitLSN (env : Env) (tr : Trace) (conn : Connector) (masterUpgradeInfo : SyncInfo)
    (timeout : Int) : Trace × Option GoError :=
  WaitLSN.loop env conn masterUpgradeInfo timeout.toNat tr

/-- The map `replicasetMap` of `GetAllowedReplicasets`: a later replicaset
overwrites an earlier one under the same alias. -/
def replicasetMap (all : List Replicaset) : String → Option Replicaset :=
  all.foldl (fun m rs => fun rsAlias => if rsAlias = rs.Alias then some rs else m rsAlias)
    (fun _ => none)

/-- The second loop of `GetAllowedReplicasets`. -/
def GetAllowedReplicasets.loop (table : Char → Bool) (m : String → Option Replicaset) :
    List String → List Replicaset → List Replicaset × Option GoError
  | [], allowedReplicasets => (allowedReplicasets, none)
  | rsAlias :: rest, allowedReplicasets =>
    match m rsAlias with
    | none => ([], some (.errorString
        ("replicaset with alias " ++ Quote table rsAlias ++ " doesn't exist")))
    | some replicaset =>
      GetAllowedReplicasets.loop table m rest (allowedReplicasets ++ [replicaset])

/-- The function `GetAllowedReplicasets`; a nil slice is the empty list. -/
def GetAllowedReplicasets (table : Char → Bool) (allReplicasets : Replicasets)
    (pendingReplicasetAliases : List String) : List Replicaset × Option GoError :=
  if pendingReplicasetAliases.length = 0 then (allReplicasets.Replicasets, none)
  else GetAllowedReplicasets.loop table (replicasetMap allReplicasets.Replicasets)
    pendingReplicasetAliases []

/-- The closure `printReplicasetStatus` of `Upgrade`. -/
def printReplicasetStatus (tr : Trace) (rsAlias status : String) : Trace :=
  tr ++ [Event.print ("• " ++ rsAlias ++ ": " ++ status ++ "\n")]

/-- The master/replica predicate evaluated on each instance. -/
def roExpr : String := "return (type(box.cfg) == 'function') or box.info.ro"

/-- The format `"[%s][%s]: %s"` of `Upgrade`. -/
def instErr (rsAlias fullInstanceName : String) (err : Option GoError) : GoError :=
  .errorString ("[" ++ rsAlias ++ "][" ++ fullInstanceName ++ "]: " ++ fmtErr err)

/-- The format of the LSN wait error of `Upgrade`. -/
def lsnErr (rsAlias : String) (info : SyncInfo) (fullInstanceName : String) (lsnTimeout : Int) :
    GoError :=
  .errorString ("[" ++ rsAlias ++ "]: LSN wait timeout: error waiting LSN " ++ toString info.LSN
    ++ " in vclock component " ++ toString info.IID ++ " on " ++ fullInstanceName
    ++ ": time quota " ++ toString lsnTimeout ++ " seconds exceeded")

/-- The first inner loop of `Upgrade` (lines 102-133): classify the instances. -/
def Upgrade.classify (env : Env) (rsAlias : String) :
    List Instance → Option InstanceCtx → List InstanceCtx → Trace →
      Trace × Flow (Option InstanceCtx × List InstanceCtx)
  | [], masterRun, replicRun, tr => (tr, .next (masterRun, replicRun))
  | inst :: rest, masterRun, replicRun, tr =>
    match Connect env tr ⟨"unix", inst.InstanceCtx.ConsoleSocket⟩ with
    | (tr1, .error err) =>
      (printReplicasetStatus tr1 rsAlias "error",
        .abort (instErr rsAlias (GetAppInstanceName inst.InstanceCtx) (some err)))
    | (tr1, .ok conn) =>
      match conn.Eval env tr1 roExpr [] with
      | (tr2, .error err) =>
        (printReplicasetStatus tr2 rsAlias "error",
          .abort (instErr rsAlias (GetAppInstanceName inst.InstanceCtx) (some err)))
      | (tr2, .ok []) =>
        (printReplicasetStatus tr2 rsAlias "error",
          .abort (instErr rsAlias (GetAppInstanceName inst.InstanceCtx) none))
      | (tr2, .ok (.bool false :: _)) =>
        match masterRun with
        | some m =>
          (printReplicasetStatus tr2 rsAlias "error",
            .abort (.errorString ("[" ++ rsAlias ++ "]: " ++ GetAppInstanceName m ++ " and "
              ++ GetAppInstanceName inst.InstanceCtx ++ " are both masters")))
        | none => Upgrade.classify env rsAlias rest (some inst.InstanceCtx) replicRun tr2
      | (tr2, .ok (.bool true :: _)) =>
        Upgrade.classify env rsAlias rest masterRun (replicRun ++ [inst.InstanceCtx]) tr2
      | (tr2, .ok (_ :: _)) =>
        (tr2, .panic "interface conversion: interface {} is not bool")

/-- The second inner loop of `Upgrade` (lines 155-178): wait and migrate each
replica. -/
def Upgrade.replicas (env : Env) (rsAlias : String) (masterUpgradeInfo : SyncInfo)
    (lsnTimeout : Int) : List InstanceCtx → Trace → Trace × Flow Unit
  | [], tr => (tr, .next ())
  | run :: rest, tr =>
    match Connect env tr ⟨"unix", run.ConsoleSocket⟩ with
    | (tr1, .error err) =>
      (printReplicasetStatus tr1 rsAlias "error",
        .abort (instErr rsAlias (GetAppInstanceName run) (some err)))
    | (tr1, .ok conn) =>
      match WaitLSN env tr1 conn masterUpgradeInfo lsnTimeout with
      | (tr2, some _) =>
        (printReplicasetStatus tr2 rsAlias "error",
          .abort (lsnErr rsAlias masterUpgradeInfo (GetAppInstanceName run) lsnTimeout))
      | (tr2, none) =>
        match internalUpgrade env tr2 conn with
        | (tr3, .panic msg) => (tr3, .panic msg)
        | (tr3, .ret (_, some err)) =>
          (printReplicasetStatus tr3 rsAlias "error",
            .abort (instErr rsAlias (GetAppInstanceName run) (some err)))
        | (tr3, .ret (_, none)) =>
          Upgrade.replicas env rsAlias masterUpgradeInfo lsnTimeout rest tr3

/-- The body of the outer loop of `Upgrade` (lines 99-179) for one replicaset. -/
def Upgrade.replicaset (env : Env) (lsnTimeout : Int) (rs : Replicaset) (tr : Trace) :
    Trace × Flow Unit :=
  match Upgrade.classify env rs.Alias rs.Instances none [] tr with
  | (tr1, .abort err) => (tr1, .abort err)
  | (tr1, .panic msg) => (tr1, .panic msg)
  | (tr1, .next (none, _)) =>
    (printReplicasetStatus tr1 rs.Alias "error",
      .abort (.errorString ("[" ++ rs.Alias ++ "]: has not master instance")))
  | (tr1, .next (some masterRun, replicRun)) =>
    match Connect env tr1 ⟨"unix", masterRun.ConsoleSocket⟩ with
    | (tr2, .error err) =>
      (printReplicasetStatus tr2 rs.Alias "error",
        .abort (instErr rs.Alias (GetAppInstanceName masterRun) (some err)))
    | (tr2, .ok conn) =>
      match internalUpgrade env tr2 conn with
      | (tr3, .panic msg) => (tr3, .panic msg)
      | (tr3, .ret (_, some err)) =>
        (printReplicasetStatus tr3 rs.Alias "error",
          .abort (instErr rs.Alias (GetAppInstanceName masterRun) (some err)))
      | (tr3, .ret (masterUpgradeInfo, none)) =>
        match Upgrade.replicas env rs.Alias masterUpgradeInfo lsnTimeout replicRun tr3 with
        | (tr4, .next _) => (printReplicasetStatus tr4 rs.Alias "ok", .next ())
        | (tr4, .abort err) => (tr4, .abort err)
        | (tr4, .panic msg) => (tr4, .panic msg)

/-- The outer loop of `Upgrade` (lines 98-181). -/
def Upgrade.loop (env : Env) (lsnTimeout : Int) :
    List Replicaset → Trace → Trace × Outcome (Option GoError)
  | [], tr => (tr, .ret none)
  | rs :: rest, tr =>
    match Upgrade.replicaset env lsnTimeout rs tr with
    | (tr1, .next _) => Upgrade.loop env lsnTimeout rest tr1
    | (tr1, .abort err) => (tr1, .ret (some err))
    | (tr1, .panic msg) => (tr1, .panic msg)

/-- The function `Upgrade`: the history of the run and how it ends. -/
def Upgrade (env : Env) (replicasets : Replicasets) (pendingReplicasetAliases : List String)
    (lsnTimeout : Int) : Trace × Outcome (Option GoError) :=
  match GetAllowedReplicasets env.IsPrintTable replicasets pendingReplicasetAliases with
  | (_, some err) => ([], .ret (some err))
  | (allowedReplicasets, none) => Upgrade.loop env lsnTimeout allowedReplicasets []

/-! ## `downgrade` -/

/-- The function `internalDowngrade`; the package variable `DowngradeVersion` is a
parameter. -/
def internalDowngrade (env : Env) (DowngradeVersion : String) (tr : Trace) (conn : Connector) :
    Trace × Outcome (SyncInfo × Option GoError) :=
  match conn.Eval env tr env.downgradeLuaScript [.string DowngradeVersion] with
  | (tr1, .error err) => (tr1, .ret (⟨0, 0, none⟩, some err))
  | (tr1, .ok []) => (tr1, .panic "runtime error: index out of range [0] with length 0")
  | (tr1, .ok (v :: _)) =>
    match env.Decode v with
    | (downgradeInfo, some err) => (tr1, .ret (downgradeInfo, some err))
    | (downgradeInfo, none) =>
      match downgradeInfo.Err with
      | some s => (tr1, .ret (downgradeInfo, some (.errorString s)))
      | none => (tr1, .ret (downgradeInfo, none))

/-- The first inner loop of `Downgrade` (lines 53-84): classify the instances. -/
def Downgrade.classify (env : Env) (rsAlias : String) :
    List Instance → Option InstanceCtx → List InstanceCtx → Trace →
      Trace × Flow (Option InstanceCtx × List InstanceCtx)
  | [], masterRun, replicRun, tr => (tr, .next (masterRun, replicRun))
  | inst :: rest, masterRun, replicRun, tr =>
    match Connect env tr ⟨"unix", inst.InstanceCtx.ConsoleSocket⟩ with
    | (tr1, .error err) =>
      (printReplicasetStatus tr1 rsAlias "error",
        .abort (instErr rsAlias (GetAppInstanceName inst.InstanceCtx) (some err)))
    | (tr1, .ok conn) =>
      match conn.Eval env tr1 roExpr [] with
      | (tr2, .error err) =>
        (printReplicasetStatus tr2 rsAlias "error",
          .abort (instErr rsAlias (GetAppInstanceName inst.InstanceCtx) (some err)))
      | (tr2, .ok []) =>
        (printReplicasetStatus tr2 rsAlias "error",
          .abort (instErr rsAlias (GetAppInstanceName inst.InstanceCtx) none))
      | (tr2, .ok (.bool false :: _)) =>
        match masterRun with
        | some m =>
          (printReplicasetStatus tr2 rsAlias "error",
            .abort (.errorString ("[" ++ rsAlias ++ "]: " ++ GetAppInstanceName m ++ " and "
              ++ GetAppInstanceName inst.InstanceCtx ++ " are both masters")))
        | none => Downgrade.classify env rsAlias rest (some inst.InstanceCtx) replicRun tr2
      | (tr2, .ok (.bool true :: _)) =>
        Downgrade.classify env rsAlias rest masterRun (replicRun ++ [inst.InstanceCtx]) tr2
      | (tr2, .ok (_ :: _)) =>
        (tr2, .panic "interface conversion: interface {} is not bool")

/-- The second inner loop of `Downgrade` (lines 106-129): wait and migrate each
replica. -/
def Downgrade.replicas (env : Env) (DowngradeVersion : String) (rsAlias : String)
    (masterUpgradeInfo : SyncInfo) (lsnTimeout : Int) :
    List InstanceCtx → Trace → Trace × Flow Unit
  | [], tr => (tr, .next ())
  | run :: rest, tr =>
    match Connect env tr ⟨"unix", run.ConsoleSocket⟩ with
    | (tr1, .error err) =>
      (printReplicasetStatus tr1 rsAlias "error",
        .abort (instErr rsAlias (GetAppInstanceName run) (some err)))
    | (tr1, .ok conn) =>
      match WaitLSN env tr1 conn masterUpgradeInfo lsnTimeout with
      | (tr2, some _) =>
        (printReplicasetStatus tr2 rsAlias "error",
          .abort (lsnErr rsAlias masterUpgradeInfo (GetAppInstanceName run) lsnTimeout))
      | (tr2, none) =>
        match internalDowngrade env DowngradeVersion tr2 conn with
        | (tr3, .panic msg) => (tr3, .panic msg)
        | (tr3, .ret (_, some err)) =>
          (printReplicasetStatus tr3 rsAlias "error",
            .abort (instErr rsAlias (GetAppInstanceName run) (some err)))
        | (tr3, .ret (_, none)) =>
          Downgrade.replicas env DowngradeVersion rsAlias masterUpgradeInfo lsnTimeout rest tr3

/-- The body of the outer loop of `Downgrade` (lines 50-130) for one replicaset. -/
def Downgrade.replicaset (env : Env) (DowngradeVersion : String) (lsnTimeout : Int)
    (rs : Replicaset) (tr : Trace) : Trace × Flow Unit :=
  match Downgrade.classify env rs.Alias rs.Instances none [] tr with
  | (tr1, .abort err) => (tr1, .abort err)
  | (tr1, .panic msg) => (tr1, .panic msg)
  | (tr1, .next (none, _)) =>
    (printReplicasetStatus tr1 rs.Alias "error",
      .abort (.errorString ("[" ++ rs.Alias ++ "]: has not master instance")))
  | (tr1, .next (some masterRun, replicRun)) =>
    match Connect env tr1 ⟨"unix", masterRun.ConsoleSocket⟩ with
    | (tr2, .error err) =>
      (printReplicasetStatus tr2 rs.Alias "error",
        .abort (instErr rs.Alias (GetAppInstanceName masterRun) (some err)))
    | (tr2, .ok conn) =>
      match internalDowngrade env DowngradeVersion tr2 conn with
      | (tr3, .panic msg) => (tr3, .panic msg)
      | (tr3, .ret (_, some err)) =>
        (printReplicasetStatus tr3 rs.Alias "error",
          .abort (instErr rs.Alias (GetAppInstanceName masterRun) (some err)))
      | (tr3, .ret (masterUpgradeInfo, none)) =>
        match Downgrade.replicas env DowngradeVersion rs.Alias masterUpgradeInfo lsnTimeout
            replicRun tr3 with
        | (tr4, .next _) => (printReplicasetStatus tr4 rs.Alias "ok", .next ())
        | (tr4, .abort err) => (tr4, .abort err)
        | (tr4, .panic msg) => (tr4, .panic msg)

/-- The outer loop of `Downgrade` (lines 49-131). -/
def Downgrade.loop (env : Env) (DowngradeVersion : String) (lsnTimeout : Int) :
    List Replicaset → Trace → Trace × Outcome (Option GoError)
  | [], tr => (tr, .ret none)
  | rs :: rest, tr =>
    match Downgrade.replicaset env DowngradeVersion lsnTimeout rs tr with
    | (tr1, .next _) => Downgrade.loop env DowngradeVersion lsnTimeout rest tr1
    | (tr1, .abort err) => (tr1, .ret (some err))
    | (tr1, .panic msg) => (tr1, .panic msg)

/-- The function `Downgrade`: the history of the run and how it ends. -/
def Downgrade (env : Env) (DowngradeVersion : String) (replicasets : Replicasets)
    (pendingReplicasetAliases : List String) (lsnTimeout : Int) :
    Trace × Outcome (Option GoError) :=
  match GetAllowedReplicasets env.IsPrintTable replicasets pendingReplicasetAliases with
  | (_, some err) => ([], .ret (some err))
  | (allowedReplicasets, none) =>
    Downgrade.loop env DowngradeVersion lsnTimeout allowedReplicasets []

/-! ## The orchestration in the words of the spec

The spec (4.4 and 9) describes upgrade and downgrade as one algorithm
"parametrized by (procedure body, optional version argument)".  `Orchestrate`
is that algorithm, written from the five steps of 4.4 with the procedure
`script` and its arguments `args` as parameters; it is compared with `Upgrade`
and `Downgrade` below. -/

/-- Step 3 and the end of step 4 of the spec: invoke the named migration procedure
and decode its result; a remote-reported error is an error. -/
def Orchestrate.migrate (env : Env) (script : String) (args : List Value) (tr : Trace)
    (conn : Connector) : Trace × Outcome (SyncInfo × Option GoError) :=
  match conn.Eval env tr script args with
  | (tr1, .error err) => (tr1, .ret (⟨0, 0, none⟩, some err))
  | (tr1, .ok []) => (tr1, .panic "runtime error: index out of range [0] with length 0")
  | (tr1, .ok (v :: _)) =>
    match env.Decode v with
    | (info, some err) => (tr1, .ret (info, some err))
    | (info, none) =>
      match info.Err with
      | some s => (tr1, .ret (info, some (.errorString s)))
      | none => (tr1, .ret (info, none))

/-- Steps 1 and 2 of the spec: classify every instance by the predicate and
require exactly one master candidate. -/
def Orchestrate.classify (env : Env) (rsAlias : String) :
    List Instance → Option InstanceCtx → List InstanceCtx → Trace →
      Trace × Flow (Option InstanceCtx × List InstanceCtx)
  | [], master, replicas, tr => (tr, .next (master, replicas))
  | inst :: rest, master, replicas, tr =>
    match Connect env tr ⟨"unix", inst.InstanceCtx.ConsoleSocket⟩ with
    | (tr1, .error err) =>
      (printReplicasetStatus tr1 rsAlias "error",
        .abort (instErr rsAlias (GetAppInstanceName inst.InstanceCtx) (some err)))
    | (tr1, .ok conn) =>
      match conn.Eval env tr1 roExpr [] with
      | (tr2, .error err) =>
        (printReplicasetStatus tr2 rsAlias "error",
          .abort (instErr rsAlias (GetAppInstanceName inst.InstanceCtx) (some err)))
      | (tr2, .ok []) =>
        (printReplicasetStatus tr2 rsAlias "error",
          .abort (instErr rsAlias (GetAppInstanceName inst.InstanceCtx) none))
      | (tr2, .ok (.bool false :: _)) =>
        match master with
        | some m =>
          (printReplicasetStatus tr2 rsAlias "error",
            .abort (.errorString ("[" ++ rsAlias ++ "]: " ++ GetAppInstanceName m ++ " and "
              ++ GetAppInstanceName inst.InstanceCtx ++ " are both masters")))
        | none => Orchestrate.classify env rsAlias rest (some inst.InstanceCtx) replicas tr2
      | (tr2, .ok (.bool true :: _)) =>
        Orchestrate.classify env rsAlias rest master (replicas ++ [inst.InstanceCtx]) tr2
      | (tr2, .ok (_ :: _)) =>
        (tr2, .panic "interface conversion: interface {} is not bool")

/-- Step 4 of the spec: for each replica in list order, reconnect, wait for the
log position of the master, then invoke the same procedure. -/
def Orchestrate.replicas (env : Env) (script : String) (args : List Value) (rsAlias : String)
    (info : SyncInfo) (lsnTimeout : Int) : List InstanceCtx → Trace → Trace × Flow Unit
  | [], tr => (tr, .next ())
  | run :: rest, tr =>
    match Connect env tr ⟨"unix", run.ConsoleSocket⟩ with
    | (tr1, .error err) =>
      (printReplicasetStatus tr1 rsAlias "error",
        .abort (instErr rsAlias (GetAppInstanceName run) (some err)))
    | (tr1, .ok conn) =>
      match WaitLSN env tr1 conn info lsnTimeout with
      | (tr2, some _) =>
        (printReplicasetStatus tr2 rsAlias "error",
          .abort (lsnErr rsAlias info (GetAppInstanceName run) lsnTimeout))
      | (tr2, none) =>
        match Orchestrate.migrate env script args tr2 conn with
        | (tr3, .panic msg) => (tr3, .panic msg)
        | (tr3, .ret (_, some err)) =>
          (printReplicasetStatus tr3 rsAlias "error",
            .abort (instErr rsAlias (GetAppInstanceName run) (some err)))
        | (tr3, .ret (_, none)) =>
          Orchestrate.replicas env script args rsAlias info lsnTimeout rest tr3

/-- The state machine of the spec for one replicaset: classify, validate, migrate
the master, propagate to the replicas, report. -/
def Orchestrate.replicaset (env : Env) (script : String) (args : List Value)
    (lsnTimeout : Int) (rs : Replicaset) (tr : Trace) : Trace × Flow Unit :=
  match Orchestrate.classify env rs.Alias rs.Instances none [] tr with
  | (tr1, .abort err) => (tr1, .abort err)
  | (tr1, .panic msg) => (tr1, .panic msg)
  | (tr1, .next (none, _)) =>
    (printReplicasetStatus tr1 rs.Alias "error",
      .abort (.errorString ("[" ++ rs.Alias ++ "]: has not master instance")))
  | (tr1, .next (some master, replicas)) =>
    match Connect env tr1 ⟨"unix", master.ConsoleSocket⟩ with
    | (tr2, .error err) =>
      (printReplicasetStatus tr2 rs.Alias "error",
        .abort (instErr rs.Alias (GetAppInstanceName master) (some err)))
    | (tr2, .ok conn) =>
      match Orchestrate.migrate env script args tr2 conn with
      | (tr3, .panic msg) => (tr3, .panic msg)
      | (tr3, .ret (_, some err)) =>
        (printReplicasetStatus tr3 rs.Alias "error",
          .abort (instErr rs.Alias (GetAppInstanceName master) (some err)))
      | (tr3, .ret (info, none)) =>
        match Orchestrate.replicas env script args rs.Alias info lsnTimeout replicas tr3 with
        | (tr4, .next _) => (printReplicasetStatus tr4 rs.Alias "ok", .next ())
        | (tr4, .abort err) => (tr4, .abort err)
        | (tr4, .panic msg) => (tr4, .panic msg)

/-- Step 5 of the spec: the batch stops at the first replicaset that fails. -/
def Orchestrate.loop (env : Env) (script : String) (args : List Value) (lsnTimeout : Int) :
    List Replicaset → Trace → Trace × Outcome (Option GoError)
  | [], tr => (tr, .ret none)
  | rs :: rest, tr =>
    match Orchestrate.replicaset env script args lsnTimeout rs tr with
    | (tr1, .next _) => Orchestrate.loop env script args lsnTimeout rest tr1
    | (tr1, .abort err) => (tr1, .ret (some err))
    | (tr1, .panic msg) => (tr1, .panic msg)

/-- Step 6 of the spec and the whole algorithm: filter by the alias list, then
process the selected replicasets with the procedure `script` on `args`. -/
def Orchestrate (env : Env) (script : String) (args : List Value) (replicasets : Replicasets)
    (aliases : List String) (lsnTimeout : Int) : Trace × Outcome (Option GoError) :=
  match GetAllowedReplicasets env.IsPrintTable replicasets aliases with
  | (_, some err) => ([], .ret (some err))
  | (selected, none) => Orchestrate.loop env script args lsnTimeout selected []

/-- The migration events of an upgrade turned into those of a downgrade to
`version`: an evaluation of the upgrade script with no argument becomes the
evaluation of the downgrade script with the version string, on the same
connection and with the same reply; every other event is kept. -/
def toDowngrade (env : Env) (version : String) : Event → Event
  | .eval conn expr args res =>
    if expr = env.upgradeLuaScript ∧ args = [] then
      .eval conn env.downgradeLuaScript [.string version] res
    else .eval conn expr args res
  | e => e

/-- The upgrade and downgrade procedures answer alike: at a downgrade history
that corresponds to an upgrade history, every connection attempt, predicate
evaluation and log-position poll is answered as in the upgrade history, and
the downgrade script is answered as the upgrade script was. -/
def AnswerAlike (env : Env) (version : String) : Prop :=
  (∀ tr o, env.Connect (tr.map (toDowngrade env version)) o = env.Connect tr o) ∧
  (∀ tr c, env.Eval (tr.map (toDowngrade env version)) c roExpr [] = env.Eval tr c roExpr []) ∧
  (∀ tr c i, env.Eval (tr.map (toDowngrade env version)) c (vclockExpr i) [] =
    env.Eval tr c (vclockExpr i) []) ∧
  (∀ tr c, env.Eval (tr.map (toDowngrade env version)) c env.downgradeLuaScript
    [.string version] = env.Eval tr c env.upgradeLuaScript [])

/-- The migration script of an orchestrator: `Downgrade` when `down`, else
`Upgrade`. -/
def migrationScript (env : Env) (down : Bool) : String :=
  if down then env.downgradeLuaScript else env.upgradeLuaScript

/-- The arguments that an orchestrator gives to its migration script. -/
def migrationArgs (DowngradeVersion : String) (down : Bool) : List Value :=
  if down then [.string DowngradeVersion] else []

/-- Either orchestrator: `Downgrade` when `down`, else `Upgrade`. -/
def orchestrator (env : Env) (DowngradeVersion : String) (down : Bool) :
    Replicasets → List String → Int → Trace × Outcome (Option GoError) :=
  if down then Downgrade env DowngradeVersion else Upgrade env

/-- The replica loop of either orchestrator. -/
def replicaLoop (env : Env) (DowngradeVersion : String) (down : Bool) :
    String → SyncInfo → Int → List InstanceCtx → Trace → Trace × Flow Unit :=
  if down then Downgrade.replicas env DowngradeVersion else Upgrade.replicas env

/-! ## `replicaset`: iteration over instances -/

/-- The interface `InstanceEvaler`: its method `Eval(instance, evaler)`, run at
a history, leaves a history and returns a boolean and an error. -/
abbrev InstanceEvaler := Trace → InstanceCtx → Connector → Trace × (Bool × Option GoError)

/-- The adapter `InstanceEvalFunc`: its method `Eval` calls the function. -/
def InstanceEvalFunc
    (fn : Trace → InstanceCtx → Connector → Trace × (Bool × Option GoError)) : InstanceEvaler :=
  fun tr inst evaler => fn tr inst evaler

/-- An evaluator supplied by the caller.  What it returns is outside the
repository: `answer` decides it from the history so far, the instance and the
connection, and the call is recorded with what it returned. -/
def callerEvaler (answer : Trace → InstanceCtx → Connector → Bool × Option GoError) :
    InstanceEvaler :=
  fun tr inst evaler =>
    (tr ++ [Event.call inst evaler (answer tr inst evaler).1 (answer tr inst evaler).2],
      answer tr inst evaler)

/-- The `for` loop of `evalForeach` from `connected` and history `tr`:
`.error err` when the loop body returns `err`, `.ok connected` when the loop is
left, by exhaustion or by `break`. -/
def evalForeach.loop (env : Env) (ievaler : InstanceEvaler) (skipConnectError : Bool) :
    List InstanceCtx → Nat → Trace → Trace × Except GoError Nat
  | [], connected, tr => (tr, .ok connected)
  | inst :: rest, connected, tr =>
    match Connect env tr ⟨"unix", inst.ConsoleSocket⟩ with
    | (tr1, .error err) =>
      if !skipConnectError then
        (tr1, .error (.wrapError ("failed to connect to '" ++ inst.AppName ++ ":"
          ++ inst.InstName ++ "': " ++ err.Error) err))
      else
        evalForeach.loop env ievaler skipConnectError rest connected
          (tr1 ++ [Event.debugf ("failed to connect to '" ++ inst.AppName ++ ":"
            ++ inst.InstName ++ "': " ++ err.Error)])
    | (tr1, .ok conn) =>
      match ievaler tr1 inst conn with
      | (tr2, (done, err)) =>
        match err with
        | some e => (tr2 ++ [Event.close conn], .error e)
        | none =>
          if done then (tr2 ++ [Event.close conn], .ok (connected + 1))
          else
            evalForeach.loop env ievaler skipConnectError rest (connected + 1)
              (tr2 ++ [Event.close conn])

/-- The function `evalForeach`: the history of the call and the returned error. -/
def evalForeach (env : Env) (instances : List InstanceCtx) (ievaler : InstanceEvaler)
    (skipConnectError : Bool) : Trace × Option GoError :=
  if instances.length = 0 then ([], some (.errorString "no instances to connect"))
  else
    match evalForeach.loop env ievaler skipConnectError instances 0 [] with
    | (tr, .error err) => (tr, some err)
    | (tr, .ok connected) =>
      if connected = 0 then (tr, some (.errorString "failed to connect to any instance"))
      else (tr, none)

/-- The function `EvalForeach`. -/
def EvalForeach (env : Env) (instances : List InstanceCtx) (ievaler : InstanceEvaler) :
    Trace × Option GoError :=
  evalForeach env instances ievaler false

/-- The function `EvalForeachAlive`. -/
def EvalForeachAlive (env : Env) (instances : List InstanceCtx) (ievaler : InstanceEvaler) :
    Trace × Option GoError :=
  evalForeach env instances ievaler true

/-- The function literal in `EvalAny`: it calls `ievaler` and returns `true`
with the error of that call. -/
def EvalAny.func1 (ievaler : InstanceEvaler) :
    Trace → InstanceCtx → Connector → Trace × (Bool × Option GoError) :=
  fun tr inst evaler =>
    match ievaler tr inst evaler with
    | (tr1, (_, err)) => (tr1, (true, err))

/-- The function `EvalAny`. -/
def EvalAny (env : Env) (instances : List InstanceCtx) (ievaler : InstanceEvaler) :
    Trace × Option GoError :=
  EvalForeachAlive env instances (InstanceEvalFunc (EvalAny.func1 ievaler))

/-! ## `cluster`: the effective configuration of an instance -/

/-- Modelled from the spec: the Path Document (`cluster.Config`), whose source is
not in the repository sources at hand.  A document is given by its terminal
nodes in traversal order: a leaf path with its scalar value (`some v`), or the
path of an empty nested document (`none`). -/
abbrev Config (α : Type) := List (List String × Option α)

/-- Modelled from the spec: `NewConfig()`, the empty document. -/
def NewConfig {α : Type} : Config α := []

/-- Modelled from the spec: `Set(path, value)`, which creates intermediate
nesting as needed; what was at the path, above it or below it is replaced. -/
def Config.Set {α : Type} (c : Config α) (path : List String) (value : α) : Config α :=
  c.filter (fun e => !(e.1.isPrefixOf path) && !(path.isPrefixOf e.1)) ++ [(path, some value)]

/-- Modelled from the spec: `ForEach(nil, visitor)`, the traversal of all leaf
paths of the document with their values. -/
def Config.leaves {α : Type} (c : Config α) : List (List String × α) :=
  c.filterMap (fun e => e.2.map (fun v => (e.1, v)))

/-- Modelled from the spec: `Get(path)` at a leaf path: the value of the leaf,
`none` for NotFound. -/
def Config.Get {α : Type} (c : Config α) (path : List String) : Option α :=
  c.leaves.lookup path

/-- Modelled from the spec: the raw sub-document rooted at `root` that a Group,
Replicaset or Instance Config wraps; it is not stripped of its own nested
`replicasets` or `instances` keys. -/
def Config.sub {α : Type} (c : Config α) (root : List String) : Config α :=
  c.filterMap (fun e => if root.isPrefixOf e.1 then some (e.1.drop root.length, e.2) else none)

/-- Modelled from the spec: the occurrence of instance `name` under
`groups.*.replicasets.*.instances.*`, the first one met in the traversal: its
group and its replicaset. -/
def locate {α : Type} (c : Config α) (name : String) : Option (String × String) :=
  c.findSome? (fun e =>
    match e.1 with
    | k1 :: g :: k2 :: r :: k3 :: i :: _ =>
      if k1 = "groups" ∧ k2 = "replicasets" ∧ k3 = "instances" ∧ i = name then some (g, r)
      else none
    | _ => none)

/-- Modelled from the spec: the leaves that a chain element hands down: those
not nested under its structural key (`groups` for the global level,
`replicasets` for a group, `instances` for a replicaset), which is never copied
into the result. -/
def inheritable {α : Type} (doc : Config α) (structural : String) : List (List String × α) :=
  doc.leaves.filter (fun e => e.1.head? != some structural)

/-- Modelled from the spec: the ancestor chain of instance `name`, the most
specific element first: the instance itself, the owning replicaset, the owning
group, the global level; the global level alone when the name matches nothing. -/
def chain {α : Type} (c : Config α) (name : String) : List (List (List String × α)) :=
  match locate c name with
  | some (g, r) =>
    [(c.sub ["groups", g, "replicasets", r, "instances", name]).leaves,
      inheritable (c.sub ["groups", g, "replicasets", r]) "instances",
      inheritable (c.sub ["groups", g]) "replicasets",
      inheritable c "groups"]
  | none => [inheritable c "groups"]

/-- Modelled from the spec: a list of terminal nodes is a Path Document when no
path in it is a prefix of another one: a key holds a scalar or a nested
document, and the keys at a given level are unique. -/
def Config.isDocument {α : Type} (c : Config α) : Prop :=
  c.Pairwise (fun a b => a.1.isPrefixOf b.1 = false ∧ b.1.isPrefixOf a.1 = false)

/-- Modelled from the spec: the leaf paths present under an element of the
chain, each once, in the order of the most specific chain element that defines
them, from the global level to the instance. -/
def definedPaths {α : Type} (levels : List (List (List String × α))) : List (List String) :=
  (levels.reverse.flatten.map Prod.fst).dedup

/-- Modelled from the spec: what `Instantiate` writes: for every leaf path
present under an element of the chain, the value from the most specific chain
element that defines it. -/
def writes {α : Type} (levels : List (List (List String × α))) : List (List String × α) :=
  (definedPaths levels).filterMap (fun p =>
    (levels.findSome? (fun level => level.lookup p)).map (fun v => (p, v)))

/-- Modelled from the spec: `cluster.Instantiate`, whose source is not in the
repository sources at hand: a fresh document into which, for every leaf path
present under an element of the ancestor chain, the value from the most
specific chain element that defines it is written with `Set`, the paths of the
global level first and those of the instance last. -/
def Instantiate {α : Type} (c : Config α) (name : String) : Config α :=
  (writes (chain c name)).foldl (fun doc w => doc.Set w.1 w.2) NewConfig

/-- No leaf path that an element of the chain hands down is a proper prefix of
another such path, so that all of them fit into one Path Document. -/
def noConflict {α : Type} (levels : List (List (List String × α))) : Bool :=
  (definedPaths levels).all (fun p =>
    (definedPaths levels).all (fun q => !p.isPrefixOf q || p == q))

/-- A configuration in which the instance name `i` occurs under two
replicasets. -/
def duplicateConfig : Config Nat :=
  (NewConfig.Set ["groups", "a", "replicasets", "b", "instances", "i", "x"] 1).Set
    ["groups", "c", "replicasets", "d", "instances", "i", "y"] 2

/-- A configuration in which the global leaf `foo` is a proper prefix of the
leaf `foo.bar` of instance `i`. -/
def conflictConfig : Config Nat :=
  (NewConfig.Set ["foo"] 1).Set
    ["groups", "a", "replicasets", "b", "instances", "i", "foo", "bar"] 2

/-- The configuration of `TestInstantiate_inherbit`. -/
def inherbitConfig : Config Nat :=
  ((((((((((((((((NewConfig.Set
    ["groups", "a", "replicasets", "b", "instances", "exist", "foo"] 1).Set
    ["groups", "a", "replicasets", "b", "foo"] 2).Set
    ["groups", "a", "foo"] 3).Set
    ["foo"] 4).Set
    ["groups", "a", "replicasets", "b", "car"] 2).Set
    ["groups", "a", "car"] 3).Set
    ["car"] 4).Set
    ["groups", "a", "voo"] 3).Set
    ["voo"] 4).Set
    ["boo"] 4).Set
    ["bar", "foo"] 4).Set
    ["groups", "a", "replicasets", "b", "instances", "x", "tar"] 3).Set
    ["groups", "a", "replicasets", "x", "instances", "b", "tar"] 3).Set
    ["groups", "x", "replicasets", "b", "instances", "b", "tar"] 3).Set
    ["groups", "a", "replicasets", "x", "tar"] 4).Set
    ["groups", "x", "tar"] 4).Set
    ["groups", "x", "foo"] 5

/-- The configuration of `TestInstantiate_global`. -/
def globalConfig : Config Nat :=
  ((((NewConfig.Set ["foo"] 1).Set ["bar", "foo"] 2).Set
    ["groups", "a", "replicasets", "b", "instances", "c", "x"] 3).Set
    ["groups", "a", "replicasets", "b", "x"] 4).Set
    ["groups", "a", "x"] 5

/-! ## Observers of a run

The remote endpoints answer from the history, so a statement about "the k-th
poll" or "the answer of the i-th instance" has to name the history at which the
call is made.  The functions below compute these histories and answers; they
are used in the statements only. -/

/-- The answer to the `k`-th log-position poll (counted from 0) of a wait on
`conn` that starts at history `tr`, the earlier polls not having ended it. -/
def pollAt (env : Env) (conn : Connector) (iid : Nat) : Nat → Trace → Except GoError (List Value)
  | 0, tr => env.Eval tr conn (vclockExpr iid) []
  | k + 1, tr =>
    pollAt env conn iid k (tr ++ [Event.eval conn (vclockExpr iid) []
      (env.Eval tr conn (vclockExpr iid) []), Event.sleep])

/-- The events of the first `k` polls of such a wait, each followed by the
one second sleep. -/
def pollEvents (env : Env) (conn : Connector) (iid : Nat) : Nat → Trace → List Event
  | 0, _ => []
  | k + 1, tr =>
    [Event.eval conn (vclockExpr iid) [] (env.Eval tr conn (vclockExpr iid) []), Event.sleep]
      ++ pollEvents env conn iid k (tr ++ [Event.eval conn (vclockExpr iid) []
        (env.Eval tr conn (vclockExpr iid) []), Event.sleep])

/-- An event is a remote evaluation. -/
def Event.isEval : Event → Bool
  | .eval _ _ _ _ => true
  | _ => false

/-- An event is an evaluation of the migration procedure. -/
def Event.isMigration (env : Env) : Event → Bool
  | .eval _ expr _ _ => expr = env.upgradeLuaScript
  | _ => false

/-- An event is a log-position poll for component `iid`. -/
def Event.isPoll (iid : Nat) : Event → Bool
  | .eval _ expr _ _ => expr = vclockExpr iid
  | _ => false

/-- An event is a connection attempt. -/
def Event.isConnect : Event → Bool
  | .connect _ _ => true
  | _ => false

/-- The two events of the classification of instance `inst` at history `tr` when
its connection succeeds: the connect and the evaluation of the predicate. -/
def roEvents (env : Env) (tr : Trace) (inst : Instance) : List Event :=
  [Event.connect ⟨"unix", inst.InstanceCtx.ConsoleSocket⟩ none,
    Event.eval ⟨inst.InstanceCtx.ConsoleSocket, tr.length⟩ roExpr []
      (env.Eval (tr ++ [Event.connect ⟨"unix", inst.InstanceCtx.ConsoleSocket⟩ none])
        ⟨inst.InstanceCtx.ConsoleSocket, tr.length⟩ roExpr [])]

/-- What instance `inst` reports when classified at history `tr`: `some b` when it
accepts the connection and the predicate evaluates without error to a result
whose first element is the boolean `b` (true: replica candidate, false: master
candidate), and `none` otherwise. -/
def report (env : Env) (tr : Trace) (inst : Instance) : Option Bool :=
  match env.Connect tr ⟨"unix", inst.InstanceCtx.ConsoleSocket⟩ with
  | some _ => none
  | none =>
    match env.Eval (tr ++ [Event.connect ⟨"unix", inst.InstanceCtx.ConsoleSocket⟩ none])
        ⟨inst.InstanceCtx.ConsoleSocket, tr.length⟩ roExpr [] with
    | .ok (.bool b :: _) => some b
    | _ => none

/-- The events of classifying the instances one after the other from history `tr`. -/
def classEvents (env : Env) : Trace → List Instance → List Event
  | _, [] => []
  | tr, inst :: rest => roEvents env tr inst ++ classEvents env (tr ++ roEvents env tr inst) rest

/-- What the instances report when classified one after the other from history
`tr`; `none` when one of them fails to connect or to report a boolean. -/
def reports (env : Env) : Trace → List Instance → Option (List Bool)
  | _, [] => some []
  | tr, inst :: rest =>
    match report env tr inst, reports env (tr ++ roEvents env tr inst) rest with
    | some b, some bs => some (b :: bs)
    | _, _ => none

/-- The options of the connect events of a history, in order. -/
def connects (tr : List Event) : List ConnectOpts :=
  tr.filterMap (fun e => match e with
    | .connect opts _ => some opts
    | _ => none)

/-- The strings printed in a history, in order. -/
def printed (tr : List Event) : List String :=
  tr.filterMap (fun e => match e with
    | .print s => some s
    | _ => none)

/-- The line that `printReplicasetStatus` prints. -/
def statusLine (rsAlias status : String) : String :=
  "• " ++ rsAlias ++ ": " ++ status ++ "\n"

/-- A reply to a log-position poll that makes `WaitLSN` return nil: it is empty
or its first element is read as a position at or beyond the LSN. -/
def endsWait (info : SyncInfo) (res : Except GoError (List Value)) : Prop :=
  res = .ok [] ∨ ∃ v vs, res = .ok (v :: vs) ∧ info.LSN ≤ lsnOf v

/-- Every evaluation of the migration procedure in `evs` comes directly after a
poll on the same connection for the component of `info` whose reply ended the
wait; `pre` is the history before `evs`. -/
def MigrationsFollowPolls (env : Env) (info : SyncInfo) (pre evs : List Event) : Prop :=
  ∀ before c res after, evs = before ++ Event.eval c env.upgradeLuaScript [] res :: after →
    ∃ b0 r0, pre ++ before = b0 ++ [Event.eval c (vclockExpr info.IID) [] r0] ∧
      endsWait info r0

/-- The events of one wait for the log position `info.LSN` of component
`info.IID` on connection `conn`, from the history `hist` with `n` polls left.
Every poll is an evaluation on `conn` recorded with what the endpoint answers at
that point of the history; a reply below the position is followed by a sleep
and the next poll.  `reached` tells that the wait ended without error: the last
reply ended the wait. -/
inductive WaitRun (env : Env) (info : SyncInfo) (conn : Connector) :
    Trace → Nat → List Event → Bool → Prop
  | timeout (hist : Trace) : WaitRun env info conn hist 0 [] false
  | failed (hist : Trace) (n : Nat) (err : GoError)
      (h : env.Eval hist conn (vclockExpr info.IID) [] = .error err) :
      WaitRun env info conn hist (n + 1)
        [.eval conn (vclockExpr info.IID) [] (.error err)] false
  | ended (hist : Trace) (n : Nat)
      (he : endsWait info (env.Eval hist conn (vclockExpr info.IID) [])) :
      WaitRun env info conn hist (n + 1)
        [.eval conn (vclockExpr info.IID) [] (env.Eval hist conn (vclockExpr info.IID) [])] true
  | again (hist : Trace) (n : Nat) (v : Value) (vs : List Value) (evs : List Event)
      (reached : Bool) (h : env.Eval hist conn (vclockExpr info.IID) [] = .ok (v :: vs))
      (hl : lsnOf v < info.LSN)
      (hrest : WaitRun env info conn
        (hist ++ [.eval conn (vclockExpr info.IID) [] (.ok (v :: vs)), .sleep]) n evs reached) :
      WaitRun env info conn hist (n + 1)
        (.eval conn (vclockExpr info.IID) [] (.ok (v :: vs)) :: .sleep :: evs) reached

/-- The reply `res` to the migration procedure is a success: its first element
decodes without error to a `SyncInfo` that reports no error. -/
def migrationOk (env : Env) (res : Except GoError (List Value)) : Prop :=
  ∃ v vs info, res = .ok (v :: vs) ∧ env.Decode v = (info, none) ∧ info.Err = none

/-- The events of the replica phase of a replicaset with alias `rsAlias`, after
the master returned `info`, from the history `hist`, for the replicas `reps` in
this order.  Each replica in turn is connected to; on the connection that this
connect returned the position `info.LSN` of component `info.IID` is waited for
with at most `max(T, 0)` polls; when the wait ended without error the migration
procedure is evaluated on that same connection, and when it succeeded the next
replica follows.  A failed connect, wait or migration ends the phase with the
`error` status line (without it when the migration reply is empty).
`completed` tells that every replica was migrated. -/
inductive ReplicaRun (env : Env) (rsAlias : String) (info : SyncInfo) (T : Int) :
    Trace → List InstanceCtx → List Event → Bool → Prop
  | done (hist : Trace) : ReplicaRun env rsAlias info T hist [] [] true
  | connectFailed (hist : Trace) (run : InstanceCtx) (rest : List InstanceCtx) (err : GoError)
      (hc : env.Connect hist ⟨"unix", run.ConsoleSocket⟩ = some err) :
      ReplicaRun env rsAlias info T hist (run :: rest)
        [.connect ⟨"unix", run.ConsoleSocket⟩ (some err), .print (statusLine rsAlias "error")]
        false
  | waitFailed (hist : Trace) (run : InstanceCtx) (rest : List InstanceCtx)
      (wait : List Event)
      (hc : env.Connect hist ⟨"unix", run.ConsoleSocket⟩ = none)
      (hw : WaitRun env info ⟨run.ConsoleSocket, hist.length⟩
        (hist ++ [.connect ⟨"unix", run.ConsoleSocket⟩ none]) T.toNat wait false) :
      ReplicaRun env rsAlias info T hist (run :: rest)
        (.connect ⟨"unix", run.ConsoleSocket⟩ none :: wait
          ++ [.print (statusLine rsAlias "error")]) false
  | migrationFailed (hist : Trace) (run : InstanceCtx) (rest : List InstanceCtx)
      (wait : List Event)
      (hc : env.Connect hist ⟨"unix", run.ConsoleSocket⟩ = none)
      (hw : WaitRun env info ⟨run.ConsoleSocket, hist.length⟩
        (hist ++ [.connect ⟨"unix", run.ConsoleSocket⟩ none]) T.toNat wait true)
      (hm : ¬ migrationOk env
        (env.Eval (hist ++ .connect ⟨"unix", run.ConsoleSocket⟩ none :: wait)
          ⟨run.ConsoleSocket, hist.length⟩ env.upgradeLuaScript [])) :
      ReplicaRun env rsAlias info T hist (run :: rest)
        (.connect ⟨"unix", run.ConsoleSocket⟩ none :: wait
          ++ .eval ⟨run.ConsoleSocket, hist.length⟩ env.upgradeLuaScript []
            (env.Eval (hist ++ .connect ⟨"unix", run.ConsoleSocket⟩ none :: wait)
              ⟨run.ConsoleSocket, hist.length⟩ env.upgradeLuaScript [])
          :: (if env.Eval (hist ++ .connect ⟨"unix", run.ConsoleSocket⟩ none :: wait)
              ⟨run.ConsoleSocket, hist.length⟩ env.upgradeLuaScript [] = .ok [] then []
            else [.print (statusLine rsAlias "error")])) false
  | migrated (hist : Trace) (run : InstanceCtx) (rest : List InstanceCtx)
      (wait more : List Event) (completed : Bool)
      (hc : env.Connect hist ⟨"unix", run.ConsoleSocket⟩ = none)
      (hw : WaitRun env info ⟨run.ConsoleSocket, hist.length⟩
        (hist ++ [.connect ⟨"unix", run.ConsoleSocket⟩ none]) T.toNat wait true)
      (hm : migrationOk env
        (env.Eval (hist ++ .connect ⟨"unix", run.ConsoleSocket⟩ none :: wait)
          ⟨run.ConsoleSocket, hist.length⟩ env.upgradeLuaScript []))
      (hrest : ReplicaRun env rsAlias info T
        (hist ++ .connect ⟨"unix", run.ConsoleSocket⟩ none :: wait
          ++ [.eval ⟨run.ConsoleSocket, hist.length⟩ env.upgradeLuaScript []
            (env.Eval (hist ++ .connect ⟨"unix", run.ConsoleSocket⟩ none :: wait)
              ⟨run.ConsoleSocket, hist.length⟩ env.upgradeLuaScript [])])
        rest more completed) :
      ReplicaRun env rsAlias info T hist (run :: rest)
        (.connect ⟨"unix", run.ConsoleSocket⟩ none :: wait
          ++ .eval ⟨run.ConsoleSocket, hist.length⟩ env.upgradeLuaScript []
            (env.Eval (hist ++ .connect ⟨"unix", run.ConsoleSocket⟩ none :: wait)
              ⟨run.ConsoleSocket, hist.length⟩ env.upgradeLuaScript [])
          :: more) completed

/-! ## Sample endpoints -/

/-- A sample `mapstructure.Decode`: a table with numeric fields `lsn`, `iid` and
an optional string field `err` decodes; anything else is an error. -/
def sampleDecode : Value → SyncInfo × Option GoError
  | .table fields =>
    (⟨((fields.lookup "lsn").bind (fun x => x.getLeft?)).getD 0,
      ((fields.lookup "iid").bind (fun x => x.getLeft?)).getD 0,
      (fields.lookup "err").bind (fun x => x.getRight?)⟩, none)
  | _ => (⟨0, 0, none⟩, some (.errorString "expected a map"))

/-- Sample endpoints: every socket accepts connections; `ro sock` is the reply
of the instance at `sock` to the master/replica predicate, `mig sock` its reply
to either migration script, and `vclock sock n` its reply to a log-position
query made after `n` one-second sleeps. -/
def sampleEnv (ro : String → List Value) (mig : String → List Value)
    (vclock : String → Nat → List Value) : Env where
  Connect := fun _ _ => none
  Eval := fun tr conn expr _ =>
    if expr = roExpr then .ok (ro conn.Address)
    else if expr = "box.schema.upgrade()" then .ok (mig conn.Address)
    else if expr = "box.schema.downgrade(...)" then .ok (mig conn.Address)
    else .ok (vclock conn.Address (tr.count Event.sleep))
  Decode := sampleDecode
  upgradeLuaScript := "box.schema.upgrade()"
  IsPrintTable := fun _ => true
  downgradeLuaScript := "box.schema.downgrade(...)"

/-- Sample instances of application `app`: `m`, `r1`, `r2`, `m2`. -/
def sampleInst (name : String) : Instance := ⟨⟨"app", name, name ++ ".sock"⟩⟩

/-- Sample endpoints in which `m.sock` and `m2.sock` report to be masters and
every other socket a replica, the migration returns LSN 5 of component 1, and a
log-position query made after `n` sleeps answers the 32-bit value `4 + n`. -/
def healthyEnv : Env :=
  sampleEnv (fun sock => [.bool (sock != "m.sock" && sock != "m2.sock")])
    (fun _ => [.table [("lsn", .inl 5), ("iid", .inl 1)]]) (fun _ n => [.uint32 (4 + n)])

/-- The sample replicaset `rs0`: the master `m2` alone. -/
def sampleRs0 : Replicaset := ⟨"rs0", [sampleInst "m2"]⟩

/-- The sample replicaset `rs1`: the replica `r1`, the master `m`, the replica `r2`. -/
def sampleRs1 : Replicaset := ⟨"rs1", [sampleInst "r1", sampleInst "m", sampleInst "r2"]⟩

/-- The endpoints of `healthyEnv`, except that every log-position query on
`r2.sock` fails with a transport error. -/
def brokenPollEnv : Env :=
  { healthyEnv with
    Eval := fun tr conn expr args =>
      if conn.Address = "r2.sock" ∧ expr = vclockExpr 1 then
        .error (.errorString "connection reset by peer")
      else healthyEnv.Eval tr conn expr args }

/-! ## Observers of an iteration over instances -/

/-- The message of a failed connection to `inst` with cause `err`. -/
def connectFailure (inst : InstanceCtx) (err : GoError) : String :=
  "failed to connect to '" ++ inst.AppName ++ ":" ++ inst.InstName ++ "': " ++ err.Error

/-- The three events of a visit of `inst` whose connection succeeds at history
`tr`: the connect, the evaluator call with what it returned, the close. -/
def visitEvents (answer : Trace → InstanceCtx → Connector → Bool × Option GoError)
    (tr : Trace) (inst : InstanceCtx) : List Event :=
  [Event.connect ⟨"unix", inst.ConsoleSocket⟩ none,
    Event.call inst ⟨inst.ConsoleSocket, tr.length⟩
      (answer (tr ++ [Event.connect ⟨"unix", inst.ConsoleSocket⟩ none]) inst
        ⟨inst.ConsoleSocket, tr.length⟩).1
      (answer (tr ++ [Event.connect ⟨"unix", inst.ConsoleSocket⟩ none]) inst
        ⟨inst.ConsoleSocket, tr.length⟩).2,
    Event.close ⟨inst.ConsoleSocket, tr.length⟩]

/-- The two events of an instance that is skipped because its connection fails
with `err`: the connect and the debug line. -/
def skipEvents (inst : InstanceCtx) (err : GoError) : List Event :=
  [Event.connect ⟨"unix", inst.ConsoleSocket⟩ (some err),
    Event.debugf (connectFailure inst err)]

/-- Every instance of the list fails to connect, each at the history left by
the ones before it, from history `tr`; the result is the history left. -/
def skips (env : Env) : List InstanceCtx → Trace → Option Trace
  | [], tr => some tr
  | inst :: rest, tr =>
    match env.Connect tr ⟨"unix", inst.ConsoleSocket⟩ with
    | some err => skips env rest (tr ++ skipEvents inst err)
    | none => none

/-- The iteration passes over every instance of the list, from history `tr`:
each instance either connects and its evaluator call returns `(false, nil)`, or
fails to connect and is skipped, which only the tolerant mode (`skip`) allows;
the result is the history left. -/
def passes (env : Env) (answer : Trace → InstanceCtx → Connector → Bool × Option GoError)
    (skip : Bool) : List InstanceCtx → Trace → Option Trace
  | [], tr => some tr
  | inst :: rest, tr =>
    match env.Connect tr ⟨"unix", inst.ConsoleSocket⟩ with
    | some err => if skip then passes env answer skip rest (tr ++ skipEvents inst err) else none
    | none =>
      if answer (tr ++ [Event.connect ⟨"unix", inst.ConsoleSocket⟩ none]) inst
          ⟨inst.ConsoleSocket, tr.length⟩ = (false, none) then
        passes env answer skip rest (tr ++ visitEvents answer tr inst)
      else none

/-- The instances on which an evaluator was called in a history, in order. -/
def called (tr : List Event) : List InstanceCtx :=
  tr.filterMap (fun e => match e with
    | .call inst _ _ _ => some inst
    | _ => none)

/-- The connections that are open after the events `tr`, the first of which is
the event number `p` of the run, when `conns` were open before them: a
successful connect opens the connection it returns, a close closes its
connection. -/
def openAfter : Nat → List Event → List Connector → List Connector
  | _, [], conns => conns
  | p, .connect opts none :: rest, conns => openAfter (p + 1) rest (conns ++ [⟨opts.Address, p⟩])
  | p, .close conn :: rest, conns => openAfter (p + 1) rest (conns.erase conn)
  | p, _ :: rest, conns => openAfter (p + 1) rest conns

/-- The connections that are open after a whole history. -/
def openConns (tr : Trace) : List Connector := openAfter 0 tr []

/-- The events `tr`, the first of which is the event number `p` of the run, are
a sequence of visits: a successful connect is directly followed by one
evaluator call on the connection it returned and by the close of that
connection; a failed connect is followed by a debug line or ends the run. -/
inductive Visits : Nat → List Event → Prop
  | done (p : Nat) : Visits p []
  | visit (p : Nat) (opts : ConnectOpts) (inst : InstanceCtx) (d : Bool) (e : Option GoError)
      (rest : List Event) (hinst : inst.ConsoleSocket = opts.Address)
      (h : Visits (p + 3) rest) :
      Visits p (.connect opts none :: .call inst ⟨opts.Address, p⟩ d e
        :: .close ⟨opts.Address, p⟩ :: rest)
  | skip (p : Nat) (opts : ConnectOpts) (err : GoError) (s : String) (rest : List Event)
      (h : Visits (p + 2) rest) : Visits p (.connect opts (some err) :: .debugf s :: rest)
  | fail (p : Nat) (opts : ConnectOpts) (err : GoError) : Visits p [.connect opts (some err)]

/-- Every connection that a history opens is closed exactly once, right after
the evaluator call on it: the event after a successful connect number `p` is an
evaluator call for the instance of that socket on the connection it returned,
the next event is the close of that connection, and the history holds no other
close of it.  Hence after every
prefix of the history at most one connection is open, and none is open at the
end. -/
def ClosesEachConnection (tr : Trace) : Prop :=
  (∀ p opts, tr[p]? = some (.connect opts none) →
    (∃ inst d e, inst.ConsoleSocket = opts.Address ∧
      tr[p + 1]? = some (.call inst ⟨opts.Address, p⟩ d e)) ∧
    tr[p + 2]? = some (.close ⟨opts.Address, p⟩) ∧
    tr.count (.close ⟨opts.Address, p⟩) = 1) ∧
  (∀ n, (openConns (tr.take n)).length ≤ 1) ∧
  openConns tr = []

/-- Sample endpoints: those of `healthyEnv`, except that the sockets in `dead`
refuse connections. -/
def deadEnv (dead : List String) : Env :=
  { healthyEnv with
    Connect := fun _ opts =>
      if opts.Address ∈ dead then some (.errorString "connect: connection refused") else none }

/-- A sample evaluator: it returns `stop=true` on the instance named `stopAt`
and the error `eval failed` on the instance named `failAt`. -/
def sampleAnswer (stopAt failAt : String) : Trace → InstanceCtx → Connector →
    Bool × Option GoError :=
  fun _ inst _ =>
    (inst.InstName = stopAt, if inst.InstName = failAt then some (.errorString "eval failed")
      else none)

/-- The sample instances `a`, `b`, `c`, `d` of application `app`. -/
def sampleInstances : List InstanceCtx :=
  [⟨"app", "a", "a.sock"⟩, ⟨"app", "b", "b.sock"⟩, ⟨"app", "c", "c.sock"⟩, ⟨"app", "d", "d.sock"⟩]

/-! ## Alias filter: lemmas -/

theorem replicasetMap_foldl_some (all : List Replicaset) (m0 : String → Option Replicaset)
    (a : String) (rs : Replicaset)
    (h : all.foldl (fun m rs => fun k => if k = rs.Alias then some rs else m k) m0 a = some rs) :
    (rs ∈ all ∧ rs.Alias = a) ∨ m0 a = some rs := by
  induction all generalizing m0 with
  | nil => exact Or.inr h
  | cons x xs ih =>
    rw [List.foldl_cons] at h
    rcases ih _ h with ⟨hm, ha⟩ | h2
    · exact Or.inl ⟨List.mem_cons_of_mem _ hm, ha⟩
    · by_cases hx : a = x.Alias
      · simp only [hx, if_true, Option.some.injEq] at h2
        subst h2
        exact Or.inl ⟨List.mem_cons_self _ _, hx.symm⟩
      · simp only [hx, if_false] at h2
        exact Or.inr h2

theorem replicasetMap_foldl_none (all : List Replicaset) (m0 : String → Option Replicaset)
    (a : String) :
    all.foldl (fun m rs => fun k => if k = rs.Alias then some rs else m k) m0 a = none ↔
      m0 a = none ∧ ∀ rs ∈ all, rs.Alias ≠ a := by
  induction all generalizing m0 with
  | nil => simp
  | cons x xs ih =>
    rw [List.foldl_cons, ih]
    by_cases hx : a = x.Alias
    · subst hx
      simp
    · have hx2 : ¬ x.Alias = a := fun h => hx h.symm
      simp [hx, hx2]

theorem replicasetMap_some (all : List Replicaset) (a : String) (rs : Replicaset)
    (h : replicasetMap all a = some rs) : rs ∈ all ∧ rs.Alias = a := by
  rcases replicasetMap_foldl_some all _ a rs h with h1 | h1
  · exact h1
  · cases h1

theorem replicasetMap_none (all : List Replicaset) (a : String) :
    replicasetMap all a = none ↔ ∀ rs ∈ all, rs.Alias ≠ a := by
  unfold replicasetMap
  rw [replicasetMap_foldl_none]
  simp

theorem allowed_loop_ok (table : Char → Bool) (m : String → Option Replicaset)
    (aliases : List String) (acc res : List Replicaset)
    (h : GetAllowedReplicasets.loop table m aliases acc = (res, none)) :
    ∃ sel, res = acc ++ sel ∧ List.Forall₂ (fun a rs => m a = some rs) aliases sel := by
  induction aliases generalizing acc with
  | nil =>
    simp only [GetAllowedReplicasets.loop, Prod.mk.injEq, and_true] at h
    exact ⟨[], by simp [h], List.Forall₂.nil⟩
  | cons a rest ih =>
    unfold GetAllowedReplicasets.loop at h
    cases hm : m a with
    | none => simp [hm] at h
    | some rs =>
      simp only [hm] at h
      obtain ⟨sel, hres, hsel⟩ := ih _ h
      exact ⟨rs :: sel, by simp [hres], List.Forall₂.cons hm hsel⟩

theorem allowed_loop_err (table : Char → Bool) (m : String → Option Replicaset)
    (found : List String) (a : String) (rest : List String) (acc : List Replicaset)
    (hfound : ∀ x ∈ found, m x ≠ none) (ha : m a = none) :
    GetAllowedReplicasets.loop table m (found ++ a :: rest) acc =
      ([], some (.errorString
        ("replicaset with alias " ++ Quote table a ++ " doesn't exist"))) := by
  induction found generalizing acc with
  | nil => simp [GetAllowedReplicasets.loop, ha]
  | cons x xs ih =>
    have hx : m x ≠ none := hfound x (List.mem_cons_self _ _)
    cases hm : m x with
    | none => exact absurd hm hx
    | some rs =>
      simp only [List.cons_append, GetAllowedReplicasets.loop, hm]
      exact ih _ (fun y hy => hfound y (List.mem_cons_of_mem _ hy))

theorem allowed_loop_total (table : Char → Bool) (m : String → Option Replicaset)
    (aliases : List String) (acc : List Replicaset) (h : ∀ x ∈ aliases, m x ≠ none) :
    (GetAllowedReplicasets.loop table m aliases acc).2 = none := by
  induction aliases generalizing acc with
  | nil => rfl
  | cons x xs ih =>
    have hx : m x ≠ none := h x (List.mem_cons_self _ _)
    cases hm : m x with
    | none => exact absurd hm hx
    | some rs =>
      simp only [GetAllowedReplicasets.loop, hm]
      exact ih _ (fun y hy => h y (List.mem_cons_of_mem _ hy))

/-- Every list splits at its first element satisfying a decidable property. -/
theorem exists_first_split {α : Type} (p : α → Prop) [DecidablePred p] (l : List α)
    (h : ∃ x ∈ l, p x) : ∃ l1 a l2, l = l1 ++ a :: l2 ∧ (∀ x ∈ l1, ¬ p x) ∧ p a := by
  induction l with
  | nil => simp at h
  | cons x xs ih =>
    by_cases hx : p x
    · exact ⟨[], x, xs, rfl, by simp, hx⟩
    · have h2 : ∃ y ∈ xs, p y := by
        obtain ⟨y, hy, hpy⟩ := h
        rcases List.mem_cons.mp hy with rfl | hy
        · exact absurd hpy hx
        · exact ⟨y, hy, hpy⟩
      obtain ⟨l1, a, l2, hl, h1, h2⟩ := ih h2
      refine ⟨x :: l1, a, l2, by simp [hl], ?_, h2⟩
      intro y hy
      rcases List.mem_cons.mp hy with rfl | hy
      · exact hx
      · exact h1 y hy

/-- On a string of printable ASCII characters other than the double quote and the
backslash, `%q` puts the string between double quotes. -/
theorem Quote_plain (table : Char → Bool) (s : String)
    (h : ∀ c ∈ s.toList, 0x20 ≤ c.toNat ∧ c.toNat ≤ 0x7E ∧ c.toNat ≠ 34 ∧ c.toNat ≠ 92) :
    Quote table s = "\"" ++ s ++ "\"" := by
  have hmap : ∀ l : List Char,
      (∀ c ∈ l, 0x20 ≤ c.toNat ∧ c.toNat ≤ 0x7E ∧ c.toNat ≠ 34 ∧ c.toNat ≠ 92) →
      (l.map (appendEscapedRune table)).flatten = l := by
    intro l
    induction l with
    | nil => intro _; rfl
    | cons c cs ih =>
      intro hl
      obtain ⟨h1, h2, h3, h4⟩ := hl c (List.mem_cons_self _ _)
      have hp : IsPrint table c = true := by
        unfold IsPrint
        have : c.toNat ≤ 0xFF := by omega
        simp [this, h1, h2]
      have hc : appendEscapedRune table c = [c] := by
        unfold appendEscapedRune
        simp [h3, h4, hp]
      simp only [List.map_cons, List.flatten_cons, hc]
      rw [ih (fun y hy => hl y (List.mem_cons_of_mem _ hy))]
      rfl
  unfold Quote
  rw [hmap _ h]
  apply String.ext
  simp [String.data_append]

/-! ## C9, C10: `GetAllowedReplicasets` -/

/-- C9 (as stated, refuted): for the alias list holding the single alias `a"b`,
which no replicaset has, the message is not the alias put between double
quotes: `%q` escapes the inner quote. -/
theorem GetAllowedReplicasets_error_literal_counterexample :
    GetAllowedReplicasets (fun _ => true) ⟨[⟨"g1", []⟩]⟩ ["a\"b"] =
        ([], some (.errorString "replicaset with alias \"a\\\"b\" doesn't exist")) ∧
      (GetAllowedReplicasets (fun _ => true) ⟨[⟨"g1", []⟩]⟩ ["a\"b"]).2 ≠
        some (.errorString ("replicaset with alias \"" ++ "a\"b" ++ "\" doesn't exist")) := by
  decide

/-- C9 (amended): `GetAllowedReplicasets` returns an error iff some alias of the
list is the alias of no given replicaset; then the returned list is nil and the
message is `replicaset with alias <q> doesn't exist`, where `<q>` is the `%q`
quotation of the first such alias, which is that alias between double quotes
when it consists of printable ASCII characters other than `"` and `\`. -/
theorem GetAllowedReplicasets_error (table : Char → Bool) (all : Replicasets)
    (aliases : List String) :
    ((GetAllowedReplicasets table all aliases).2 ≠ none ↔
        ∃ a ∈ aliases, ∀ rs ∈ all.Replicasets, rs.Alias ≠ a) ∧
    (∀ found a rest, aliases = found ++ a :: rest →
        (∀ x ∈ found, ∃ rs ∈ all.Replicasets, rs.Alias = x) →
        (∀ rs ∈ all.Replicasets, rs.Alias ≠ a) →
        GetAllowedReplicasets table all aliases =
            ([], some (.errorString
              ("replicaset with alias " ++ Quote table a ++ " doesn't exist"))) ∧
          ((∀ c ∈ a.toList, 0x20 ≤ c.toNat ∧ c.toNat ≤ 0x7E ∧ c.toNat ≠ 34 ∧ c.toNat ≠ 92) →
            GetAllowedReplicasets table all aliases =
              ([], some (.errorString
                ("replicaset with alias \"" ++ a ++ "\" doesn't exist"))))) := by
  have hsplit : ∀ found a rest, aliases = found ++ a :: rest →
      (∀ x ∈ found, ∃ rs ∈ all.Replicasets, rs.Alias = x) →
      (∀ rs ∈ all.Replicasets, rs.Alias ≠ a) →
      GetAllowedReplicasets table all aliases =
        ([], some (.errorString
          ("replicaset with alias " ++ Quote table a ++ " doesn't exist"))) := by
    intro found a rest hal hfound ha
    have hne : ¬ aliases.length = 0 := by simp [hal]
    unfold GetAllowedReplicasets
    rw [if_neg hne, hal]
    apply allowed_loop_err
    · intro x hx hnone
      obtain ⟨rs, hrs, hrsa⟩ := hfound x hx
      exact (replicasetMap_none _ _).mp hnone rs hrs hrsa
    · exact (replicasetMap_none _ _).mpr ha
  refine ⟨?_, ?_⟩
  · constructor
    · intro herr
      by_contra hno
      apply herr
      unfold GetAllowedReplicasets
      split
      · rfl
      · apply allowed_loop_total
        intro x hx hnone
        exact hno ⟨x, hx, (replicasetMap_none _ _).mp hnone⟩
    · intro hex
      obtain ⟨found, a, rest, hal, hfound, ha⟩ :=
        exists_first_split (fun a => ∀ rs ∈ all.Replicasets, rs.Alias ≠ a) aliases hex
      have hfound2 : ∀ x ∈ found, ∃ rs ∈ all.Replicasets, rs.Alias = x := by
        intro x hx
        have := hfound x hx
        push_neg at this
        exact this
      rw [hsplit found a rest hal hfound2 ha]
      simp
  · intro found a rest hal hfound ha
    refine ⟨hsplit found a rest hal hfound ha, ?_⟩
    intro hplain
    rw [hsplit found a rest hal hfound ha, Quote_plain table a hplain]
    have e : "replicaset with alias " ++ ("\"" ++ a ++ "\"") ++ " doesn't exist" =
        "replicaset with alias \"" ++ a ++ "\" doesn't exist" := by
      apply String.ext
      simp [String.data_append]
    rw [e]

/-- C9 (amended), at a concrete input: of the aliases `g1`, `missing`, `gone` the
first one without a replicaset is reported. -/
theorem GetAllowedReplicasets_error_witness :
    GetAllowedReplicasets (fun _ => true) ⟨[⟨"g1", []⟩, ⟨"g2", []⟩]⟩ ["g1", "missing", "gone"] =
      ([], some (.errorString "replicaset with alias \"missing\" doesn't exist")) :=
  ((GetAllowedReplicasets_error (fun _ => true) ⟨[⟨"g1", []⟩, ⟨"g2", []⟩]⟩
    ["g1", "missing", "gone"]).2 ["g1"] "missing" ["gone"] rfl (by decide) (by decide)).2
    (by decide)

/-- C10: when `GetAllowedReplicasets` succeeds, an empty alias list selects the
given list unchanged, and a non-empty alias list selects a list of the same
length whose i-th element is a given replicaset bearing the i-th alias. -/
theorem GetAllowedReplicasets_selected (table : Char → Bool) (all : Replicasets)
    (aliases : List String) (res : List Replicaset)
    (h : GetAllowedReplicasets table all aliases = (res, none)) :
    (aliases = [] → res = all.Replicasets) ∧
    (aliases ≠ [] → res.length = aliases.length ∧
      ∀ (i : Nat) (hi : i < aliases.length), ∃ rs ∈ all.Replicasets,
        res[i]? = some rs ∧ rs.Alias = aliases[i]) := by
  constructor
  · intro he
    subst he
    simp [GetAllowedReplicasets] at h
    exact h.symm
  · intro hne
    have hlen : ¬ aliases.length = 0 := by
      intro h0
      exact hne (List.length_eq_zero.mp h0)
    unfold GetAllowedReplicasets at h
    rw [if_neg hlen] at h
    obtain ⟨sel, hres, hsel⟩ := allowed_loop_ok _ _ _ _ _ h
    simp only [List.nil_append] at hres
    subst hres
    refine ⟨hsel.length_eq.symm, ?_⟩
    intro i hi
    have hi2 : i < res.length := by rw [← hsel.length_eq]; exact hi
    have hget := (List.forall₂_iff_get.mp hsel).2 i hi hi2
    obtain ⟨hmem, hal⟩ := replicasetMap_some _ _ _ hget
    refine ⟨res.get ⟨i, hi2⟩, hmem, ?_, ?_⟩
    · simp [List.getElem?_eq_getElem hi2]
    · simpa using hal

/-- C10 at a concrete input: a repeated alias repeats its replicaset and the
result follows the order of the alias list. -/
theorem GetAllowedReplicasets_selected_witness :
    GetAllowedReplicasets (fun _ => true) ⟨[⟨"g1", []⟩, ⟨"g2", []⟩]⟩ ["g2", "g1", "g2"] =
        ([⟨"g2", []⟩, ⟨"g1", []⟩, ⟨"g2", []⟩], none) ∧
      (["g2", "g1", "g2"] ≠ [] → [(⟨"g2", []⟩ : Replicaset), ⟨"g1", []⟩, ⟨"g2", []⟩].length =
          ["g2", "g1", "g2"].length ∧
        ∀ (i : Nat) (hi : i < ["g2", "g1", "g2"].length),
          ∃ rs ∈ (⟨[⟨"g1", []⟩, ⟨"g2", []⟩]⟩ : Replicasets).Replicasets,
            [(⟨"g2", []⟩ : Replicaset), ⟨"g1", []⟩, ⟨"g2", []⟩][i]? = some rs ∧
              rs.Alias = ["g2", "g1", "g2"][i]) :=
  ⟨by decide, (GetAllowedReplicasets_selected (fun _ => true) ⟨[⟨"g1", []⟩, ⟨"g2", []⟩]⟩
    ["g2", "g1", "g2"] _ (by decide)).2⟩

/-! ## `WaitLSN`: lemmas -/

theorem pollEvents_isEval_count (env : Env) (conn : Connector) (iid : Nat) (k : Nat)
    (tr : Trace) : (pollEvents env conn iid k tr).countP Event.isEval = k := by
  induction k generalizing tr with
  | zero => rfl
  | succ k ih =>
    simp only [pollEvents, List.countP_append, ih]
    simp [List.countP_cons, Event.isEval]
    omega

theorem WaitLSN_loop_timeout (env : Env) (conn : Connector) (info : SyncInfo) (n : Nat)
    (tr : Trace)
    (h : ∀ k, k < n → ∃ w ws, pollAt env conn info.IID k tr = .ok (w :: ws) ∧
      lsnOf w < info.LSN) :
    WaitLSN.loop env conn info n tr =
      (tr ++ pollEvents env conn info.IID n tr, some (.errorString "")) := by
  induction n generalizing tr with
  | zero => simp [WaitLSN.loop, pollEvents]
  | succ n ih =>
    obtain ⟨w, ws, h0, hlt⟩ := h 0 (Nat.succ_pos n)
    simp only [pollAt] at h0
    have hnot : ¬ lsnOf w ≥ info.LSN := by omega
    simp only [WaitLSN.loop, Connector.Eval, h0, hnot, if_false, pollEvents]
    rw [ih]
    · simp [h0]
    · intro k hk
      have := h (k + 1) (Nat.succ_lt_succ hk)
      simpa [pollAt, h0] using this

theorem WaitLSN_loop_reach (env : Env) (conn : Connector) (info : SyncInfo) (n j : Nat)
    (tr : Trace) (w : Value) (ws : List Value) (hj : j < n)
    (h : ∀ k, k < j → ∃ w ws, pollAt env conn info.IID k tr = .ok (w :: ws) ∧
      lsnOf w < info.LSN)
    (hw : pollAt env conn info.IID j tr = .ok (w :: ws)) (hge : info.LSN ≤ lsnOf w) :
    WaitLSN.loop env conn info n tr =
      (tr ++ pollEvents env conn info.IID j tr
        ++ [Event.eval conn (vclockExpr info.IID) [] (.ok (w :: ws))], none) := by
  induction j generalizing tr n with
  | zero =>
    obtain ⟨n, rfl⟩ : ∃ m, n = m + 1 := ⟨n - 1, by omega⟩
    simp only [pollAt] at hw
    simp [WaitLSN.loop, Connector.Eval, hw, hge, pollEvents]
  | succ j ih =>
    obtain ⟨n, rfl⟩ : ∃ m, n = m + 1 := ⟨n - 1, by omega⟩
    obtain ⟨w0, ws0, h0, hlt⟩ := h 0 (Nat.succ_pos j)
    simp only [pollAt] at h0
    have hnot : ¬ lsnOf w0 ≥ info.LSN := by omega
    simp only [WaitLSN.loop, Connector.Eval, h0, hnot, if_false, pollEvents]
    rw [ih (n := n)]
    · simp [h0]
    · omega
    · intro k hk
      have := h (k + 1) (Nat.succ_lt_succ hk)
      simpa [pollAt, h0] using this
    · simpa [pollAt, h0] using hw

/-- Whatever the endpoints do, `WaitLSN` only adds polls for the component of the
master and sleeps to the history, at most `max(timeout, 0)` polls, and it
returns nil only right after a poll whose reply was empty or reached the LSN. -/
theorem WaitLSN_loop_shape (env : Env) (conn : Connector) (info : SyncInfo) (n : Nat)
    (tr : Trace) :
    ∃ ev, (WaitLSN.loop env conn info n tr).1 = tr ++ ev ∧
      (∀ e ∈ ev, e = Event.sleep ∨ ∃ res, e = Event.eval conn (vclockExpr info.IID) [] res) ∧
      ev.countP Event.isEval ≤ n ∧
      ((WaitLSN.loop env conn info n tr).2 = none →
        ∃ ev0 res, ev = ev0 ++ [Event.eval conn (vclockExpr info.IID) [] res] ∧
          (res = .ok [] ∨ ∃ v vs, res = .ok (v :: vs) ∧ info.LSN ≤ lsnOf v)) := by
  induction n generalizing tr with
  | zero => exact ⟨[], by simp [WaitLSN.loop]⟩
  | succ n ih =>
    unfold WaitLSN.loop
    simp only [Connector.Eval]
    cases hres : env.Eval tr conn (vclockExpr info.IID) [] with
    | error err =>
      refine ⟨[Event.eval conn (vclockExpr info.IID) [] (.error err)], rfl, ?_, ?_, ?_⟩
      · intro e he
        simp only [List.mem_singleton] at he
        exact Or.inr ⟨_, he⟩
      · simp [Event.isEval]
      · intro hcontra
        simp at hcontra
    | ok res =>
      cases res with
      | nil =>
        refine ⟨[Event.eval conn (vclockExpr info.IID) [] (.ok [])], rfl, ?_, ?_, ?_⟩
        · intro e he
          simp only [List.mem_singleton] at he
          exact Or.inr ⟨_, he⟩
        · simp [Event.isEval]
        · intro _
          exact ⟨[], _, rfl, Or.inl rfl⟩
      | cons v vs =>
        by_cases hge : lsnOf v ≥ info.LSN
        · simp only [hge, if_true]
          refine ⟨[Event.eval conn (vclockExpr info.IID) [] (.ok (v :: vs))], rfl, ?_, ?_, ?_⟩
          · intro e he
            simp only [List.mem_singleton] at he
            exact Or.inr ⟨_, he⟩
          · simp [Event.isEval]
          · intro _
            exact ⟨[], _, rfl, Or.inr ⟨v, vs, rfl, hge⟩⟩
        · simp only [hge, if_false]
          obtain ⟨ev, hev, hall, hcount, hnil⟩ := ih
            (tr ++ [Event.eval conn (vclockExpr info.IID) [] (.ok (v :: vs))] ++ [Event.sleep])
          refine ⟨Event.eval conn (vclockExpr info.IID) [] (.ok (v :: vs)) :: Event.sleep :: ev,
            ?_, ?_, ?_, ?_⟩
          · rw [hev]
            simp
          · intro e he
            rcases List.mem_cons.mp he with rfl | he
            · exact Or.inr ⟨_, rfl⟩
            · rcases List.mem_cons.mp he with rfl | he
              · exact Or.inl rfl
              · exact hall e he
          · simp [List.countP_cons, Event.isEval]
            omega
          · intro hn
            obtain ⟨ev0, res, hev0, hgood⟩ := hnil hn
            exact ⟨Event.eval conn (vclockExpr info.IID) [] (.ok (v :: vs)) :: Event.sleep :: ev0,
              res, by simp [hev0], hgood⟩

/-! ## C4, C5: `WaitLSN` -/

/-- C4 (the code at the failing input): a replica whose first log-position poll
returns an empty result and no error makes `WaitLSN` return nil although no value
was reported, and `Upgrade` then runs the migration on that replica and reports
`ok`; the master had returned LSN 5. -/
theorem WaitLSN_empty_reply_returns_nil :
    WaitLSN (sampleEnv (fun _ => [.bool true]) (fun _ => []) (fun _ _ => [])) []
        ⟨"r.sock", 0⟩ ⟨5, 1, none⟩ 3 =
      ([Event.eval ⟨"r.sock", 0⟩ "return box.info.vclock[1]" [] (.ok [])], none) ∧
    Upgrade (sampleEnv (fun sock => [.bool (sock != "m.sock")])
        (fun _ => [.table [("lsn", .inl 5), ("iid", .inl 1)]]) (fun _ _ => []))
        ⟨[⟨"rs1", [⟨⟨"app", "m", "m.sock"⟩⟩, ⟨⟨"app", "r", "r.sock"⟩⟩]⟩]⟩ [] 3 =
      ([Event.connect ⟨"unix", "m.sock"⟩ none,
        Event.eval ⟨"m.sock", 0⟩ roExpr [] (.ok [.bool false]),
        Event.connect ⟨"unix", "r.sock"⟩ none,
        Event.eval ⟨"r.sock", 2⟩ roExpr [] (.ok [.bool true]),
        Event.connect ⟨"unix", "m.sock"⟩ none,
        Event.eval ⟨"m.sock", 4⟩ "box.schema.upgrade()" []
          (.ok [.table [("lsn", .inl 5), ("iid", .inl 1)]]),
        Event.connect ⟨"unix", "r.sock"⟩ none,
        Event.eval ⟨"r.sock", 6⟩ "return box.info.vclock[1]" [] (.ok []),
        Event.eval ⟨"r.sock", 6⟩ "box.schema.upgrade()" []
          (.ok [.table [("lsn", .inl 5), ("iid", .inl 1)]]),
        Event.print "• rs1: ok\n"], .ret none) := by
  decide

/-- C5: when the first `t` polls of a wait all succeed with a single `uint16` or
`uint32` value (`vals k`, of width `wide k`), `WaitLSN` makes at most
`max(t, 0)` polls; it returns nil right after the first poll `j < t` whose value
is at least the LSN of the master (after `j + 1` polls), it returns a non-nil
error after exactly `t` polls when none of them reaches the LSN, and for
`t <= 0` it returns an error without polling. -/
theorem WaitLSN_poll_bound (env : Env) (conn : Connector) (info : SyncInfo) (t : Int)
    (tr : Trace) (vals : Nat → Nat) (wide : Nat → Bool)
    (h : ∀ k : Nat, (k : Int) < t → pollAt env conn info.IID k tr =
      .ok [if wide k then .uint32 (vals k) else .uint16 (vals k)]) :
    (∃ ev, (WaitLSN env tr conn info t).1 = tr ++ ev ∧
      ev.countP Event.isEval ≤ (max t 0).toNat) ∧
    (∀ j : Nat, (pollEvents env conn info.IID j tr).countP Event.isEval = j) ∧
    (∀ j : Nat, (j : Int) < t → (∀ k, k < j → vals k < info.LSN) → info.LSN ≤ vals j →
      WaitLSN env tr conn info t =
        (tr ++ pollEvents env conn info.IID j tr ++ [Event.eval conn (vclockExpr info.IID) []
          (.ok [if wide j then .uint32 (vals j) else .uint16 (vals j)])], none)) ∧
    ((∀ k : Nat, (k : Int) < t → vals k < info.LSN) →
      WaitLSN env tr conn info t =
        (tr ++ pollEvents env conn info.IID t.toNat tr, some (.errorString ""))) ∧
    (t ≤ 0 → WaitLSN env tr conn info t = (tr, some (.errorString ""))) := by
  have hlsn : ∀ k : Nat, lsnOf (if wide k then Value.uint32 (vals k) else Value.uint16 (vals k))
      = vals k := by
    intro k
    cases wide k <;> rfl
  refine ⟨?_, ?_, ?_, ?_, ?_⟩
  · obtain ⟨ev, hev, _, hcount, _⟩ := WaitLSN_loop_shape env conn info t.toNat tr
    refine ⟨ev, hev, ?_⟩
    have : (max t 0).toNat = t.toNat := by omega
    rw [this]
    exact hcount
  · intro j
    exact pollEvents_isEval_count env conn info.IID j tr
  · intro j hj hbefore hreach
    unfold WaitLSN
    apply WaitLSN_loop_reach
    · omega
    · intro k hk
      refine ⟨_, _, h k (by omega), ?_⟩
      rw [hlsn]
      exact hbefore k hk
    · exact h j hj
    · rw [hlsn]
      exact hreach
  · intro hnever
    unfold WaitLSN
    apply WaitLSN_loop_timeout
    intro k hk
    have hk2 : (k : Int) < t := by omega
    refine ⟨_, _, h k hk2, ?_⟩
    rw [hlsn]
    exact hnever k hk2
  · intro ht
    have : t.toNat = 0 := by omega
    simp [WaitLSN, this, WaitLSN.loop]

/-- C5 at a concrete input: with timeout 3 and master LSN 5, a replica that
reports the 16-bit value 3 and then the 32-bit value 7 is polled twice. -/
theorem WaitLSN_poll_bound_witness :
    WaitLSN (sampleEnv (fun _ => []) (fun _ => [])
        (fun _ n => [if n = 0 then .uint16 3 else .uint32 7])) [] ⟨"r.sock", 0⟩ ⟨5, 1, none⟩ 3 =
      ([Event.eval ⟨"r.sock", 0⟩ "return box.info.vclock[1]" [] (.ok [.uint16 3]), Event.sleep,
        Event.eval ⟨"r.sock", 0⟩ "return box.info.vclock[1]" [] (.ok [.uint32 7])], none) :=
  (WaitLSN_poll_bound (sampleEnv (fun _ => []) (fun _ => [])
      (fun _ n => [if n = 0 then .uint16 3 else .uint32 7])) ⟨"r.sock", 0⟩ ⟨5, 1, none⟩ 3 []
    (fun k => if k = 0 then 3 else 7) (fun k => k != 0)
    (by
      intro k hk
      have hk3 : k = 0 ∨ k = 1 ∨ k = 2 := by omega
      rcases hk3 with rfl | rfl | rfl <;> decide)).2.2.1 1 (by decide)
    (by
      intro k hk
      have hk0 : k = 0 := by omega
      subst hk0
      decide) (by decide)

/-! ## `Upgrade`: classification lemmas -/

theorem reports_cons (env : Env) (tr : Trace) (inst : Instance) (rest : List Instance)
    (b : Bool) (bs : List Bool) (h : reports env tr (inst :: rest) = some (b :: bs)) :
    report env tr inst = some b ∧ reports env (tr ++ roEvents env tr inst) rest = some bs := by
  unfold reports at h
  cases h1 : report env tr inst with
  | none => simp [h1] at h
  | some b1 =>
    cases h2 : reports env (tr ++ roEvents env tr inst) rest with
    | none => simp [h1, h2] at h
    | some bs1 =>
      simp only [h1, h2, Option.some.injEq, List.cons.injEq] at h
      rw [h.1, h.2]
      exact ⟨rfl, rfl⟩

theorem report_some (env : Env) (tr : Trace) (inst : Instance) (b : Bool)
    (h : report env tr inst = some b) :
    env.Connect tr ⟨"unix", inst.InstanceCtx.ConsoleSocket⟩ = none ∧
      ∃ vs, env.Eval (tr ++ [Event.connect ⟨"unix", inst.InstanceCtx.ConsoleSocket⟩ none])
        ⟨inst.InstanceCtx.ConsoleSocket, tr.length⟩ roExpr [] = .ok (.bool b :: vs) := by
  unfold report at h
  cases hc : env.Connect tr ⟨"unix", inst.InstanceCtx.ConsoleSocket⟩ with
  | some err => simp [hc] at h
  | none =>
    refine ⟨rfl, ?_⟩
    simp only [hc] at h
    split at h
    · next b1 vs heq =>
      simp only [Option.some.injEq] at h
      subst h
      exact ⟨vs, heq⟩
    · cases h

theorem classify_true (env : Env) (a : String) (inst : Instance) (rest : List Instance)
    (m : Option InstanceCtx) (reps : List InstanceCtx) (tr : Trace)
    (h : report env tr inst = some true) :
    Upgrade.classify env a (inst :: rest) m reps tr =
      Upgrade.classify env a rest m (reps ++ [inst.InstanceCtx]) (tr ++ roEvents env tr inst) := by
  obtain ⟨hc, vs, he⟩ := report_some env tr inst true h
  simp [Upgrade.classify, Connect, Connector.Eval, hc, he, roEvents]

theorem classify_false_none (env : Env) (a : String) (inst : Instance) (rest : List Instance)
    (reps : List InstanceCtx) (tr : Trace) (h : report env tr inst = some false) :
    Upgrade.classify env a (inst :: rest) none reps tr =
      Upgrade.classify env a rest (some inst.InstanceCtx) reps (tr ++ roEvents env tr inst) := by
  obtain ⟨hc, vs, he⟩ := report_some env tr inst false h
  simp [Upgrade.classify, Connect, Connector.Eval, hc, he, roEvents]

theorem classify_false_some (env : Env) (a : String) (inst : Instance) (rest : List Instance)
    (m : InstanceCtx) (reps : List InstanceCtx) (tr : Trace)
    (h : report env tr inst = some false) :
    Upgrade.classify env a (inst :: rest) (some m) reps tr =
      (tr ++ roEvents env tr inst ++ [Event.print ("• " ++ a ++ ": error\n")],
        .abort (.errorString ("[" ++ a ++ "]: " ++ GetAppInstanceName m ++ " and "
          ++ GetAppInstanceName inst.InstanceCtx ++ " are both masters"))) := by
  obtain ⟨hc, vs, he⟩ := report_some env tr inst false h
  simp [Upgrade.classify, Connect, Connector.Eval, hc, he, roEvents, printReplicasetStatus,
    String.append_assoc]

/-- Instances that all report `true` are all appended to `replicRun`. -/
theorem classify_all_true (env : Env) (a : String) (insts : List Instance)
    (m : Option InstanceCtx) (reps : List InstanceCtx) (tr : Trace)
    (h : reports env tr insts = some (List.replicate insts.length true)) :
    Upgrade.classify env a insts m reps tr =
      (tr ++ classEvents env tr insts,
        .next (m, reps ++ insts.map (fun i => i.InstanceCtx))) := by
  induction insts generalizing reps tr with
  | nil => simp [Upgrade.classify, classEvents]
  | cons inst rest ih =>
    simp only [List.length_cons, List.replicate_succ] at h
    obtain ⟨h1, h2⟩ := reports_cons env tr inst rest _ _ h
    rw [classify_true env a inst rest m reps tr h1, ih _ _ h2]
    simp [classEvents]

theorem reports_append (env : Env) (tr : Trace) (xs ys : List Instance) (b1 b2 : List Bool)
    (hlen : b1.length = xs.length) (h : reports env tr (xs ++ ys) = some (b1 ++ b2)) :
    reports env tr xs = some b1 ∧ reports env (tr ++ classEvents env tr xs) ys = some b2 := by
  induction xs generalizing tr b1 with
  | nil =>
    have : b1 = [] := List.length_eq_zero.mp hlen
    subst this
    simpa [reports, classEvents] using h
  | cons x xs ih =>
    cases b1 with
    | nil => simp at hlen
    | cons b b1 =>
      simp only [List.cons_append] at h
      obtain ⟨h1, h2⟩ := reports_cons env tr x _ _ _ h
      obtain ⟨h3, h4⟩ := ih (tr ++ roEvents env tr x) b1 (by simpa using hlen) h2
      refine ⟨?_, ?_⟩
      · simp [reports, h1, h3]
      · simpa [classEvents] using h4

theorem classEvents_append (env : Env) (tr : Trace) (xs ys : List Instance) :
    classEvents env tr (xs ++ ys) =
      classEvents env tr xs ++ classEvents env (tr ++ classEvents env tr xs) ys := by
  induction xs generalizing tr with
  | nil => simp [classEvents]
  | cons x xs ih => simp [classEvents, ih]

theorem classify_append (env : Env) (a : String) (xs ys : List Instance)
    (m m1 : Option InstanceCtx) (reps reps1 : List InstanceCtx) (tr tr1 : Trace)
    (h : Upgrade.classify env a xs m reps tr = (tr1, .next (m1, reps1))) :
    Upgrade.classify env a (xs ++ ys) m reps tr = Upgrade.classify env a ys m1 reps1 tr1 := by
  induction xs generalizing m reps tr with
  | nil =>
    simp only [Upgrade.classify, Prod.mk.injEq, Flow.next.injEq] at h
    obtain ⟨h1, h2, h3⟩ := h
    subst h1 h2 h3
    rfl
  | cons x xs ih =>
    simp only [List.cons_append]
    simp only [Upgrade.classify, Connect, Connector.Eval] at h ⊢
    cases hc : env.Connect tr ⟨"unix", x.InstanceCtx.ConsoleSocket⟩ with
    | some err => simp [hc] at h
    | none =>
      simp only [hc] at h ⊢
      cases he : env.Eval (tr ++ [Event.connect ⟨"unix", x.InstanceCtx.ConsoleSocket⟩ none])
          ⟨x.InstanceCtx.ConsoleSocket, tr.length⟩ roExpr [] with
      | error err => simp [he] at h
      | ok res =>
        simp only [he] at h ⊢
        cases res with
        | nil => simp at h
        | cons v vs =>
          cases v with
          | bool b =>
            cases b with
            | true => exact ih _ _ _ h
            | false =>
              cases m with
              | none => exact ih _ _ _ h
              | some m0 => simp at h
          | _ => simp at h

/-- A replicaset with exactly one master candidate: the classification loop ends
with that instance as `masterRun` and the others, in order, as `replicRun`. -/
theorem classify_one_master (env : Env) (a : String) (l1 l2 : List Instance) (M : Instance)
    (tr : Trace)
    (h : reports env tr (l1 ++ M :: l2) =
      some (List.replicate l1.length true ++ false :: List.replicate l2.length true)) :
    Upgrade.classify env a (l1 ++ M :: l2) none [] tr =
      (tr ++ classEvents env tr (l1 ++ M :: l2),
        .next (some M.InstanceCtx, (l1 ++ l2).map (fun i => i.InstanceCtx))) := by
  obtain ⟨h1, h2⟩ := reports_append env tr l1 (M :: l2) _ _ (by simp) h
  obtain ⟨h3, h4⟩ := reports_cons env _ M l2 _ _ h2
  rw [classify_append env a l1 (M :: l2) none _ [] _ tr _ (classify_all_true env a l1 none [] tr h1),
    classify_false_none env a M l2 _ _ h3, classify_all_true env a l2 _ _ _ h4,
    classEvents_append]
  simp [classEvents]

/-- A replicaset with a second master candidate: the classification loop stops at
it with the error naming both. -/
theorem classify_two_masters (env : Env) (a : String) (l1 l2 l3 : List Instance)
    (A B : Instance) (tr : Trace)
    (h : reports env tr (l1 ++ A :: l2 ++ [B]) =
      some (List.replicate l1.length true ++ false :: List.replicate l2.length true ++ [false])) :
    Upgrade.classify env a (l1 ++ A :: l2 ++ B :: l3) none [] tr =
      (tr ++ classEvents env tr (l1 ++ A :: l2 ++ [B])
          ++ [Event.print ("• " ++ a ++ ": error\n")],
        .abort (.errorString ("[" ++ a ++ "]: " ++ GetAppInstanceName A.InstanceCtx ++ " and "
          ++ GetAppInstanceName B.InstanceCtx ++ " are both masters"))) := by
  have h' : reports env tr ((l1 ++ A :: l2) ++ [B]) =
      some ((List.replicate l1.length true ++ false :: List.replicate l2.length true)
        ++ [false]) := by
    simpa using h
  obtain ⟨h1, h2⟩ := reports_append env tr (l1 ++ A :: l2) [B] _ _ (by simp) h'
  obtain ⟨h3, _⟩ := reports_cons env _ B [] _ _ h2
  have e1 : l1 ++ A :: l2 ++ B :: l3 = (l1 ++ A :: l2) ++ B :: l3 := by simp
  have e2 : l1 ++ A :: l2 ++ [B] = (l1 ++ A :: l2) ++ [B] := by simp
  rw [e1, e2, classify_append env a (l1 ++ A :: l2) (B :: l3) none _ [] _ tr _
      (classify_one_master env a l1 l2 A tr h1),
    classify_false_some env a B l3 _ _ _ h3]
  simp [classEvents, classEvents_append]

/-- The classification events are connects and evaluations of the predicate. -/
theorem classEvents_mem (env : Env) (tr : Trace) (insts : List Instance) (e : Event)
    (h : e ∈ classEvents env tr insts) :
    (∃ opts, e = Event.connect opts none) ∨ ∃ c res, e = Event.eval c roExpr [] res := by
  induction insts generalizing tr with
  | nil => simp [classEvents] at h
  | cons x xs ih =>
    simp only [classEvents, List.mem_append] at h
    rcases h with h | h
    · simp only [roEvents, List.mem_cons, List.mem_singleton, List.not_mem_nil, or_false] at h
      rcases h with h | h
      · exact Or.inl ⟨_, h⟩
      · exact Or.inr ⟨_, _, h⟩
    · exact ih _ h

theorem classEvents_not_migration (env : Env) (tr : Trace) (insts : List Instance) (e : Event)
    (hscript : env.upgradeLuaScript ≠ roExpr) (h : e ∈ classEvents env tr insts) :
    e.isMigration env = false := by
  rcases classEvents_mem env tr insts e h with ⟨opts, rfl⟩ | ⟨c, res, rfl⟩
  · rfl
  · simp only [Event.isMigration, decide_eq_false_iff_not]
    exact fun hx => hscript hx.symm

theorem Upgrade_loop_append (env : Env) (T : Int) (pre rest : List Replicaset) (tr tr0 : Trace)
    (h : Upgrade.loop env T pre tr = (tr0, .ret none)) :
    Upgrade.loop env T (pre ++ rest) tr = Upgrade.loop env T rest tr0 := by
  induction pre generalizing tr with
  | nil =>
    simp only [Upgrade.loop, Prod.mk.injEq, and_true] at h
    subst h
    rfl
  | cons rs pre ih =>
    simp only [List.cons_append]
    simp only [Upgrade.loop] at h ⊢
    rcases hr : Upgrade.replicaset env T rs tr with ⟨tr1, fl⟩
    rw [hr] at h
    cases fl with
    | next u => exact ih _ h
    | abort err => simp at h
    | panic msg => simp at h

/-- The run of `Upgrade` on a selection `pre ++ rs :: post` whose replicasets `pre`
are upgraded without error continues with the body of the loop for `rs`. -/
theorem Upgrade_at (env : Env) (rss : Replicasets) (aliases : List String) (T : Int)
    (pre post : List Replicaset) (rs : Replicaset) (tr0 : Trace)
    (hsel : GetAllowedReplicasets env.IsPrintTable rss aliases = (pre ++ rs :: post, none))
    (hpre : Upgrade env ⟨pre⟩ [] T = (tr0, .ret none)) :
    Upgrade env rss aliases T =
      match Upgrade.replicaset env T rs tr0 with
      | (tr1, .next _) => Upgrade.loop env T post tr1
      | (tr1, .abort err) => (tr1, .ret (some err))
      | (tr1, .panic msg) => (tr1, .panic msg) := by
  have hpre2 : Upgrade.loop env T pre [] = (tr0, .ret none) := by
    simpa [Upgrade, GetAllowedReplicasets] using hpre
  simp only [Upgrade, hsel]
  rw [Upgrade_loop_append env T pre (rs :: post) [] tr0 hpre2]
  rfl

/-! ## C2, C3: master uniqueness -/

/-- C2: in a selected replicaset reached without error in which every instance up
to the second master candidate `B` connects and reports (all `true` except the
first master candidate `A` and `B`), `Upgrade` stops right after the answer of
`B`, prints `• <alias>: error`, returns `[<alias>]: <A> and <B> are both masters`
and has evaluated the migration procedure on no instance of the replicaset. -/
theorem Upgrade_both_masters (env : Env) (rss : Replicasets) (aliases : List String) (T : Int)
    (pre post : List Replicaset) (rs : Replicaset) (tr0 : Trace)
    (l1 l2 l3 : List Instance) (A B : Instance)
    (hsel : GetAllowedReplicasets env.IsPrintTable rss aliases = (pre ++ rs :: post, none))
    (hpre : Upgrade env ⟨pre⟩ [] T = (tr0, .ret none))
    (hinst : rs.Instances = l1 ++ A :: l2 ++ B :: l3)
    (hrep : reports env tr0 (l1 ++ A :: l2 ++ [B]) =
      some (List.replicate l1.length true ++ false :: List.replicate l2.length true ++ [false]))
    (hscript : env.upgradeLuaScript ≠ roExpr) :
    Upgrade env rss aliases T =
        (tr0 ++ classEvents env tr0 (l1 ++ A :: l2 ++ [B])
            ++ [Event.print ("• " ++ rs.Alias ++ ": error\n")],
          .ret (some (.errorString ("[" ++ rs.Alias ++ "]: " ++ GetAppInstanceName A.InstanceCtx
            ++ " and " ++ GetAppInstanceName B.InstanceCtx ++ " are both masters")))) ∧
      ∀ e ∈ classEvents env tr0 (l1 ++ A :: l2 ++ [B])
          ++ [Event.print ("• " ++ rs.Alias ++ ": error\n")], e.isMigration env = false := by
  refine ⟨?_, ?_⟩
  · rw [Upgrade_at env rss aliases T pre post rs tr0 hsel hpre]
    simp only [Upgrade.replicaset, hinst, classify_two_masters env rs.Alias l1 l2 l3 A B tr0 hrep]
  · intro e he
    rcases List.mem_append.mp he with he | he
    · exact classEvents_not_migration env tr0 _ e hscript he
    · simp only [List.mem_singleton] at he
      subst he
      rfl

/-- C2 at a concrete input: after the healthy replicaset `rs1`, the replicaset
`rs2` has the masters `m` and `m2` with the replica `r2` between them. -/
theorem Upgrade_both_masters_witness :
    Upgrade healthyEnv ⟨[⟨"rs1", [sampleInst "m"]⟩,
        ⟨"rs2", [sampleInst "r1", sampleInst "m", sampleInst "r2", sampleInst "m2",
          sampleInst "r3"]⟩]⟩ [] 5 =
      ([Event.connect ⟨"unix", "m.sock"⟩ none,
        Event.eval ⟨"m.sock", 0⟩ roExpr [] (.ok [.bool false]),
        Event.connect ⟨"unix", "m.sock"⟩ none,
        Event.eval ⟨"m.sock", 2⟩ "box.schema.upgrade()" []
          (.ok [.table [("lsn", .inl 5), ("iid", .inl 1)]]),
        Event.print "• rs1: ok\n",
        Event.connect ⟨"unix", "r1.sock"⟩ none,
        Event.eval ⟨"r1.sock", 5⟩ roExpr [] (.ok [.bool true]),
        Event.connect ⟨"unix", "m.sock"⟩ none,
        Event.eval ⟨"m.sock", 7⟩ roExpr [] (.ok [.bool false]),
        Event.connect ⟨"unix", "r2.sock"⟩ none,
        Event.eval ⟨"r2.sock", 9⟩ roExpr [] (.ok [.bool true]),
        Event.connect ⟨"unix", "m2.sock"⟩ none,
        Event.eval ⟨"m2.sock", 11⟩ roExpr [] (.ok [.bool false]),
        Event.print "• rs2: error\n"],
        .ret (some (.errorString "[rs2]: app:m and app:m2 are both masters"))) :=
  (Upgrade_both_masters healthyEnv _ [] 5 [⟨"rs1", [sampleInst "m"]⟩] []
    ⟨"rs2", [sampleInst "r1", sampleInst "m", sampleInst "r2", sampleInst "m2",
      sampleInst "r3"]⟩
    (Upgrade healthyEnv ⟨[⟨"rs1", [sampleInst "m"]⟩]⟩ [] 5).1
    [sampleInst "r1"] [sampleInst "r2"] [sampleInst "r3"] (sampleInst "m") (sampleInst "m2")
    (by decide) (by decide) (by decide) (by decide) (by decide)).1.trans (by decide)

/-- C3: in a selected replicaset reached without error all of whose instances
connect and report `true` (also when it has no instance), `Upgrade` prints
`• <alias>: error`, returns `[<alias>]: has not master instance` and has
evaluated the migration procedure on no instance of the replicaset. -/
theorem Upgrade_no_master (env : Env) (rss : Replicasets) (aliases : List String) (T : Int)
    (pre post : List Replicaset) (rs : Replicaset) (tr0 : Trace)
    (hsel : GetAllowedReplicasets env.IsPrintTable rss aliases = (pre ++ rs :: post, none))
    (hpre : Upgrade env ⟨pre⟩ [] T = (tr0, .ret none))
    (hrep : reports env tr0 rs.Instances = some (List.replicate rs.Instances.length true))
    (hscript : env.upgradeLuaScript ≠ roExpr) :
    Upgrade env rss aliases T =
        (tr0 ++ classEvents env tr0 rs.Instances
            ++ [Event.print ("• " ++ rs.Alias ++ ": error\n")],
          .ret (some (.errorString ("[" ++ rs.Alias ++ "]: has not master instance")))) ∧
      ∀ e ∈ classEvents env tr0 rs.Instances
          ++ [Event.print ("• " ++ rs.Alias ++ ": error\n")], e.isMigration env = false := by
  refine ⟨?_, ?_⟩
  · rw [Upgrade_at env rss aliases T pre post rs tr0 hsel hpre]
    simp [Upgrade.replicaset, classify_all_true env rs.Alias rs.Instances none [] tr0 hrep,
      printReplicasetStatus, String.append_assoc]
  · intro e he
    rcases List.mem_append.mp he with he | he
    · exact classEvents_not_migration env tr0 _ e hscript he
    · simp only [List.mem_singleton] at he
      subst he
      rfl

/-- C3 at a concrete input: after the healthy replicaset `rs1`, the selected
replicaset `rs2` has the two replicas `r1` and `r2` and no master. -/
theorem Upgrade_no_master_witness :
    Upgrade healthyEnv ⟨[⟨"rs2", [sampleInst "r1", sampleInst "r2"]⟩,
        ⟨"rs1", [sampleInst "m"]⟩, ⟨"rs3", [sampleInst "m2"]⟩]⟩ ["rs1", "rs2", "rs3"] 5 =
      ([Event.connect ⟨"unix", "m.sock"⟩ none,
        Event.eval ⟨"m.sock", 0⟩ roExpr [] (.ok [.bool false]),
        Event.connect ⟨"unix", "m.sock"⟩ none,
        Event.eval ⟨"m.sock", 2⟩ "box.schema.upgrade()" []
          (.ok [.table [("lsn", .inl 5), ("iid", .inl 1)]]),
        Event.print "• rs1: ok\n",
        Event.connect ⟨"unix", "r1.sock"⟩ none,
        Event.eval ⟨"r1.sock", 5⟩ roExpr [] (.ok [.bool true]),
        Event.connect ⟨"unix", "r2.sock"⟩ none,
        Event.eval ⟨"r2.sock", 7⟩ roExpr [] (.ok [.bool true]),
        Event.print "• rs2: error\n"],
        .ret (some (.errorString "[rs2]: has not master instance"))) :=
  (Upgrade_no_master healthyEnv _ ["rs1", "rs2", "rs3"] 5 [⟨"rs1", [sampleInst "m"]⟩]
    [⟨"rs3", [sampleInst "m2"]⟩] ⟨"rs2", [sampleInst "r1", sampleInst "r2"]⟩
    (Upgrade healthyEnv ⟨[⟨"rs1", [sampleInst "m"]⟩]⟩ [] 5).1
    (by decide) (by decide) (by decide) (by decide)).1.trans (by decide)

/-! ## `Upgrade`: one step lemmas -/

theorem Connect_ok (env : Env) (tr : Trace) (opts : ConnectOpts)
    (h : env.Connect tr opts = none) :
    Connect env tr opts = (tr ++ [Event.connect opts none], .ok ⟨opts.Address, tr.length⟩) := by
  simp [Connect, h]

theorem Connect_error (env : Env) (tr : Trace) (opts : ConnectOpts) (err : GoError)
    (h : env.Connect tr opts = some err) :
    Connect env tr opts = (tr ++ [Event.connect opts (some err)], .error err) := by
  simp [Connect, h]

theorem internalUpgrade_ok (env : Env) (tr : Trace) (c : Connector) (v : Value)
    (vs : List Value) (info : SyncInfo)
    (h : env.Eval tr c env.upgradeLuaScript [] = .ok (v :: vs))
    (hdec : env.Decode v = (info, none)) (herr : info.Err = none) :
    internalUpgrade env tr c =
      (tr ++ [Event.eval c env.upgradeLuaScript [] (.ok (v :: vs))], .ret (info, none)) := by
  simp [internalUpgrade, Connector.Eval, h, hdec, herr]

theorem internalUpgrade_reported (env : Env) (tr : Trace) (c : Connector) (v : Value)
    (vs : List Value) (info : SyncInfo) (s : String)
    (h : env.Eval tr c env.upgradeLuaScript [] = .ok (v :: vs))
    (hdec : env.Decode v = (info, none)) (herr : info.Err = some s) :
    internalUpgrade env tr c =
      (tr ++ [Event.eval c env.upgradeLuaScript [] (.ok (v :: vs))],
        .ret (info, some (.errorString s))) := by
  simp [internalUpgrade, Connector.Eval, h, hdec, herr]

theorem replicas_append (env : Env) (a : String) (info : SyncInfo) (T : Int)
    (xs ys : List InstanceCtx) (tr tr1 : Trace)
    (h : Upgrade.replicas env a info T xs tr = (tr1, .next ())) :
    Upgrade.replicas env a info T (xs ++ ys) tr = Upgrade.replicas env a info T ys tr1 := by
  induction xs generalizing tr with
  | nil =>
    simp only [Upgrade.replicas, Prod.mk.injEq, and_true] at h
    subst h
    rfl
  | cons x xs ih =>
    simp only [List.cons_append]
    simp only [Upgrade.replicas] at h ⊢
    rcases hc : Connect env tr ⟨"unix", x.ConsoleSocket⟩ with ⟨tr2, rc⟩
    rw [hc] at h
    cases rc with
    | error err => simp at h
    | ok conn =>
      simp only at h ⊢
      rcases hw : WaitLSN env tr2 conn info T with ⟨tr3, rw3⟩
      rw [hw] at h
      cases rw3 with
      | some err => simp at h
      | none =>
        simp only at h ⊢
        rcases hi : internalUpgrade env tr3 conn with ⟨tr4, ri⟩
        rw [hi] at h
        cases ri with
        | panic msg => simp at h
        | ret p =>
          rcases p with ⟨i2, e2⟩
          cases e2 with
          | some err => simp at h
          | none => exact ih _ h

theorem pollEvents_mem (env : Env) (conn : Connector) (iid : Nat) (k : Nat) (tr : Trace)
    (e : Event) (h : e ∈ pollEvents env conn iid k tr) :
    e = Event.sleep ∨ ∃ res, e = Event.eval conn (vclockExpr iid) [] res := by
  induction k generalizing tr with
  | zero => simp [pollEvents] at h
  | succ k ih =>
    simp only [pollEvents, List.mem_append, List.mem_cons, List.mem_singleton,
      List.not_mem_nil, or_false] at h
    rcases h with (h | h) | h
    · exact Or.inr ⟨_, h⟩
    · exact Or.inl h
    · exact ih _ h

/-! ## C8: the master reports an error -/

/-- C8: in a selected replicaset reached without error that has exactly one
master candidate `M`, when the master accepts the migration connection and the
first element of the migration result decodes with a present `err` string `s`,
`internalUpgrade` returns an error with message `s`, and `Upgrade` prints
`• <alias>: error` and returns `[<alias>][<master name>]: s`; its history ends
with the master's migration and the status line, so that afterwards no replica
is connected to, polled or migrated. -/
theorem Upgrade_master_reports_error (env : Env) (rss : Replicasets) (aliases : List String)
    (T : Int) (pre post : List Replicaset) (rs : Replicaset) (tr0 : Trace)
    (l1 l2 : List Instance) (M : Instance) (v : Value) (vs : List Value) (info : SyncInfo)
    (s : String)
    (hsel : GetAllowedReplicasets env.IsPrintTable rss aliases = (pre ++ rs :: post, none))
    (hpre : Upgrade env ⟨pre⟩ [] T = (tr0, .ret none))
    (hinst : rs.Instances = l1 ++ M :: l2)
    (hrep : reports env tr0 rs.Instances =
      some (List.replicate l1.length true ++ false :: List.replicate l2.length true))
    (hconn : env.Connect (tr0 ++ classEvents env tr0 rs.Instances)
      ⟨"unix", M.InstanceCtx.ConsoleSocket⟩ = none)
    (hmig : env.Eval (tr0 ++ classEvents env tr0 rs.Instances
        ++ [Event.connect ⟨"unix", M.InstanceCtx.ConsoleSocket⟩ none])
      ⟨M.InstanceCtx.ConsoleSocket, (tr0 ++ classEvents env tr0 rs.Instances).length⟩
      env.upgradeLuaScript [] = .ok (v :: vs))
    (hdec : env.Decode v = (info, none)) (herr : info.Err = some s) :
    (∃ e, (internalUpgrade env (tr0 ++ classEvents env tr0 rs.Instances
          ++ [Event.connect ⟨"unix", M.InstanceCtx.ConsoleSocket⟩ none])
        ⟨M.InstanceCtx.ConsoleSocket, (tr0 ++ classEvents env tr0 rs.Instances).length⟩).2 =
          .ret (info, some e) ∧ e.Error = s) ∧
    Upgrade env rss aliases T =
      (tr0 ++ classEvents env tr0 rs.Instances
        ++ [Event.connect ⟨"unix", M.InstanceCtx.ConsoleSocket⟩ none,
          Event.eval ⟨M.InstanceCtx.ConsoleSocket,
            (tr0 ++ classEvents env tr0 rs.Instances).length⟩ env.upgradeLuaScript []
            (.ok (v :: vs)),
          Event.print ("• " ++ rs.Alias ++ ": error\n")],
        .ret (some (.errorString ("[" ++ rs.Alias ++ "]["
          ++ GetAppInstanceName M.InstanceCtx ++ "]: " ++ s)))) := by
  refine ⟨⟨.errorString s, ?_, rfl⟩, ?_⟩
  · rw [internalUpgrade_reported env _ _ v vs info s hmig hdec herr]
  · rw [Upgrade_at env rss aliases T pre post rs tr0 hsel hpre]
    rw [hinst] at hrep
    have hcls := classify_one_master env rs.Alias l1 l2 M tr0 hrep
    rw [← hinst] at hcls
    simp only [Upgrade.replicaset, hcls, Connect_ok env _ _ hconn,
      internalUpgrade_reported env _ _ v vs info s hmig hdec herr, printReplicasetStatus,
      instErr, fmtErr, GoError.Error]
    simp [String.append_assoc]

/-- C8 at a concrete input: the migration on the master `m` of `rs1` reports
`schema is newer`, the replicas `r1` and `r2` are left alone. -/
theorem Upgrade_master_reports_error_witness :
    Upgrade (sampleEnv (fun sock => [.bool (sock != "m.sock")])
        (fun _ => [.table [("err", .inr "schema is newer")]]) (fun _ _ => [.uint32 9]))
        ⟨[⟨"rs1", [sampleInst "r1", sampleInst "m", sampleInst "r2"]⟩]⟩ [] 5 =
      ([Event.connect ⟨"unix", "r1.sock"⟩ none,
        Event.eval ⟨"r1.sock", 0⟩ roExpr [] (.ok [.bool true]),
        Event.connect ⟨"unix", "m.sock"⟩ none,
        Event.eval ⟨"m.sock", 2⟩ roExpr [] (.ok [.bool false]),
        Event.connect ⟨"unix", "r2.sock"⟩ none,
        Event.eval ⟨"r2.sock", 4⟩ roExpr [] (.ok [.bool true]),
        Event.connect ⟨"unix", "m.sock"⟩ none,
        Event.eval ⟨"m.sock", 6⟩ "box.schema.upgrade()" []
          (.ok [.table [("err", .inr "schema is newer")]]),
        Event.print "• rs1: error\n"],
        .ret (some (.errorString "[rs1][app:m]: schema is newer"))) :=
  (Upgrade_master_reports_error (sampleEnv (fun sock => [.bool (sock != "m.sock")])
      (fun _ => [.table [("err", .inr "schema is newer")]]) (fun _ _ => [.uint32 9]))
    _ [] 5 [] [] ⟨"rs1", [sampleInst "r1", sampleInst "m", sampleInst "r2"]⟩ []
    [sampleInst "r1"] [sampleInst "r2"] (sampleInst "m")
    (.table [("err", .inr "schema is newer")]) [] ⟨0, 0, some "schema is newer"⟩
    "schema is newer"
    (by decide) (by decide) (by decide) (by decide) (by decide) (by decide) (by decide)
    (by decide)).2.trans (by decide)

/-! ## C6: LSN wait timeout -/

/-- C6: in a selected replicaset reached without error with exactly one master
candidate `M` whose migration returned LSN `L` and component `I` without error,
when the replicas before `N` are handled without error, `N` accepts the
connection and each of the `T` polls allowed by the timeout answers a value
below `L`, `Upgrade` prints `• <alias>: error` and returns
`[<alias>]: LSN wait timeout: error waiting LSN L in vclock component I on N:
time quota T seconds exceeded`; from the connection to `N` on, the history has
the polls and the status line only, and no evaluation of the migration
procedure. -/
theorem Upgrade_lsn_timeout (env : Env) (rss : Replicasets) (aliases : List String)
    (T : Int) (pre post : List Replicaset) (rs : Replicaset) (tr0 tr1 : Trace)
    (l1 l2 : List Instance) (M : Instance) (v : Value) (vs : List Value) (L I : Nat)
    (earlier later : List InstanceCtx) (N : InstanceCtx)
    (hsel : GetAllowedReplicasets env.IsPrintTable rss aliases = (pre ++ rs :: post, none))
    (hpre : Upgrade env ⟨pre⟩ [] T = (tr0, .ret none))
    (hinst : rs.Instances = l1 ++ M :: l2)
    (hrep : reports env tr0 rs.Instances =
      some (List.replicate l1.length true ++ false :: List.replicate l2.length true))
    (hconn : env.Connect (tr0 ++ classEvents env tr0 rs.Instances)
      ⟨"unix", M.InstanceCtx.ConsoleSocket⟩ = none)
    (hmig : env.Eval (tr0 ++ classEvents env tr0 rs.Instances
        ++ [Event.connect ⟨"unix", M.InstanceCtx.ConsoleSocket⟩ none])
      ⟨M.InstanceCtx.ConsoleSocket, (tr0 ++ classEvents env tr0 rs.Instances).length⟩
      env.upgradeLuaScript [] = .ok (v :: vs))
    (hdec : env.Decode v = (⟨L, I, none⟩, none))
    (hreps : (l1 ++ l2).map (fun i => i.InstanceCtx) = earlier ++ N :: later)
    (hearlier : Upgrade.replicas env rs.Alias ⟨L, I, none⟩ T earlier
      (tr0 ++ classEvents env tr0 rs.Instances
        ++ [Event.connect ⟨"unix", M.InstanceCtx.ConsoleSocket⟩ none,
          Event.eval ⟨M.InstanceCtx.ConsoleSocket,
            (tr0 ++ classEvents env tr0 rs.Instances).length⟩ env.upgradeLuaScript []
            (.ok (v :: vs))]) = (tr1, .next ()))
    (hNconn : env.Connect tr1 ⟨"unix", N.ConsoleSocket⟩ = none)
    (hpoll : ∀ k : Nat, (k : Int) < T → ∃ w ws,
      pollAt env ⟨N.ConsoleSocket, tr1.length⟩ I k
        (tr1 ++ [Event.connect ⟨"unix", N.ConsoleSocket⟩ none]) = .ok (w :: ws) ∧ lsnOf w < L)
    (hscript : env.upgradeLuaScript ≠ vclockExpr I) :
    Upgrade env rss aliases T =
        (tr1 ++ [Event.connect ⟨"unix", N.ConsoleSocket⟩ none]
          ++ pollEvents env ⟨N.ConsoleSocket, tr1.length⟩ I T.toNat
            (tr1 ++ [Event.connect ⟨"unix", N.ConsoleSocket⟩ none])
          ++ [Event.print ("• " ++ rs.Alias ++ ": error\n")],
        .ret (some (.errorString ("[" ++ rs.Alias ++ "]: LSN wait timeout: error waiting LSN "
          ++ toString L ++ " in vclock component " ++ toString I ++ " on "
          ++ GetAppInstanceName N ++ ": time quota " ++ toString T ++ " seconds exceeded")))) ∧
      ∀ e ∈ [Event.connect ⟨"unix", N.ConsoleSocket⟩ none]
          ++ pollEvents env ⟨N.ConsoleSocket, tr1.length⟩ I T.toNat
            (tr1 ++ [Event.connect ⟨"unix", N.ConsoleSocket⟩ none])
          ++ [Event.print ("• " ++ rs.Alias ++ ": error\n")], e.isMigration env = false := by
  refine ⟨?_, ?_⟩
  · rw [Upgrade_at env rss aliases T pre post rs tr0 hsel hpre]
    rw [hinst] at hrep
    have hcls := classify_one_master env rs.Alias l1 l2 M tr0 hrep
    rw [← hinst] at hcls
    have hearlier2 : Upgrade.replicas env rs.Alias ⟨L, I, none⟩ T earlier
        (tr0 ++ classEvents env tr0 rs.Instances
          ++ [Event.connect ⟨"unix", M.InstanceCtx.ConsoleSocket⟩ none]
          ++ [Event.eval ⟨M.InstanceCtx.ConsoleSocket,
            (tr0 ++ classEvents env tr0 rs.Instances).length⟩ env.upgradeLuaScript []
            (.ok (v :: vs))]) = (tr1, .next ()) := by
      rw [← hearlier]
      simp
    have hwait : WaitLSN env (tr1 ++ [Event.connect ⟨"unix", N.ConsoleSocket⟩ none])
        ⟨N.ConsoleSocket, tr1.length⟩ ⟨L, I, none⟩ T =
        (tr1 ++ [Event.connect ⟨"unix", N.ConsoleSocket⟩ none]
          ++ pollEvents env ⟨N.ConsoleSocket, tr1.length⟩ I T.toNat
            (tr1 ++ [Event.connect ⟨"unix", N.ConsoleSocket⟩ none]),
          some (.errorString "")) := by
      unfold WaitLSN
      apply WaitLSN_loop_timeout
      intro k hk
      exact hpoll k (by omega)
    simp only [Upgrade.replicaset, hcls, Connect_ok env _ _ hconn,
      internalUpgrade_ok env _ _ v vs ⟨L, I, none⟩ hmig hdec rfl, hreps,
      replicas_append env rs.Alias ⟨L, I, none⟩ T earlier (N :: later) _ tr1 hearlier2,
      Upgrade.replicas, Connect_ok env _ _ hNconn, hwait, printReplicasetStatus, lsnErr]
    simp [String.append_assoc]
  · intro e he
    simp only [List.mem_append, List.mem_singleton] at he
    rcases he with (he | he) | he
    · subst he
      rfl
    · rcases pollEvents_mem env _ _ _ _ e he with rfl | ⟨res, rfl⟩
      · rfl
      · simp only [Event.isMigration, decide_eq_false_iff_not]
        exact fun hx => hscript hx.symm
    · subst he
      rfl

/-- C6 at a concrete input: master LSN 5 of component 1 and timeout 2; the replica
`r1` is at LSN 9, the replica `r2` answers 1 and then 2, so `Upgrade` gives up
on `r2` after two polls and never reaches `r3`. -/
theorem Upgrade_lsn_timeout_witness :
    Upgrade (sampleEnv (fun sock => [.bool (sock != "m.sock")])
        (fun _ => [.table [("lsn", .inl 5), ("iid", .inl 1)]])
        (fun sock n => if sock = "r1.sock" then [.uint32 9] else [.uint16 (1 + n)]))
        ⟨[⟨"rs1", [sampleInst "r1", sampleInst "m", sampleInst "r2", sampleInst "r3"]⟩]⟩ [] 2 =
      ([Event.connect ⟨"unix", "r1.sock"⟩ none,
        Event.eval ⟨"r1.sock", 0⟩ roExpr [] (.ok [.bool true]),
        Event.connect ⟨"unix", "m.sock"⟩ none,
        Event.eval ⟨"m.sock", 2⟩ roExpr [] (.ok [.bool false]),
        Event.connect ⟨"unix", "r2.sock"⟩ none,
        Event.eval ⟨"r2.sock", 4⟩ roExpr [] (.ok [.bool true]),
        Event.connect ⟨"unix", "r3.sock"⟩ none,
        Event.eval ⟨"r3.sock", 6⟩ roExpr [] (.ok [.bool true]),
        Event.connect ⟨"unix", "m.sock"⟩ none,
        Event.eval ⟨"m.sock", 8⟩ "box.schema.upgrade()" []
          (.ok [.table [("lsn", .inl 5), ("iid", .inl 1)]]),
        Event.connect ⟨"unix", "r1.sock"⟩ none,
        Event.eval ⟨"r1.sock", 10⟩ "return box.info.vclock[1]" [] (.ok [.uint32 9]),
        Event.eval ⟨"r1.sock", 10⟩ "box.schema.upgrade()" []
          (.ok [.table [("lsn", .inl 5), ("iid", .inl 1)]]),
        Event.connect ⟨"unix", "r2.sock"⟩ none,
        Event.eval ⟨"r2.sock", 13⟩ "return box.info.vclock[1]" [] (.ok [.uint16 1]),
        Event.sleep,
        Event.eval ⟨"r2.sock", 13⟩ "return box.info.vclock[1]" [] (.ok [.uint16 2]),
        Event.sleep,
        Event.print "• rs1: error\n"],
        .ret (some (.errorString ("[rs1]: LSN wait timeout: error waiting LSN 5 in vclock "
          ++ "component 1 on app:r2: time quota 2 seconds exceeded")))) :=
  (Upgrade_lsn_timeout (sampleEnv (fun sock => [.bool (sock != "m.sock")])
      (fun _ => [.table [("lsn", .inl 5), ("iid", .inl 1)]])
      (fun sock n => if sock = "r1.sock" then [.uint32 9] else [.uint16 (1 + n)]))
    _ [] 2 [] [] ⟨"rs1", [sampleInst "r1", sampleInst "m", sampleInst "r2", sampleInst "r3"]⟩ []
    [Event.connect ⟨"unix", "r1.sock"⟩ none,
      Event.eval ⟨"r1.sock", 0⟩ roExpr [] (.ok [.bool true]),
      Event.connect ⟨"unix", "m.sock"⟩ none,
      Event.eval ⟨"m.sock", 2⟩ roExpr [] (.ok [.bool false]),
      Event.connect ⟨"unix", "r2.sock"⟩ none,
      Event.eval ⟨"r2.sock", 4⟩ roExpr [] (.ok [.bool true]),
      Event.connect ⟨"unix", "r3.sock"⟩ none,
      Event.eval ⟨"r3.sock", 6⟩ roExpr [] (.ok [.bool true]),
      Event.connect ⟨"unix", "m.sock"⟩ none,
      Event.eval ⟨"m.sock", 8⟩ "box.schema.upgrade()" []
        (.ok [.table [("lsn", .inl 5), ("iid", .inl 1)]]),
      Event.connect ⟨"unix", "r1.sock"⟩ none,
      Event.eval ⟨"r1.sock", 10⟩ "return box.info.vclock[1]" [] (.ok [.uint32 9]),
      Event.eval ⟨"r1.sock", 10⟩ "box.schema.upgrade()" []
        (.ok [.table [("lsn", .inl 5), ("iid", .inl 1)]])]
    [sampleInst "r1"] [sampleInst "r2", sampleInst "r3"] (sampleInst "m")
    (.table [("lsn", .inl 5), ("iid", .inl 1)]) [] 5 1
    [(sampleInst "r1").InstanceCtx] [(sampleInst "r3").InstanceCtx] (sampleInst "r2").InstanceCtx
    (by decide) (by decide) (by decide) (by decide) (by decide) (by decide) (by decide)
    (by decide) (by decide) (by decide)
    (by
      intro k hk
      have hk2 : k = 0 ∨ k = 1 := by omega
      rcases hk2 with rfl | rfl
      · exact ⟨.uint16 1, [], by decide, by decide⟩
      · exact ⟨.uint16 2, [], by decide, by decide⟩)
    (by decide)).1.trans (by decide)

/-! ## `Upgrade`: the shape of the replica phase -/

theorem split_of_append {α : Type} (l1 l2 before after : List α) (e : α)
    (h : l1 ++ l2 = before ++ e :: after) :
    (∃ a1, l1 = before ++ e :: a1 ∧ after = a1 ++ l2) ∨
      (∃ b1, before = l1 ++ b1 ∧ l2 = b1 ++ e :: after) := by
  induction l1 generalizing before with
  | nil => exact Or.inr ⟨before, by simp, by simpa using h⟩
  | cons x xs ih =>
    cases before with
    | nil =>
      simp only [List.cons_append, List.nil_append, List.cons.injEq] at h
      exact Or.inl ⟨xs, by simp [h.1], h.2.symm⟩
    | cons b bs =>
      simp only [List.cons_append, List.cons.injEq] at h
      rcases ih bs h.2 with ⟨a1, h1, h2⟩ | ⟨b1, h1, h2⟩
      · exact Or.inl ⟨a1, by simp [h.1, h1], h2⟩
      · exact Or.inr ⟨b1, by simp [h.1, h1], h2⟩

theorem mfp_of_no_migration (env : Env) (info : SyncInfo) (pre evs : List Event)
    (h : ∀ e ∈ evs, e.isMigration env = false) : MigrationsFollowPolls env info pre evs := by
  intro before c res after heq
  have hm : Event.eval c env.upgradeLuaScript [] res ∈ evs := by
    rw [heq]
    simp
  have := h _ hm
  simp [Event.isMigration] at this

theorem mfp_append (env : Env) (info : SyncInfo) (pre l1 l2 : List Event)
    (h1 : MigrationsFollowPolls env info pre l1)
    (h2 : MigrationsFollowPolls env info (pre ++ l1) l2) :
    MigrationsFollowPolls env info pre (l1 ++ l2) := by
  intro before c res after heq
  rcases split_of_append l1 l2 before after _ heq with ⟨a1, hl1, _⟩ | ⟨b1, hb, hl2⟩
  · exact h1 before c res a1 hl1
  · obtain ⟨b0, r0, hb0, hgood⟩ := h2 b1 c res after hl2
    exact ⟨b0, r0, by rw [hb, ← List.append_assoc, hb0], hgood⟩

theorem mfp_single (env : Env) (info : SyncInfo) (b0 : List Event) (c : Connector)
    (r0 res : Except GoError (List Value)) (hgood : endsWait info r0) :
    MigrationsFollowPolls env info (b0 ++ [Event.eval c (vclockExpr info.IID) [] r0])
      [Event.eval c env.upgradeLuaScript [] res] := by
  intro before c1 res1 after heq
  cases before with
  | nil =>
    simp only [List.nil_append, List.cons.injEq, Event.eval.injEq, true_and] at heq
    obtain ⟨⟨hc, _⟩, _⟩ := heq
    subst hc
    exact ⟨b0, r0, by simp, hgood⟩
  | cons b bs =>
    simp only [List.cons_append, List.cons.injEq] at heq
    have := congrArg List.length heq.2
    simp at this
    omega

theorem connects_append (l1 l2 : List Event) :
    connects (l1 ++ l2) = connects l1 ++ connects l2 := by
  simp [connects]

theorem connects_cons_connect (opts : ConnectOpts) (r : Option GoError) (l : List Event) :
    connects (Event.connect opts r :: l) = opts :: connects l := rfl

theorem connects_cons_eval (c : Connector) (expr : String) (args : List Value)
    (res : Except GoError (List Value)) (l : List Event) :
    connects (Event.eval c expr args res :: l) = connects l := rfl

theorem connects_cons_print (s : String) (l : List Event) :
    connects (Event.print s :: l) = connects l := rfl

theorem connects_nil : connects [] = [] := rfl

theorem printed_append (l1 l2 : List Event) :
    printed (l1 ++ l2) = printed l1 ++ printed l2 := by
  simp [printed]

theorem printed_cons_connect (opts : ConnectOpts) (r : Option GoError) (l : List Event) :
    printed (Event.connect opts r :: l) = printed l := rfl

theorem printed_cons_eval (c : Connector) (expr : String) (args : List Value)
    (res : Except GoError (List Value)) (l : List Event) :
    printed (Event.eval c expr args res :: l) = printed l := rfl

theorem printed_cons_print (s : String) (l : List Event) :
    printed (Event.print s :: l) = s :: printed l := rfl

theorem printed_nil : printed [] = [] := rfl

theorem internalUpgrade_shape (env : Env) (tr : Trace) (c : Connector) :
    ∃ res, (internalUpgrade env tr c).1 = tr ++ [Event.eval c env.upgradeLuaScript [] res] := by
  refine ⟨env.Eval tr c env.upgradeLuaScript [], ?_⟩
  unfold internalUpgrade
  simp only [Connector.Eval]
  cases env.Eval tr c env.upgradeLuaScript [] with
  | error err => rfl
  | ok res =>
    cases res with
    | nil => rfl
    | cons v vs =>
      simp only
      rcases env.Decode v with ⟨i, e⟩
      cases e with
      | some err => rfl
      | none =>
        simp only
        cases i.Err <;> rfl

/-- The events that the replica loop of `Upgrade` adds to the history, whatever
the endpoints do. -/
theorem replicas_shape (env : Env) (a : String) (info : SyncInfo) (T : Int)
    (reps : List InstanceCtx) (tr : Trace) :
    ∃ more, (Upgrade.replicas env a info T reps tr).1 = tr ++ more ∧
      (∀ e ∈ more, e.isConnect = true ∨ e = Event.sleep ∨ (∃ s, e = Event.print s) ∨
        (∃ c res, e = Event.eval c (vclockExpr info.IID) [] res) ∨
        (∃ c res, e = Event.eval c env.upgradeLuaScript [] res)) ∧
      (env.upgradeLuaScript ≠ vclockExpr info.IID → MigrationsFollowPolls env info [] more) ∧
      connects more <+: reps.map (fun run => ⟨"unix", run.ConsoleSocket⟩) ∧
      printed more = (match (Upgrade.replicas env a info T reps tr).2 with
        | .abort _ => [statusLine a "error"]
        | _ => []) := by
  induction reps generalizing tr with
  | nil =>
    exact ⟨[], by simp [Upgrade.replicas], by simp, fun _ => mfp_of_no_migration _ _ _ _ (by simp),
      by simp [connects], by simp [Upgrade.replicas, printed]⟩
  | cons run rest ih =>
    simp only [Upgrade.replicas]
    cases hc : env.Connect tr ⟨"unix", run.ConsoleSocket⟩ with
    | some err =>
      rw [Connect_error env tr _ err hc]
      refine ⟨[Event.connect ⟨"unix", run.ConsoleSocket⟩ (some err),
        Event.print (statusLine a "error")], ?_, ?_, ?_, ?_, ?_⟩
      · simp [printReplicasetStatus, statusLine]
      · intro e he
        simp only [List.mem_cons, List.mem_singleton, List.not_mem_nil, or_false] at he
        rcases he with rfl | rfl
        · exact Or.inl rfl
        · exact Or.inr (Or.inr (Or.inl ⟨_, rfl⟩))
      · intro _
        apply mfp_of_no_migration
        intro e he
        simp only [List.mem_cons, List.mem_singleton, List.not_mem_nil, or_false] at he
        rcases he with rfl | rfl <;> rfl
      · simp [connects_cons_connect, connects_cons_print, connects_nil]
      · simp [printed_cons_connect, printed_cons_print, printed_nil]
    | none =>
      rw [Connect_ok env tr _ hc]
      simp only
      obtain ⟨wev, hwev, hwall, _, hwnil⟩ := WaitLSN_loop_shape env
        ⟨run.ConsoleSocket, tr.length⟩ info T.toNat
        (tr ++ [Event.connect ⟨"unix", run.ConsoleSocket⟩ none])
      have hwmig : ∀ e ∈ wev, env.upgradeLuaScript ≠ vclockExpr info.IID →
          e.isMigration env = false := by
        intro e he hs
        rcases hwall e he with rfl | ⟨res, rfl⟩
        · rfl
        · simp only [Event.isMigration, decide_eq_false_iff_not]
          exact fun hx => hs hx.symm
      have hwconn : connects wev = [] := by
        simp only [connects, List.filterMap_eq_nil_iff]
        intro e he
        rcases hwall e he with rfl | ⟨res, rfl⟩ <;> rfl
      have hwprint : printed wev = [] := by
        simp only [printed, List.filterMap_eq_nil_iff]
        intro e he
        rcases hwall e he with rfl | ⟨res, rfl⟩ <;> rfl
      rcases hw : WaitLSN env (tr ++ [Event.connect ⟨"unix", run.ConsoleSocket⟩ none])
        ⟨run.ConsoleSocket, tr.length⟩ info T with ⟨tr3, rw3⟩
      have htr3 : tr3 = tr ++ [Event.connect ⟨"unix", run.ConsoleSocket⟩ none] ++ wev := by
        unfold WaitLSN at hw
        rw [hw] at hwev
        exact hwev
      have hrw3 : (WaitLSN.loop env ⟨run.ConsoleSocket, tr.length⟩ info T.toNat
          (tr ++ [Event.connect ⟨"unix", run.ConsoleSocket⟩ none])).2 = rw3 := by
        unfold WaitLSN at hw
        rw [hw]
      subst htr3
      cases rw3 with
      | some werr =>
        simp only
        refine ⟨Event.connect ⟨"unix", run.ConsoleSocket⟩ none :: wev
          ++ [Event.print (statusLine a "error")], ?_, ?_, ?_, ?_, ?_⟩
        · simp [printReplicasetStatus, statusLine]
        · intro e he
          simp only [List.mem_append, List.mem_cons, List.mem_singleton, List.not_mem_nil,
            or_false] at he
          rcases he with (rfl | he) | rfl
          · exact Or.inl rfl
          · rcases hwall e he with rfl | ⟨res, rfl⟩
            · exact Or.inr (Or.inl rfl)
            · exact Or.inr (Or.inr (Or.inr (Or.inl ⟨_, _, rfl⟩)))
          · exact Or.inr (Or.inr (Or.inl ⟨_, rfl⟩))
        · intro hs
          apply mfp_of_no_migration
          intro e he
          simp only [List.mem_append, List.mem_cons, List.mem_singleton, List.not_mem_nil,
            or_false] at he
          rcases he with (rfl | he) | rfl
          · rfl
          · exact hwmig e he hs
          · rfl
        · simp [connects_append, connects_cons_connect, connects_cons_eval, connects_cons_print,
            connects_nil, hwconn]
        · simp [printed_append, printed_cons_connect, printed_cons_eval, printed_cons_print,
            printed_nil, hwprint]
      | none =>
        simp only
        obtain ⟨ev0, r0, hev0, hgood⟩ := hwnil hrw3
        obtain ⟨mres, hmres⟩ := internalUpgrade_shape env
          (tr ++ [Event.connect ⟨"unix", run.ConsoleSocket⟩ none] ++ wev)
          ⟨run.ConsoleSocket, tr.length⟩
        have hhead : ∀ e ∈ Event.connect ⟨"unix", run.ConsoleSocket⟩ none :: wev
            ++ [Event.eval ⟨run.ConsoleSocket, tr.length⟩ env.upgradeLuaScript [] mres],
            e.isConnect = true ∨ e = Event.sleep ∨ (∃ s, e = Event.print s) ∨
            (∃ c res, e = Event.eval c (vclockExpr info.IID) [] res) ∨
            (∃ c res, e = Event.eval c env.upgradeLuaScript [] res) := by
          intro e he
          simp only [List.mem_append, List.mem_cons, List.mem_singleton, List.not_mem_nil,
            or_false] at he
          rcases he with (rfl | he) | rfl
          · exact Or.inl rfl
          · rcases hwall e he with rfl | ⟨res, rfl⟩
            · exact Or.inr (Or.inl rfl)
            · exact Or.inr (Or.inr (Or.inr (Or.inl ⟨_, _, rfl⟩)))
          · exact Or.inr (Or.inr (Or.inr (Or.inr ⟨_, _, rfl⟩)))
        have hheadmfp : ∀ pre, env.upgradeLuaScript ≠ vclockExpr info.IID →
            MigrationsFollowPolls env info pre
              (Event.connect ⟨"unix", run.ConsoleSocket⟩ none :: wev
                ++ [Event.eval ⟨run.ConsoleSocket, tr.length⟩ env.upgradeLuaScript [] mres]) := by
          intro pre hs
          apply mfp_append
          · apply mfp_of_no_migration
            intro e he
            simp only [List.mem_cons] at he
            rcases he with rfl | he
            · rfl
            · exact hwmig e he hs
          · have : pre ++ Event.connect ⟨"unix", run.ConsoleSocket⟩ none :: wev =
                (pre ++ Event.connect ⟨"unix", run.ConsoleSocket⟩ none :: ev0)
                  ++ [Event.eval ⟨run.ConsoleSocket, tr.length⟩ (vclockExpr info.IID) [] r0] := by
              rw [hev0]
              simp
            rw [this]
            exact mfp_single env info _ _ r0 mres hgood
        rcases hi : internalUpgrade env
          (tr ++ [Event.connect ⟨"unix", run.ConsoleSocket⟩ none] ++ wev)
          ⟨run.ConsoleSocket, tr.length⟩ with ⟨tr4, ri⟩
        rw [hi] at hmres
        simp only at hmres
        subst hmres
        cases ri with
        | panic msg =>
          simp only
          refine ⟨Event.connect ⟨"unix", run.ConsoleSocket⟩ none :: wev
            ++ [Event.eval ⟨run.ConsoleSocket, tr.length⟩ env.upgradeLuaScript [] mres],
            by simp, hhead, hheadmfp [], ?_, ?_⟩
          · simp [connects_append, connects_cons_connect, connects_cons_eval, connects_cons_print,
              connects_nil, hwconn]
          · simp [printed_append, printed_cons_connect, printed_cons_eval, printed_cons_print,
              printed_nil, hwprint]
        | ret p =>
          rcases p with ⟨i2, e2⟩
          cases e2 with
          | some err =>
            simp only
            refine ⟨(Event.connect ⟨"unix", run.ConsoleSocket⟩ none :: wev
              ++ [Event.eval ⟨run.ConsoleSocket, tr.length⟩ env.upgradeLuaScript [] mres])
              ++ [Event.print (statusLine a "error")], ?_, ?_, ?_, ?_, ?_⟩
            · simp [printReplicasetStatus, statusLine]
            · intro e he
              rcases List.mem_append.mp he with he | he
              · exact hhead e he
              · simp only [List.mem_singleton] at he
                exact Or.inr (Or.inr (Or.inl ⟨_, he⟩))
            · intro hs
              apply mfp_append _ _ _ _ _ (hheadmfp [] hs)
              apply mfp_of_no_migration
              intro e he
              simp only [List.mem_singleton] at he
              subst he
              rfl
            · simp [connects_append, connects_cons_connect, connects_cons_eval, connects_cons_print,
                connects_nil, hwconn]
            · simp [printed_append, printed_cons_connect, printed_cons_eval, printed_cons_print,
                printed_nil, hwprint]
          | none =>
            simp only
            obtain ⟨more, hmore, hall, hmfp, hconn, hprint⟩ := ih
              (tr ++ [Event.connect ⟨"unix", run.ConsoleSocket⟩ none] ++ wev
                ++ [Event.eval ⟨run.ConsoleSocket, tr.length⟩ env.upgradeLuaScript [] mres])
            refine ⟨(Event.connect ⟨"unix", run.ConsoleSocket⟩ none :: wev
              ++ [Event.eval ⟨run.ConsoleSocket, tr.length⟩ env.upgradeLuaScript [] mres])
              ++ more, ?_, ?_, ?_, ?_, ?_⟩
            · rw [hmore]
              simp
            · intro e he
              rcases List.mem_append.mp he with he | he
              · exact hhead e he
              · exact hall e he
            · intro hs
              apply mfp_append _ _ _ _ _ (hheadmfp [] hs)
              intro before c res after heq
              obtain ⟨b0, r1, hb0, hg⟩ := hmfp hs before c res after heq
              simp only [List.nil_append] at hb0
              refine ⟨(Event.connect ⟨"unix", run.ConsoleSocket⟩ none :: wev
                ++ [Event.eval ⟨run.ConsoleSocket, tr.length⟩ env.upgradeLuaScript [] mres])
                ++ b0, r1, ?_, hg⟩
              simp [hb0]
            · simp [connects_append, connects_cons_connect, connects_cons_eval,
                connects_cons_print, connects_nil, hwconn, List.prefix_cons_inj, hconn]
            · rw [← hprint]
              simp [printed_append, printed_cons_connect, printed_cons_eval, printed_cons_print,
                printed_nil, hwprint]

/-! ## `Upgrade`: the loop body after a unique master was found -/

theorem vclockExpr_take (i : Nat) : (vclockExpr i).data.take 8 = "return b".data := by
  simp [vclockExpr, String.data_append]

theorem roExpr_ne_vclockExpr (i : Nat) : roExpr ≠ vclockExpr i := by
  intro h
  have h2 := congrArg (fun s => s.data.take 8) h
  simp only [vclockExpr_take] at h2
  revert h2
  decide

theorem sampleScript_ne_vclockExpr (i : Nat) : "box.schema.upgrade()" ≠ vclockExpr i := by
  intro h
  have h2 := congrArg (fun s => s.data.take 8) h
  simp only [vclockExpr_take] at h2
  revert h2
  decide

theorem internalUpgrade_ret_none (env : Env) (tr tr3 : Trace) (c : Connector) (info : SyncInfo)
    (h : internalUpgrade env tr c = (tr3, .ret (info, none))) :
    ∃ v vs, env.Eval tr c env.upgradeLuaScript [] = .ok (v :: vs) ∧
      env.Decode v = (info, none) ∧ info.Err = none ∧
      tr3 = tr ++ [Event.eval c env.upgradeLuaScript [] (.ok (v :: vs))] := by
  unfold internalUpgrade at h
  simp only [Connector.Eval] at h
  cases he : env.Eval tr c env.upgradeLuaScript [] with
  | error err => simp [he] at h
  | ok res =>
    cases res with
    | nil => simp [he] at h
    | cons v vs =>
      simp only [he] at h
      rcases hd : env.Decode v with ⟨i, e⟩
      rw [hd] at h
      cases e with
      | some err => simp at h
      | none =>
        simp only at h
        cases hie : i.Err with
        | some s => simp [hie] at h
        | none =>
          simp only [hie, Prod.mk.injEq, Outcome.ret.injEq, and_true] at h
          obtain ⟨h1, h2⟩ := h
          subst h2
          exact ⟨v, vs, rfl, hd, hie, h1.symm⟩

/-- The history of the loop body of `Upgrade` for a replicaset with exactly one
master candidate `M`, whatever the endpoints do after the classification. -/
theorem replicaset_master_first (env : Env) (T : Int) (rs : Replicaset) (tr0 : Trace)
    (l1 l2 : List Instance) (M : Instance)
    (hinst : rs.Instances = l1 ++ M :: l2)
    (hrep : reports env tr0 rs.Instances =
      some (List.replicate l1.length true ++ false :: List.replicate l2.length true))
    (hs1 : env.upgradeLuaScript ≠ roExpr) (hs2 : ∀ i, env.upgradeLuaScript ≠ vclockExpr i) :
    (∀ e ∈ classEvents env tr0 rs.Instances,
      e.isMigration env = false ∧ ∀ i, e.isPoll i = false) ∧
    ((∃ err, (Upgrade.replicaset env T rs tr0).1 =
        tr0 ++ classEvents env tr0 rs.Instances
          ++ [Event.connect ⟨"unix", M.InstanceCtx.ConsoleSocket⟩ (some err),
            Event.print (statusLine rs.Alias "error")]) ∨
     (∃ res tail, (Upgrade.replicaset env T rs tr0).1 =
        tr0 ++ classEvents env tr0 rs.Instances
          ++ [Event.connect ⟨"unix", M.InstanceCtx.ConsoleSocket⟩ none,
            Event.eval ⟨M.InstanceCtx.ConsoleSocket,
              (tr0 ++ classEvents env tr0 rs.Instances).length⟩ env.upgradeLuaScript [] res]
          ++ tail ∧ (tail = [] ∨ tail = [Event.print (statusLine rs.Alias "error")])) ∨
     (∃ v vs info more, env.Decode v = (info, none) ∧ info.Err = none ∧
        (Upgrade.replicaset env T rs tr0).1 =
          tr0 ++ classEvents env tr0 rs.Instances
            ++ Event.connect ⟨"unix", M.InstanceCtx.ConsoleSocket⟩ none
              :: Event.eval ⟨M.InstanceCtx.ConsoleSocket,
                (tr0 ++ classEvents env tr0 rs.Instances).length⟩ env.upgradeLuaScript []
                (.ok (v :: vs)) :: more ∧
        (∀ e ∈ more, e.isConnect = true ∨ e = Event.sleep ∨ (∃ s, e = Event.print s) ∨
          (∃ c res, e = Event.eval c (vclockExpr info.IID) [] res) ∨
          (∃ c res, e = Event.eval c env.upgradeLuaScript [] res)) ∧
        MigrationsFollowPolls env info [] more ∧
        connects more <+:
          (l1 ++ l2).map (fun i => ⟨"unix", i.InstanceCtx.ConsoleSocket⟩))) := by
  refine ⟨?_, ?_⟩
  · intro e he
    rcases classEvents_mem env tr0 _ e he with ⟨opts, rfl⟩ | ⟨c, res, rfl⟩
    · exact ⟨rfl, fun _ => rfl⟩
    · refine ⟨?_, ?_⟩
      · simp only [Event.isMigration, decide_eq_false_iff_not]
        exact fun hx => hs1 hx.symm
      · intro i
        simp only [Event.isPoll, decide_eq_false_iff_not]
        exact roExpr_ne_vclockExpr i
  · rw [hinst] at hrep
    have hcls := classify_one_master env rs.Alias l1 l2 M tr0 hrep
    rw [← hinst] at hcls
    simp only [Upgrade.replicaset, hcls]
    cases hconn : env.Connect (tr0 ++ classEvents env tr0 rs.Instances)
        ⟨"unix", M.InstanceCtx.ConsoleSocket⟩ with
    | some err =>
      left
      rw [Connect_error env _ _ err hconn]
      exact ⟨err, by simp [printReplicasetStatus, statusLine]⟩
    | none =>
      right
      rw [Connect_ok env _ _ hconn]
      simp only
      obtain ⟨mres, hmres⟩ := internalUpgrade_shape env
        (tr0 ++ classEvents env tr0 rs.Instances
          ++ [Event.connect ⟨"unix", M.InstanceCtx.ConsoleSocket⟩ none])
        ⟨M.InstanceCtx.ConsoleSocket, (tr0 ++ classEvents env tr0 rs.Instances).length⟩
      rcases hi : internalUpgrade env
        (tr0 ++ classEvents env tr0 rs.Instances
          ++ [Event.connect ⟨"unix", M.InstanceCtx.ConsoleSocket⟩ none])
        ⟨M.InstanceCtx.ConsoleSocket, (tr0 ++ classEvents env tr0 rs.Instances).length⟩
        with ⟨tr3, ri⟩
      rw [hi] at hmres
      simp only at hmres
      cases ri with
      | panic msg =>
        left
        exact ⟨mres, [], by simp [hmres], Or.inl rfl⟩
      | ret p =>
        rcases p with ⟨info, e2⟩
        cases e2 with
        | some err =>
          left
          exact ⟨mres, [Event.print (statusLine rs.Alias "error")],
            by simp [hmres, printReplicasetStatus, statusLine], Or.inr rfl⟩
        | none =>
          right
          obtain ⟨v, vs, _, hdec, herr, htr3⟩ := internalUpgrade_ret_none env _ _ _ _ hi
          obtain ⟨more, hmore, hall, hmfp, hconns, _⟩ := replicas_shape env rs.Alias info T
            ((l1 ++ l2).map (fun i => i.InstanceCtx)) tr3
          simp only
          rcases hr : Upgrade.replicas env rs.Alias info T
            ((l1 ++ l2).map (fun i => i.InstanceCtx)) tr3 with ⟨tr4, fl⟩
          rw [hr] at hmore
          simp only at hmore
          have hconns2 : connects more <+:
              (l1 ++ l2).map (fun i => (⟨"unix", i.InstanceCtx.ConsoleSocket⟩ : ConnectOpts)) := by
            simpa [List.map_map] using hconns
          cases fl with
          | next u =>
            refine ⟨v, vs, info, more ++ [Event.print (statusLine rs.Alias "ok")], hdec, herr,
              ?_, ?_, ?_, ?_⟩
            · rw [hr]
              simp only
              rw [hmore, htr3]
              simp [printReplicasetStatus, statusLine]
            · intro e he
              rcases List.mem_append.mp he with he | he
              · exact hall e he
              · simp only [List.mem_singleton] at he
                exact Or.inr (Or.inr (Or.inl ⟨_, he⟩))
            · apply mfp_append _ _ _ _ _ (hmfp (hs2 _))
              apply mfp_of_no_migration
              intro e he
              simp only [List.mem_singleton] at he
              subst he
              rfl
            · simpa [connects_append, connects_cons_print, connects_nil] using hconns2
          | abort err =>
            exact ⟨v, vs, info, more, hdec, herr, by rw [hr]; simp only; rw [hmore, htr3]; simp,
              hall, hmfp (hs2 _), hconns2⟩
          | panic msg =>
            exact ⟨v, vs, info, more, hdec, herr, by rw [hr]; simp only; rw [hmore, htr3]; simp,
              hall, hmfp (hs2 _), hconns2⟩

/-! ## C7: replicasets are processed in order up to the first error -/

theorem statusLine_ok_ne_error (a b : String) : statusLine a "ok" ≠ statusLine b "error" := by
  intro h
  have h2 := congrArg (fun s => s.data.reverse) h
  simp [statusLine, String.data_append] at h2

/-- The events that the classification loop of `Upgrade` adds to the history,
whatever the endpoints do. -/
theorem classify_shape (env : Env) (a : String) (insts : List Instance)
    (m : Option InstanceCtx) (reps : List InstanceCtx) (tr : Trace) :
    ∃ ev, (Upgrade.classify env a insts m reps tr).1 = tr ++ ev ∧
      (∀ o ∈ connects ev, ∃ i ∈ insts, o = ⟨"unix", i.InstanceCtx.ConsoleSocket⟩) ∧
      printed ev = (match (Upgrade.classify env a insts m reps tr).2 with
        | .abort _ => [statusLine a "error"]
        | _ => []) ∧
      (∀ m1 reps1, (Upgrade.classify env a insts m reps tr).2 = .next (m1, reps1) →
        (∀ x, m1 = some x → m = some x ∨ ∃ i ∈ insts, x = i.InstanceCtx) ∧
        (∀ x ∈ reps1, x ∈ reps ∨ ∃ i ∈ insts, x = i.InstanceCtx)) := by
  induction insts generalizing m reps tr with
  | nil =>
    refine ⟨[], by simp [Upgrade.classify], by simp [connects_nil], by simp [Upgrade.classify, printed_nil], ?_⟩
    intro m1 reps1 h
    simp only [Upgrade.classify, Flow.next.injEq, Prod.mk.injEq] at h
    obtain ⟨h1, h2⟩ := h
    subst h1 h2
    exact ⟨fun x hx => Or.inl hx, fun x hx => Or.inl hx⟩
  | cons inst rest ih =>
    simp only [Upgrade.classify, Connect, Connector.Eval]
    have hstop : ∀ (r : Option GoError) (evs : List Event) (err : GoError),
        connects evs = [] →  printed evs = [] →
        ∃ ev, tr ++ [Event.connect ⟨"unix", inst.InstanceCtx.ConsoleSocket⟩ r] ++ evs
              ++ [Event.print (statusLine a "error")] = tr ++ ev ∧
          (∀ o ∈ connects ev, ∃ i ∈ inst :: rest, o = ⟨"unix", i.InstanceCtx.ConsoleSocket⟩) ∧
          printed ev = [statusLine a "error"] := by
      intro r evs err hce hpe
      refine ⟨[Event.connect ⟨"unix", inst.InstanceCtx.ConsoleSocket⟩ r] ++ evs
        ++ [Event.print (statusLine a "error")], by simp, ?_, ?_⟩
      · intro o ho
        simp only [connects_append, connects_cons_connect, connects_cons_print, connects_nil,
          hce, List.append_nil, List.mem_singleton] at ho
        exact ⟨inst, List.mem_cons_self _ _, ho⟩
      · simp [printed_append, printed_cons_connect, printed_cons_print, printed_nil, hpe]
    cases hc : env.Connect tr ⟨"unix", inst.InstanceCtx.ConsoleSocket⟩ with
    | some err =>
      simp only
      obtain ⟨ev, hev, h1, h2⟩ := hstop (some err) [] err rfl rfl
      refine ⟨ev, ?_, h1, h2, ?_⟩
      · rw [← hev]
        simp [printReplicasetStatus, statusLine]
      · intro m1 reps1 h
        cases h
    | none =>
      simp only
      cases he : env.Eval (tr ++ [Event.connect ⟨"unix", inst.InstanceCtx.ConsoleSocket⟩ none])
          ⟨inst.InstanceCtx.ConsoleSocket, tr.length⟩ roExpr [] with
      | error err =>
        simp only
        obtain ⟨ev, hev, h1, h2⟩ := hstop none
          [Event.eval ⟨inst.InstanceCtx.ConsoleSocket, tr.length⟩ roExpr [] (.error err)] err
          rfl rfl
        refine ⟨ev, ?_, h1, h2, ?_⟩
        · rw [← hev]
          simp [printReplicasetStatus, statusLine]
        · intro m1 reps1 h
          cases h
      | ok res =>
        have hgo : ∀ (m2 : Option InstanceCtx) (reps2 : List InstanceCtx),
            ((∀ x, m2 = some x → m = some x ∨ x = inst.InstanceCtx) ∧
              (∀ x ∈ reps2, x ∈ reps ∨ x = inst.InstanceCtx)) →
            ∃ ev, (Upgrade.classify env a rest m2 reps2
                (tr ++ [Event.connect ⟨"unix", inst.InstanceCtx.ConsoleSocket⟩ none]
                  ++ [Event.eval ⟨inst.InstanceCtx.ConsoleSocket, tr.length⟩ roExpr []
                    (.ok res)])).1 = tr ++ ev ∧
              (∀ o ∈ connects ev, ∃ i ∈ inst :: rest,
                o = ⟨"unix", i.InstanceCtx.ConsoleSocket⟩) ∧
              printed ev = (match (Upgrade.classify env a rest m2 reps2
                  (tr ++ [Event.connect ⟨"unix", inst.InstanceCtx.ConsoleSocket⟩ none]
                    ++ [Event.eval ⟨inst.InstanceCtx.ConsoleSocket, tr.length⟩ roExpr []
                      (.ok res)])).2 with
                | .abort _ => [statusLine a "error"]
                | _ => []) ∧
              (∀ m1 reps1, (Upgrade.classify env a rest m2 reps2
                  (tr ++ [Event.connect ⟨"unix", inst.InstanceCtx.ConsoleSocket⟩ none]
                    ++ [Event.eval ⟨inst.InstanceCtx.ConsoleSocket, tr.length⟩ roExpr []
                      (.ok res)])).2 = .next (m1, reps1) →
                (∀ x, m1 = some x → m = some x ∨ ∃ i ∈ inst :: rest, x = i.InstanceCtx) ∧
                (∀ x ∈ reps1, x ∈ reps ∨ ∃ i ∈ inst :: rest, x = i.InstanceCtx)) := by
          intro m2 reps2 hinv
          obtain ⟨ev, hev, h1, h2, h3⟩ := ih m2 reps2
            (tr ++ [Event.connect ⟨"unix", inst.InstanceCtx.ConsoleSocket⟩ none]
              ++ [Event.eval ⟨inst.InstanceCtx.ConsoleSocket, tr.length⟩ roExpr [] (.ok res)])
          refine ⟨[Event.connect ⟨"unix", inst.InstanceCtx.ConsoleSocket⟩ none,
            Event.eval ⟨inst.InstanceCtx.ConsoleSocket, tr.length⟩ roExpr [] (.ok res)] ++ ev,
            by rw [hev]; simp, ?_, ?_, ?_⟩
          · intro o ho
            simp only [connects_append, connects_cons_connect, connects_cons_eval, connects_nil,
              List.singleton_append, List.mem_cons] at ho
            rcases ho with rfl | ho
            · exact ⟨inst, List.mem_cons_self _ _, rfl⟩
            · obtain ⟨i, hi, hio⟩ := h1 o ho
              exact ⟨i, List.mem_cons_of_mem _ hi, hio⟩
          · rw [← h2]
            simp [printed_append, printed_cons_connect, printed_cons_eval, printed_nil]
          · intro m1 reps1 hres
            obtain ⟨hm, hr⟩ := h3 m1 reps1 hres
            refine ⟨?_, ?_⟩
            · intro x hx
              rcases hm x hx with hm2 | ⟨i, hi, hxi⟩
              · rcases hinv.1 x hm2 with h | h
                · exact Or.inl h
                · exact Or.inr ⟨inst, List.mem_cons_self _ _, h⟩
              · exact Or.inr ⟨i, List.mem_cons_of_mem _ hi, hxi⟩
            · intro x hx
              rcases hr x hx with hr2 | ⟨i, hi, hxi⟩
              · rcases hinv.2 x hr2 with h | h
                · exact Or.inl h
                · exact Or.inr ⟨inst, List.mem_cons_self _ _, h⟩
              · exact Or.inr ⟨i, List.mem_cons_of_mem _ hi, hxi⟩
        have hpanic : ∀ v vs, res = v :: vs →
            ∃ ev, tr ++ [Event.connect ⟨"unix", inst.InstanceCtx.ConsoleSocket⟩ none]
                ++ [Event.eval ⟨inst.InstanceCtx.ConsoleSocket, tr.length⟩ roExpr []
                  (.ok (v :: vs))] = tr ++ ev ∧
              (∀ o ∈ connects ev, ∃ i ∈ inst :: rest,
                o = ⟨"unix", i.InstanceCtx.ConsoleSocket⟩) ∧
              printed ev = [] := by
          intro v vs _
          refine ⟨[Event.connect ⟨"unix", inst.InstanceCtx.ConsoleSocket⟩ none,
            Event.eval ⟨inst.InstanceCtx.ConsoleSocket, tr.length⟩ roExpr [] (.ok (v :: vs))],
            by simp, ?_, rfl⟩
          intro o ho
          simp only [connects_cons_connect, connects_cons_eval, connects_nil,
            List.mem_singleton] at ho
          exact ⟨inst, List.mem_cons_self _ _, ho⟩
        cases res with
        | nil =>
          simp only
          obtain ⟨ev, hev, h1, h2⟩ := hstop none
            [Event.eval ⟨inst.InstanceCtx.ConsoleSocket, tr.length⟩ roExpr [] (.ok [])]
            (.errorString "") rfl rfl
          refine ⟨ev, ?_, h1, h2, ?_⟩
          · rw [← hev]
            simp [printReplicasetStatus, statusLine]
          · intro m1 reps1 h
            cases h
        | cons v vs =>
          cases v with
          | bool b =>
            cases b with
            | true =>
              simp only
              exact hgo m (reps ++ [inst.InstanceCtx])
                ⟨fun x hx => Or.inl hx, fun x hx => by
                  rcases List.mem_append.mp hx with h | h
                  · exact Or.inl h
                  · exact Or.inr (List.mem_singleton.mp h)⟩
            | false =>
              cases m with
              | none =>
                simp only
                exact hgo (some inst.InstanceCtx) reps
                  ⟨fun x hx => Or.inr (Option.some.inj hx).symm, fun x hx => Or.inl hx⟩
              | some m0 =>
                simp only
                obtain ⟨ev, hev, h1, h2⟩ := hstop none
                  [Event.eval ⟨inst.InstanceCtx.ConsoleSocket, tr.length⟩ roExpr []
                    (.ok (.bool false :: vs))] (.errorString "") rfl rfl
                refine ⟨ev, ?_, h1, h2, ?_⟩
                · rw [← hev]
                  simp [printReplicasetStatus, statusLine]
                · intro m1 reps1 h
                  cases h
          | _ =>
            simp only
            obtain ⟨ev, hev, h1, h2⟩ := hpanic _ vs rfl
            refine ⟨ev, hev, h1, h2, ?_⟩
            intro m1 reps1 h
            cases h

/-- The events that the body of the outer loop of `Upgrade` adds to the history
for one replicaset, whatever the endpoints do: connections go to instances of
the replicaset only, and exactly one status line is printed unless a panic
unwinds. -/
theorem replicaset_shape (env : Env) (T : Int) (rs : Replicaset) (tr : Trace) :
    ∃ ev, (Upgrade.replicaset env T rs tr).1 = tr ++ ev ∧
      (∀ o ∈ connects ev, ∃ i ∈ rs.Instances, o = ⟨"unix", i.InstanceCtx.ConsoleSocket⟩) ∧
      printed ev = (match (Upgrade.replicaset env T rs tr).2 with
        | .next _ => [statusLine rs.Alias "ok"]
        | .abort _ => [statusLine rs.Alias "error"]
        | .panic _ => []) := by
  obtain ⟨ev1, hev1, hc1, hp1, hinv⟩ := classify_shape env rs.Alias rs.Instances none [] tr
  unfold Upgrade.replicaset
  rcases hcl : Upgrade.classify env rs.Alias rs.Instances none [] tr with ⟨tr1, fl⟩
  rw [hcl] at hev1 hp1 hinv
  simp only at hev1 hp1 hinv
  subst hev1
  cases fl with
  | abort err => exact ⟨ev1, rfl, hc1, hp1⟩
  | panic msg => exact ⟨ev1, rfl, hc1, hp1⟩
  | next p =>
    rcases p with ⟨m1, reps1⟩
    obtain ⟨hm1, hreps1⟩ := hinv m1 reps1 rfl
    cases m1 with
    | none =>
      refine ⟨ev1 ++ [Event.print (statusLine rs.Alias "error")], ?_, ?_, ?_⟩
      · simp [printReplicasetStatus, statusLine]
      · intro o ho
        simp only [connects_append, connects_cons_print, connects_nil, List.append_nil] at ho
        exact hc1 o ho
      · simp only at hp1
        simp [printed_append, printed_cons_print, printed_nil, hp1]
    | some masterRun =>
      simp only at hp1 ⊢
      have hmaster : ∃ i ∈ rs.Instances, masterRun = i.InstanceCtx := by
        rcases hm1 masterRun rfl with h | h
        · cases h
        · exact h
      have hrepl : ∀ x ∈ reps1, ∃ i ∈ rs.Instances, x = i.InstanceCtx := by
        intro x hx
        rcases hreps1 x hx with h | h
        · simp at h
        · exact h
      have hmconn : ∀ o, o = (⟨"unix", masterRun.ConsoleSocket⟩ : ConnectOpts) →
          ∃ i ∈ rs.Instances, o = ⟨"unix", i.InstanceCtx.ConsoleSocket⟩ := by
        intro o ho
        obtain ⟨i, hi, hmi⟩ := hmaster
        exact ⟨i, hi, by rw [ho, hmi]⟩
      cases hconn : env.Connect (tr ++ ev1) ⟨"unix", masterRun.ConsoleSocket⟩ with
      | some err =>
        rw [Connect_error env _ _ err hconn]
        refine ⟨ev1 ++ [Event.connect ⟨"unix", masterRun.ConsoleSocket⟩ (some err),
          Event.print (statusLine rs.Alias "error")], ?_, ?_, ?_⟩
        · simp [printReplicasetStatus, statusLine]
        · intro o ho
          simp only [connects_append, connects_cons_connect, connects_cons_print, connects_nil,
            List.mem_append, List.mem_singleton] at ho
          rcases ho with ho | ho
          · exact hc1 o ho
          · exact hmconn o ho
        · simp [printed_append, printed_cons_connect, printed_cons_print, printed_nil, hp1]
      | none =>
        rw [Connect_ok env _ _ hconn]
        simp only
        obtain ⟨mres, hmres⟩ := internalUpgrade_shape env
          (tr ++ ev1 ++ [Event.connect ⟨"unix", masterRun.ConsoleSocket⟩ none])
          ⟨masterRun.ConsoleSocket, (tr ++ ev1).length⟩
        rcases hi : internalUpgrade env
          (tr ++ ev1 ++ [Event.connect ⟨"unix", masterRun.ConsoleSocket⟩ none])
          ⟨masterRun.ConsoleSocket, (tr ++ ev1).length⟩ with ⟨tr3, ri⟩
        rw [hi] at hmres
        simp only at hmres
        subst hmres
        have hhead : ∀ o ∈ connects (ev1
            ++ [Event.connect ⟨"unix", masterRun.ConsoleSocket⟩ none,
              Event.eval ⟨masterRun.ConsoleSocket, (tr ++ ev1).length⟩ env.upgradeLuaScript []
                mres]), ∃ i ∈ rs.Instances, o = ⟨"unix", i.InstanceCtx.ConsoleSocket⟩ := by
          intro o ho
          simp only [connects_append, connects_cons_connect, connects_cons_eval, connects_nil,
            List.mem_append, List.mem_singleton] at ho
          rcases ho with ho | ho
          · exact hc1 o ho
          · exact hmconn o ho
        have hheadp : printed (ev1
            ++ [Event.connect ⟨"unix", masterRun.ConsoleSocket⟩ none,
              Event.eval ⟨masterRun.ConsoleSocket, (tr ++ ev1).length⟩ env.upgradeLuaScript []
                mres]) = [] := by
          simp [printed_append, printed_cons_connect, printed_cons_eval, printed_nil, hp1]
        cases ri with
        | panic msg =>
          exact ⟨_, by simp, hhead, hheadp⟩
        | ret q =>
          rcases q with ⟨info, e2⟩
          cases e2 with
          | some err =>
            simp only
            refine ⟨(ev1 ++ [Event.connect ⟨"unix", masterRun.ConsoleSocket⟩ none,
              Event.eval ⟨masterRun.ConsoleSocket, (tr ++ ev1).length⟩ env.upgradeLuaScript []
                mres]) ++ [Event.print (statusLine rs.Alias "error")], ?_, ?_, ?_⟩
            · simp [printReplicasetStatus, statusLine]
            · intro o ho
              rw [connects_append] at ho
              simp only [connects_cons_print, connects_nil, List.append_nil] at ho
              exact hhead o ho
            · rw [printed_append, hheadp]
              rfl
          | none =>
            simp only
            obtain ⟨more, hmore, _, _, hconns, hprint⟩ := replicas_shape env rs.Alias info T
              reps1 (tr ++ ev1 ++ [Event.connect ⟨"unix", masterRun.ConsoleSocket⟩ none]
                ++ [Event.eval ⟨masterRun.ConsoleSocket, (tr ++ ev1).length⟩
                  env.upgradeLuaScript [] mres])
            have hmoreconn : ∀ o ∈ connects more,
                ∃ i ∈ rs.Instances, o = ⟨"unix", i.InstanceCtx.ConsoleSocket⟩ := by
              intro o ho
              have ho2 := hconns.subset ho
              simp only [List.mem_map] at ho2
              obtain ⟨x, hx, hxo⟩ := ho2
              obtain ⟨i, hi, hxi⟩ := hrepl x hx
              exact ⟨i, hi, by rw [← hxo, hxi]⟩
            rcases hr : Upgrade.replicas env rs.Alias info T reps1
              (tr ++ ev1 ++ [Event.connect ⟨"unix", masterRun.ConsoleSocket⟩ none]
                ++ [Event.eval ⟨masterRun.ConsoleSocket, (tr ++ ev1).length⟩
                  env.upgradeLuaScript [] mres]) with ⟨tr4, fl2⟩
            rw [hr] at hmore hprint
            simp only at hmore hprint
            subst hmore
            have hall : ∀ o ∈ connects ((ev1
                ++ [Event.connect ⟨"unix", masterRun.ConsoleSocket⟩ none,
                  Event.eval ⟨masterRun.ConsoleSocket, (tr ++ ev1).length⟩
                    env.upgradeLuaScript [] mres]) ++ more),
                ∃ i ∈ rs.Instances, o = ⟨"unix", i.InstanceCtx.ConsoleSocket⟩ := by
              intro o ho
              rw [connects_append] at ho
              rcases List.mem_append.mp ho with ho | ho
              · exact hhead o ho
              · exact hmoreconn o ho
            cases fl2 with
            | next u =>
              simp only at hprint ⊢
              refine ⟨((ev1 ++ [Event.connect ⟨"unix", masterRun.ConsoleSocket⟩ none,
                Event.eval ⟨masterRun.ConsoleSocket, (tr ++ ev1).length⟩ env.upgradeLuaScript []
                  mres]) ++ more) ++ [Event.print (statusLine rs.Alias "ok")], ?_, ?_, ?_⟩
              · simp [printReplicasetStatus, statusLine]
              · intro o ho
                rw [connects_append] at ho
                simp only [connects_cons_print, connects_nil, List.append_nil] at ho
                exact hall o ho
              · rw [printed_append, printed_append, hheadp, hprint]
                rfl
            | abort err =>
              simp only at hprint ⊢
              refine ⟨(ev1 ++ [Event.connect ⟨"unix", masterRun.ConsoleSocket⟩ none,
                Event.eval ⟨masterRun.ConsoleSocket, (tr ++ ev1).length⟩ env.upgradeLuaScript []
                  mres]) ++ more, by simp, hall, ?_⟩
              rw [printed_append, hheadp, hprint]
              rfl
            | panic msg =>
              simp only at hprint ⊢
              refine ⟨(ev1 ++ [Event.connect ⟨"unix", masterRun.ConsoleSocket⟩ none,
                Event.eval ⟨masterRun.ConsoleSocket, (tr ++ ev1).length⟩ env.upgradeLuaScript []
                  mres]) ++ more, by simp, hall, ?_⟩
              rw [printed_append, hheadp, hprint]
              rfl

/-- The run of the outer loop of `Upgrade` from history `tr`, whatever the
endpoints do: either every replicaset gets its `ok` line and nil is returned,
or the run is that of the list cut after some replicaset `rs`, for which it
prints `error` and returns an error, or panics without a line for it. -/
theorem Upgrade_loop_shape (env : Env) (T : Int) (sel : List Replicaset) (tr : Trace) :
    ∃ ev, (Upgrade.loop env T sel tr).1 = tr ++ ev ∧
      (((Upgrade.loop env T sel tr).2 = .ret none ∧
          printed ev = sel.map (fun rs => statusLine rs.Alias "ok") ∧
          ∀ o ∈ connects ev, ∃ rs ∈ sel, ∃ i ∈ rs.Instances,
            o = ⟨"unix", i.InstanceCtx.ConsoleSocket⟩) ∨
        ∃ done rs later, sel = done ++ rs :: later ∧
          Upgrade.loop env T sel tr = Upgrade.loop env T (done ++ [rs]) tr ∧
          (∀ o ∈ connects ev, ∃ r ∈ done ++ [rs], ∃ i ∈ r.Instances,
            o = ⟨"unix", i.InstanceCtx.ConsoleSocket⟩) ∧
          ((∃ err, (Upgrade.loop env T sel tr).2 = .ret (some err) ∧
              printed ev = done.map (fun rs => statusLine rs.Alias "ok")
                ++ [statusLine rs.Alias "error"]) ∨
            (∃ msg, (Upgrade.loop env T sel tr).2 = .panic msg ∧
              printed ev = done.map (fun rs => statusLine rs.Alias "ok")))) := by
  induction sel generalizing tr with
  | nil => exact ⟨[], by simp [Upgrade.loop], Or.inl ⟨rfl, rfl, by simp [connects_nil]⟩⟩
  | cons rs rest ih =>
    obtain ⟨ev1, hev1, hc1, hp1⟩ := replicaset_shape env T rs tr
    rcases hr : Upgrade.replicaset env T rs tr with ⟨tr1, fl⟩
    rw [hr] at hev1 hp1
    simp only at hev1 hp1
    subst hev1
    have hone : Upgrade.loop env T ([] ++ [rs]) tr =
        (match fl with
          | .next _ => (tr ++ ev1, .ret none)
          | .abort err => (tr ++ ev1, .ret (some err))
          | .panic msg => (tr ++ ev1, .panic msg)) := by
      simp only [List.nil_append, Upgrade.loop, hr]
      cases fl <;> rfl
    cases fl with
    | abort err =>
      refine ⟨ev1, by simp [Upgrade.loop, hr], Or.inr ⟨[], rs, rest, rfl, ?_, ?_, ?_⟩⟩
      · rw [hone]
        simp [Upgrade.loop, hr]
      · intro o ho
        obtain ⟨i, hi, hio⟩ := hc1 o ho
        exact ⟨rs, by simp, i, hi, hio⟩
      · exact Or.inl ⟨err, by simp [Upgrade.loop, hr], by simpa using hp1⟩
    | panic msg =>
      refine ⟨ev1, by simp [Upgrade.loop, hr], Or.inr ⟨[], rs, rest, rfl, ?_, ?_, ?_⟩⟩
      · rw [hone]
        simp [Upgrade.loop, hr]
      · intro o ho
        obtain ⟨i, hi, hio⟩ := hc1 o ho
        exact ⟨rs, by simp, i, hi, hio⟩
      · exact Or.inr ⟨msg, by simp [Upgrade.loop, hr], by simpa using hp1⟩
    | next u =>
      have hstep : ∀ l, Upgrade.loop env T (rs :: l) tr = Upgrade.loop env T l (tr ++ ev1) := by
        intro l
        simp [Upgrade.loop, hr]
      simp only at hp1
      obtain ⟨ev2, hev2, hcases⟩ := ih (tr ++ ev1)
      refine ⟨ev1 ++ ev2, by rw [hstep, hev2]; simp, ?_⟩
      rcases hcases with ⟨hret, hpr, hcn⟩ | ⟨done, r, later, hsel, hcut, hcn, hout⟩
      · left
        refine ⟨by rw [hstep]; exact hret, ?_, ?_⟩
        · simp [printed_append, hp1, hpr]
        · intro o ho
          rw [connects_append] at ho
          rcases List.mem_append.mp ho with ho | ho
          · obtain ⟨i, hi, hio⟩ := hc1 o ho
            exact ⟨rs, by simp, i, hi, hio⟩
          · obtain ⟨r, hr2, i, hi, hio⟩ := hcn o ho
            exact ⟨r, List.mem_cons_of_mem _ hr2, i, hi, hio⟩
      · right
        refine ⟨rs :: done, r, later, by simp [hsel], ?_, ?_, ?_⟩
        · rw [hstep, hcut]
          simp only [List.cons_append]
          rw [hstep]
        · intro o ho
          rw [connects_append] at ho
          rcases List.mem_append.mp ho with ho | ho
          · obtain ⟨i, hi, hio⟩ := hc1 o ho
            exact ⟨rs, by simp, i, hi, hio⟩
          · obtain ⟨r2, hr2, i, hi, hio⟩ := hcn o ho
            exact ⟨r2, by simp only [List.cons_append]; exact List.mem_cons_of_mem _ hr2,
              i, hi, hio⟩
        · rcases hout with ⟨err, he, hpr⟩ | ⟨msg, he, hpr⟩
          · exact Or.inl ⟨err, by rw [hstep]; exact he, by simp [printed_append, hp1, hpr]⟩
          · exact Or.inr ⟨msg, by rw [hstep]; exact he, by simp [printed_append, hp1, hpr]⟩

/-! ## `Upgrade`: the replica phase, replica by replica -/

theorem WaitLSN_loop_run (env : Env) (conn : Connector) (info : SyncInfo) (n : Nat)
    (tr : Trace) :
    ∃ wait reached, WaitLSN.loop env conn info n tr =
        (tr ++ wait, (WaitLSN.loop env conn info n tr).2) ∧
      WaitRun env info conn tr n wait reached ∧
      (reached = true ↔ (WaitLSN.loop env conn info n tr).2 = none) := by
  induction n generalizing tr with
  | zero =>
    exact ⟨[], false, by simp [WaitLSN.loop], WaitRun.timeout tr, by simp [WaitLSN.loop]⟩
  | succ n ih =>
    unfold WaitLSN.loop
    simp only [Connector.Eval]
    cases hres : env.Eval tr conn (vclockExpr info.IID) [] with
    | error err =>
      exact ⟨_, false, rfl, WaitRun.failed tr n err hres, by simp⟩
    | ok res =>
      cases res with
      | nil =>
        have hw := @WaitRun.ended env info conn tr n (by rw [hres]; exact Or.inl rfl)
        rw [hres] at hw
        exact ⟨_, true, rfl, hw, by simp⟩
      | cons v vs =>
        simp only
        by_cases hl : lsnOf v ≥ info.LSN
        · have hw := @WaitRun.ended env info conn tr n
            (by rw [hres]; exact Or.inr ⟨v, vs, rfl, hl⟩)
          rw [hres] at hw
          exact ⟨_, true, by simp [hl], hw, by simp [hl]⟩
        · simp only [hl, if_false]
          obtain ⟨wait, reached, h1, h2, h3⟩ := ih
            (tr ++ [Event.eval conn (vclockExpr info.IID) [] (.ok (v :: vs))] ++ [Event.sleep])
          refine ⟨Event.eval conn (vclockExpr info.IID) [] (.ok (v :: vs)) :: Event.sleep :: wait,
            reached, ?_, ?_, h3⟩
          · rw [h1]
            simp
          · apply WaitRun.again tr n v vs wait reached hres (by omega)
            simpa using h2

theorem internalUpgrade_cases (env : Env) (tr : Trace) (c : Connector) :
    (internalUpgrade env tr c).1 =
        tr ++ [Event.eval c env.upgradeLuaScript [] (env.Eval tr c env.upgradeLuaScript [])] ∧
      (migrationOk env (env.Eval tr c env.upgradeLuaScript []) ↔
        ∃ info, (internalUpgrade env tr c).2 = .ret (info, none)) ∧
      (env.Eval tr c env.upgradeLuaScript [] = .ok [] ↔
        ∃ msg, (internalUpgrade env tr c).2 = .panic msg) := by
  unfold internalUpgrade migrationOk
  simp only [Connector.Eval]
  cases hres : env.Eval tr c env.upgradeLuaScript [] with
  | error err => simp
  | ok res =>
    cases res with
    | nil => simp
    | cons v vs =>
      simp only
      rcases hd : env.Decode v with ⟨i, e⟩
      cases e with
      | some err => simp [hd]
      | none =>
        simp only
        cases he : i.Err with
        | some s =>
          simp [hd]
          intro x
          rw [he] at x
          cases x
        | none =>
          simp [hd]
          exact he

/-- The replica loop of `Upgrade` handles the replicas one by one, in list
order, each on its own connection. -/
theorem replicas_run (env : Env) (a : String) (info : SyncInfo) (T : Int)
    (reps : List InstanceCtx) (tr : Trace) :
    ∃ more completed, (Upgrade.replicas env a info T reps tr).1 = tr ++ more ∧
      ReplicaRun env a info T tr reps more completed ∧
      (completed = true ↔ (Upgrade.replicas env a info T reps tr).2 = .next ()) := by
  induction reps generalizing tr with
  | nil =>
    exact ⟨[], true, by simp [Upgrade.replicas], ReplicaRun.done tr,
      by simp [Upgrade.replicas]⟩
  | cons run rest ih =>
    simp only [Upgrade.replicas]
    cases hc : env.Connect tr ⟨"unix", run.ConsoleSocket⟩ with
    | some err =>
      rw [Connect_error env tr _ err hc]
      exact ⟨_, false, by simp [printReplicasetStatus, statusLine],
        ReplicaRun.connectFailed tr run rest err hc, by simp⟩
    | none =>
      rw [Connect_ok env tr _ hc]
      simp only
      obtain ⟨wait, reached, hw1, hw2, hw3⟩ := WaitLSN_loop_run env
        ⟨run.ConsoleSocket, tr.length⟩ info T.toNat
        (tr ++ [Event.connect ⟨"unix", run.ConsoleSocket⟩ none])
      simp only [WaitLSN]
      rw [hw1]
      cases hwr : (WaitLSN.loop env ⟨run.ConsoleSocket, tr.length⟩ info T.toNat
          (tr ++ [Event.connect ⟨"unix", run.ConsoleSocket⟩ none])).2 with
      | some e =>
        have hreached : reached = false := by
          cases reached with
          | false => rfl
          | true =>
            have := hw3.mp rfl
            rw [hwr] at this
            simp at this
        subst hreached
        exact ⟨_, false, by simp [printReplicasetStatus, statusLine],
          ReplicaRun.waitFailed tr run rest wait hc hw2, by simp⟩
      | none =>
        have hreached : reached = true := hw3.mpr hwr
        subst hreached
        simp only
        obtain ⟨hi1, hi2, hi3⟩ := internalUpgrade_cases env
          (tr ++ [Event.connect ⟨"unix", run.ConsoleSocket⟩ none] ++ wait)
          ⟨run.ConsoleSocket, tr.length⟩
        have happ : tr ++ [Event.connect ⟨"unix", run.ConsoleSocket⟩ none] ++ wait =
            tr ++ Event.connect ⟨"unix", run.ConsoleSocket⟩ none :: wait := by simp
        rw [happ] at hi1 hi2 hi3
        rcases hi : internalUpgrade env
          (tr ++ [Event.connect ⟨"unix", run.ConsoleSocket⟩ none] ++ wait)
          ⟨run.ConsoleSocket, tr.length⟩ with ⟨tr3, ri⟩
        rw [happ] at hi
        rw [hi] at hi1 hi2 hi3
        simp only at hi1 hi2 hi3
        subst hi1
        cases ri with
        | panic msg =>
          have hempty := hi3.mpr ⟨msg, rfl⟩
          have hnot : ¬ migrationOk env (env.Eval
              (tr ++ Event.connect ⟨"unix", run.ConsoleSocket⟩ none :: wait)
              ⟨run.ConsoleSocket, tr.length⟩ env.upgradeLuaScript []) := by
            intro hok
            obtain ⟨info2, h2⟩ := hi2.mp hok
            simp at h2
          have hr := @ReplicaRun.migrationFailed env a info T tr run rest wait hc hw2 hnot
          rw [if_pos hempty] at hr
          exact ⟨_, false, by simp, hr, by simp⟩
        | ret p =>
          rcases p with ⟨info2, e2⟩
          cases e2 with
          | some err =>
            have hnot : ¬ migrationOk env (env.Eval
                (tr ++ Event.connect ⟨"unix", run.ConsoleSocket⟩ none :: wait)
                ⟨run.ConsoleSocket, tr.length⟩ env.upgradeLuaScript []) := by
              intro hok
              obtain ⟨info3, h3⟩ := hi2.mp hok
              simp at h3
            have hne : ¬ (env.Eval
                (tr ++ Event.connect ⟨"unix", run.ConsoleSocket⟩ none :: wait)
                ⟨run.ConsoleSocket, tr.length⟩ env.upgradeLuaScript [] = .ok []) := by
              intro hempty
              obtain ⟨msg, h3⟩ := hi3.mp hempty
              simp at h3
            have hr := @ReplicaRun.migrationFailed env a info T tr run rest wait hc hw2
              hnot
            rw [if_neg hne] at hr
            exact ⟨_, false, by simp [printReplicasetStatus, statusLine], hr, by simp⟩
          | none =>
            have hok := hi2.mpr ⟨info2, rfl⟩
            simp only
            obtain ⟨more, completed, h1, h2, h3⟩ := ih
              (tr ++ Event.connect ⟨"unix", run.ConsoleSocket⟩ none :: wait
                ++ [Event.eval ⟨run.ConsoleSocket, tr.length⟩ env.upgradeLuaScript []
                  (env.Eval (tr ++ Event.connect ⟨"unix", run.ConsoleSocket⟩ none :: wait)
                    ⟨run.ConsoleSocket, tr.length⟩ env.upgradeLuaScript [])])
            refine ⟨_, completed, ?_, ReplicaRun.migrated tr run rest wait more completed hc hw2
              hok h2, h3⟩
            rw [h1]
            simp


theorem WaitRun_connects (env : Env) (info : SyncInfo) (conn : Connector) (hist : Trace)
    (n : Nat) (wait : List Event) (reached : Bool)
    (h : WaitRun env info conn hist n wait reached) : connects wait = [] := by
  induction h with
  | timeout hist => rfl
  | failed hist n err h => rfl
  | ended hist n he => rfl
  | again hist n v vs evs reached h hl hrest ih => simpa [connects] using ih

/-- The connections of a replica phase go to the replicas in list order, to all
of them when the phase is completed. -/
theorem ReplicaRun_connects (env : Env) (a : String) (info : SyncInfo) (T : Int)
    (hist : Trace) (reps : List InstanceCtx) (more : List Event) (completed : Bool)
    (h : ReplicaRun env a info T hist reps more completed) :
    connects more <+: reps.map (fun run => ⟨"unix", run.ConsoleSocket⟩) ∧
      (completed = true → connects more = reps.map (fun run => ⟨"unix", run.ConsoleSocket⟩)) := by
  induction h with
  | done hist => simp [connects]
  | connectFailed hist run rest err hc =>
    simp [connects_cons_connect, connects_cons_print, connects_nil]
  | waitFailed hist run rest wait hc hw =>
    have hwc := WaitRun_connects env info _ _ _ wait false hw
    simp [connects_append, connects_cons_connect, hwc, connects_cons_print, connects_nil]
  | migrationFailed hist run rest wait hc hw hm =>
    have hwc := WaitRun_connects env info _ _ _ wait true hw
    refine ⟨?_, by simp⟩
    rw [connects_append, connects_cons_connect, hwc, connects_cons_eval]
    split <;> simp [connects_cons_print, connects_nil]
  | migrated hist run rest wait more completed hc hw hm hrest ih =>
    have hwc := WaitRun_connects env info _ _ _ wait true hw
    rw [connects_append, connects_cons_connect, hwc, connects_cons_eval]
    simp only [List.singleton_append, List.map_cons]
    refine ⟨?_, ?_⟩
    · exact (List.prefix_cons_inj _).mpr ih.1
    · intro hcomp
      rw [ih.2 hcomp]

/-- After the migration of the unique master returned `info`, the loop body of
`Upgrade` continues with the replica phase for `info` over the replicas in
their order in the instance list, and prints `ok` when it is completed. -/
theorem replicaset_replica_phase (env : Env) (T : Int) (rs : Replicaset)
    (tr0 : Trace) (l1 l2 : List Instance) (M : Instance)
    (hinst : rs.Instances = l1 ++ M :: l2)
    (hrep : reports env tr0 rs.Instances =
      some (List.replicate l1.length true ++ false :: List.replicate l2.length true)) :
    (∀ v vs info,
      env.Connect (tr0 ++ classEvents env tr0 rs.Instances)
        ⟨"unix", M.InstanceCtx.ConsoleSocket⟩ = none →
      env.Eval (tr0 ++ classEvents env tr0 rs.Instances
          ++ [Event.connect ⟨"unix", M.InstanceCtx.ConsoleSocket⟩ none])
        ⟨M.InstanceCtx.ConsoleSocket, (tr0 ++ classEvents env tr0 rs.Instances).length⟩
        env.upgradeLuaScript [] = .ok (v :: vs) →
      env.Decode v = (info, none) → info.Err = none →
      ∃ more completed,
        ReplicaRun env rs.Alias info T
          (tr0 ++ classEvents env tr0 rs.Instances
            ++ [Event.connect ⟨"unix", M.InstanceCtx.ConsoleSocket⟩ none,
              Event.eval ⟨M.InstanceCtx.ConsoleSocket,
                (tr0 ++ classEvents env tr0 rs.Instances).length⟩ env.upgradeLuaScript []
                (.ok (v :: vs))])
          ((l1 ++ l2).map (fun i => i.InstanceCtx)) more completed ∧
        (Upgrade.replicaset env T rs tr0).1 =
          tr0 ++ classEvents env tr0 rs.Instances
            ++ [Event.connect ⟨"unix", M.InstanceCtx.ConsoleSocket⟩ none,
              Event.eval ⟨M.InstanceCtx.ConsoleSocket,
                (tr0 ++ classEvents env tr0 rs.Instances).length⟩ env.upgradeLuaScript []
                (.ok (v :: vs))]
            ++ more ++ (if completed then [Event.print (statusLine rs.Alias "ok")] else []) ∧
        (completed = true ↔ (Upgrade.replicaset env T rs tr0).2 = .next ()) ∧
        (completed = true → connects more =
          (l1 ++ l2).map (fun i => ⟨"unix", i.InstanceCtx.ConsoleSocket⟩))) := by
  intro v vs info hconn hmig hdec herr
  rw [hinst] at hrep
  have hcls := classify_one_master env rs.Alias l1 l2 M tr0 hrep
  rw [← hinst] at hcls
  obtain ⟨more, completed, h1, h2, h3⟩ := replicas_run env rs.Alias info T
    ((l1 ++ l2).map (fun i => i.InstanceCtx))
    (tr0 ++ classEvents env tr0 rs.Instances
      ++ [Event.connect ⟨"unix", M.InstanceCtx.ConsoleSocket⟩ none]
      ++ [Event.eval ⟨M.InstanceCtx.ConsoleSocket,
        (tr0 ++ classEvents env tr0 rs.Instances).length⟩ env.upgradeLuaScript []
        (.ok (v :: vs))])
  have hhist : tr0 ++ classEvents env tr0 rs.Instances
      ++ [Event.connect ⟨"unix", M.InstanceCtx.ConsoleSocket⟩ none]
      ++ [Event.eval ⟨M.InstanceCtx.ConsoleSocket,
        (tr0 ++ classEvents env tr0 rs.Instances).length⟩ env.upgradeLuaScript []
        (.ok (v :: vs))] =
      tr0 ++ classEvents env tr0 rs.Instances
      ++ [Event.connect ⟨"unix", M.InstanceCtx.ConsoleSocket⟩ none,
        Event.eval ⟨M.InstanceCtx.ConsoleSocket,
          (tr0 ++ classEvents env tr0 rs.Instances).length⟩ env.upgradeLuaScript []
          (.ok (v :: vs))] := by simp
  have hconns := (ReplicaRun_connects env rs.Alias info T _ _ more completed h2).2
  refine ⟨more, completed, by rw [← hhist]; exact h2, ?_, ?_, ?_⟩
  · simp only [Upgrade.replicaset, hcls, Connect_ok env _ _ hconn,
      internalUpgrade_ok env _ _ v vs info hmig hdec herr]
    rcases hr : Upgrade.replicas env rs.Alias info T ((l1 ++ l2).map (fun i => i.InstanceCtx))
      (tr0 ++ classEvents env tr0 rs.Instances
        ++ [Event.connect ⟨"unix", M.InstanceCtx.ConsoleSocket⟩ none]
        ++ [Event.eval ⟨M.InstanceCtx.ConsoleSocket,
          (tr0 ++ classEvents env tr0 rs.Instances).length⟩ env.upgradeLuaScript []
          (.ok (v :: vs))]) with ⟨tr4, fl⟩
    rw [hr] at h1 h3
    simp only at h1 h3
    subst h1
    cases fl with
    | next u =>
      have hc : completed = true := h3.mpr rfl
      simp [hc, printReplicasetStatus, statusLine]
    | abort err =>
      have hc : completed = false := by
        cases completed with
        | false => rfl
        | true => simpa using h3.mp rfl
      simp [hc]
    | panic msg =>
      have hc : completed = false := by
        cases completed with
        | false => rfl
        | true => simpa using h3.mp rfl
      simp [hc]
  · simp only [Upgrade.replicaset, hcls, Connect_ok env _ _ hconn,
      internalUpgrade_ok env _ _ v vs info hmig hdec herr]
    rcases hr : Upgrade.replicas env rs.Alias info T ((l1 ++ l2).map (fun i => i.InstanceCtx))
      (tr0 ++ classEvents env tr0 rs.Instances
        ++ [Event.connect ⟨"unix", M.InstanceCtx.ConsoleSocket⟩ none]
        ++ [Event.eval ⟨M.InstanceCtx.ConsoleSocket,
          (tr0 ++ classEvents env tr0 rs.Instances).length⟩ env.upgradeLuaScript []
          (.ok (v :: vs))]) with ⟨tr4, fl⟩
    rw [hr] at h3
    simp only at h3
    cases fl with
    | next u => simpa using h3
    | abort err => simpa using h3
    | panic msg => simpa using h3
  · intro hc
    rw [hconns hc, List.map_map]
    rfl

/-! ## C1: the master is migrated before the replicas -/

/-- C1: for a selected replicaset `rs` reached without error that has exactly one
master candidate `M` (all instances connect and report, only `M` reports
`false`) and whatever the endpoints do afterwards, the history of `Upgrade`
continues with the events of `rs`, which are: the classification, holding no
poll and no migration, followed by one of: a failed connection to the master;
the master's migration without a usable result and nothing but the status line
after it; or the master's migration returning `info` followed by events `more`
in which every poll is for component `info.IID`, every migration evaluation
comes directly after a poll on the same connection whose reply ended the wait
for `info.LSN`, and the connections are made to the replicas in their order in
the instance list.  In that last case the events after the master's migration
are exactly a replica phase (`ReplicaRun`) for the `info` that the master
returned, over the replicas in their order in the instance list: each replica
in turn is connected to, polled on the connection that this connect returned
until the reply ends the wait for `info.LSN` of component `info.IID`, and
migrated on that same connection, before the next replica is connected to; the
phase stops at the first failure, and when it is completed every replica was
connected to, in list order, and the `ok` status line follows. -/
theorem Upgrade_master_before_replicas (env : Env) (rss : Replicasets)
    (aliases : List String) (T : Int) (pre post : List Replicaset) (rs : Replicaset)
    (tr0 : Trace) (l1 l2 : List Instance) (M : Instance)
    (hsel : GetAllowedReplicasets env.IsPrintTable rss aliases = (pre ++ rs :: post, none))
    (hpre : Upgrade env ⟨pre⟩ [] T = (tr0, .ret none))
    (hinst : rs.Instances = l1 ++ M :: l2)
    (hrep : reports env tr0 rs.Instances =
      some (List.replicate l1.length true ++ false :: List.replicate l2.length true))
    (hs1 : env.upgradeLuaScript ≠ roExpr) (hs2 : ∀ i, env.upgradeLuaScript ≠ vclockExpr i) :
    (∃ rest, (Upgrade env rss aliases T).1 = (Upgrade.replicaset env T rs tr0).1 ++ rest) ∧
    (∀ e ∈ classEvents env tr0 rs.Instances,
      e.isMigration env = false ∧ ∀ i, e.isPoll i = false) ∧
    ((∃ err, (Upgrade.replicaset env T rs tr0).1 =
        tr0 ++ classEvents env tr0 rs.Instances
          ++ [Event.connect ⟨"unix", M.InstanceCtx.ConsoleSocket⟩ (some err),
            Event.print (statusLine rs.Alias "error")]) ∨
     (∃ res tail, (Upgrade.replicaset env T rs tr0).1 =
        tr0 ++ classEvents env tr0 rs.Instances
          ++ [Event.connect ⟨"unix", M.InstanceCtx.ConsoleSocket⟩ none,
            Event.eval ⟨M.InstanceCtx.ConsoleSocket,
              (tr0 ++ classEvents env tr0 rs.Instances).length⟩ env.upgradeLuaScript [] res]
          ++ tail ∧ (tail = [] ∨ tail = [Event.print (statusLine rs.Alias "error")])) ∨
     (∃ v vs info more, env.Decode v = (info, none) ∧ info.Err = none ∧
        (Upgrade.replicaset env T rs tr0).1 =
          tr0 ++ classEvents env tr0 rs.Instances
            ++ Event.connect ⟨"unix", M.InstanceCtx.ConsoleSocket⟩ none
              :: Event.eval ⟨M.InstanceCtx.ConsoleSocket,
                (tr0 ++ classEvents env tr0 rs.Instances).length⟩ env.upgradeLuaScript []
                (.ok (v :: vs)) :: more ∧
        (∀ e ∈ more, e.isConnect = true ∨ e = Event.sleep ∨ (∃ s, e = Event.print s) ∨
          (∃ c res, e = Event.eval c (vclockExpr info.IID) [] res) ∨
          (∃ c res, e = Event.eval c env.upgradeLuaScript [] res)) ∧
        MigrationsFollowPolls env info [] more ∧
        connects more <+:
          (l1 ++ l2).map (fun i => ⟨"unix", i.InstanceCtx.ConsoleSocket⟩))) ∧
    (∀ v vs info,
      env.Connect (tr0 ++ classEvents env tr0 rs.Instances)
        ⟨"unix", M.InstanceCtx.ConsoleSocket⟩ = none →
      env.Eval (tr0 ++ classEvents env tr0 rs.Instances
          ++ [Event.connect ⟨"unix", M.InstanceCtx.ConsoleSocket⟩ none])
        ⟨M.InstanceCtx.ConsoleSocket, (tr0 ++ classEvents env tr0 rs.Instances).length⟩
        env.upgradeLuaScript [] = .ok (v :: vs) →
      env.Decode v = (info, none) → info.Err = none →
      ∃ more completed,
        ReplicaRun env rs.Alias info T
          (tr0 ++ classEvents env tr0 rs.Instances
            ++ [Event.connect ⟨"unix", M.InstanceCtx.ConsoleSocket⟩ none,
              Event.eval ⟨M.InstanceCtx.ConsoleSocket,
                (tr0 ++ classEvents env tr0 rs.Instances).length⟩ env.upgradeLuaScript []
                (.ok (v :: vs))])
          ((l1 ++ l2).map (fun i => i.InstanceCtx)) more completed ∧
        (Upgrade.replicaset env T rs tr0).1 =
          tr0 ++ classEvents env tr0 rs.Instances
            ++ [Event.connect ⟨"unix", M.InstanceCtx.ConsoleSocket⟩ none,
              Event.eval ⟨M.InstanceCtx.ConsoleSocket,
                (tr0 ++ classEvents env tr0 rs.Instances).length⟩ env.upgradeLuaScript []
                (.ok (v :: vs))]
            ++ more ++ (if completed then [Event.print (statusLine rs.Alias "ok")] else []) ∧
        (completed = true ↔ (Upgrade.replicaset env T rs tr0).2 = .next ()) ∧
        (completed = true → connects more =
          (l1 ++ l2).map (fun i => ⟨"unix", i.InstanceCtx.ConsoleSocket⟩))) := by
  refine ⟨?_, (replicaset_master_first env T rs tr0 l1 l2 M hinst hrep hs1 hs2).1,
    (replicaset_master_first env T rs tr0 l1 l2 M hinst hrep hs1 hs2).2,
    replicaset_replica_phase env T rs tr0 l1 l2 M hinst hrep⟩
  rw [Upgrade_at env rss aliases T pre post rs tr0 hsel hpre]
  rcases Upgrade.replicaset env T rs tr0 with ⟨tr1, fl⟩
  cases fl with
  | next u =>
    obtain ⟨ev, hev, _⟩ := Upgrade_loop_shape env T post tr1
    exact ⟨ev, hev⟩
  | abort err => exact ⟨[], by simp⟩
  | panic msg => exact ⟨[], by simp⟩

/-- C1 at a concrete input: in `rs1`, selected after the replicaset `rs0` that is
upgraded without error, the replica `r1` is polled twice (4, then 5) and
migrated, then `r2` is polled once and migrated, all after the master `m`
returned LSN 5 of component 1; the eight events after the master's migration are
the completed replica phase for LSN 5 of component 1 over `r1`, `r2`. -/
theorem Upgrade_master_before_replicas_witness :
    Upgrade healthyEnv ⟨[sampleRs0, sampleRs1]⟩ [] 5 =
      ([Event.connect ⟨"unix", "m2.sock"⟩ none,
        Event.eval ⟨"m2.sock", 0⟩ roExpr [] (.ok [.bool false]),
        Event.connect ⟨"unix", "m2.sock"⟩ none,
        Event.eval ⟨"m2.sock", 2⟩ "box.schema.upgrade()" []
          (.ok [.table [("lsn", .inl 5), ("iid", .inl 1)]]),
        Event.print "• rs0: ok\n",
        Event.connect ⟨"unix", "r1.sock"⟩ none,
        Event.eval ⟨"r1.sock", 5⟩ roExpr [] (.ok [.bool true]),
        Event.connect ⟨"unix", "m.sock"⟩ none,
        Event.eval ⟨"m.sock", 7⟩ roExpr [] (.ok [.bool false]),
        Event.connect ⟨"unix", "r2.sock"⟩ none,
        Event.eval ⟨"r2.sock", 9⟩ roExpr [] (.ok [.bool true]),
        Event.connect ⟨"unix", "m.sock"⟩ none,
        Event.eval ⟨"m.sock", 11⟩ "box.schema.upgrade()" []
          (.ok [.table [("lsn", .inl 5), ("iid", .inl 1)]]),
        Event.connect ⟨"unix", "r1.sock"⟩ none,
        Event.eval ⟨"r1.sock", 13⟩ "return box.info.vclock[1]" [] (.ok [.uint32 4]),
        Event.sleep,
        Event.eval ⟨"r1.sock", 13⟩ "return box.info.vclock[1]" [] (.ok [.uint32 5]),
        Event.eval ⟨"r1.sock", 13⟩ "box.schema.upgrade()" []
          (.ok [.table [("lsn", .inl 5), ("iid", .inl 1)]]),
        Event.connect ⟨"unix", "r2.sock"⟩ none,
        Event.eval ⟨"r2.sock", 18⟩ "return box.info.vclock[1]" [] (.ok [.uint32 5]),
        Event.eval ⟨"r2.sock", 18⟩ "box.schema.upgrade()" []
          (.ok [.table [("lsn", .inl 5), ("iid", .inl 1)]]),
        Event.print "• rs1: ok\n"], .ret none) ∧
    reports healthyEnv (Upgrade healthyEnv ⟨[sampleRs0]⟩ [] 5).1 sampleRs1.Instances =
      some [true, false, true] ∧
    (∃ rest, (Upgrade healthyEnv ⟨[sampleRs0, sampleRs1]⟩ [] 5).1 =
      (Upgrade.replicaset healthyEnv 5 sampleRs1
        (Upgrade healthyEnv ⟨[sampleRs0]⟩ [] 5).1).1 ++ rest) ∧
    (∀ e ∈ classEvents healthyEnv (Upgrade healthyEnv ⟨[sampleRs0]⟩ [] 5).1
        sampleRs1.Instances, e.isMigration healthyEnv = false ∧ ∀ i, e.isPoll i = false) ∧
    ReplicaRun healthyEnv "rs1" ⟨5, 1, none⟩ 5
      [Event.connect ⟨"unix", "m2.sock"⟩ none,
        Event.eval ⟨"m2.sock", 0⟩ roExpr [] (.ok [.bool false]),
        Event.connect ⟨"unix", "m2.sock"⟩ none,
        Event.eval ⟨"m2.sock", 2⟩ "box.schema.upgrade()" []
          (.ok [.table [("lsn", .inl 5), ("iid", .inl 1)]]),
        Event.print "• rs0: ok\n",
        Event.connect ⟨"unix", "r1.sock"⟩ none,
        Event.eval ⟨"r1.sock", 5⟩ roExpr [] (.ok [.bool true]),
        Event.connect ⟨"unix", "m.sock"⟩ none,
        Event.eval ⟨"m.sock", 7⟩ roExpr [] (.ok [.bool false]),
        Event.connect ⟨"unix", "r2.sock"⟩ none,
        Event.eval ⟨"r2.sock", 9⟩ roExpr [] (.ok [.bool true]),
        Event.connect ⟨"unix", "m.sock"⟩ none,
        Event.eval ⟨"m.sock", 11⟩ "box.schema.upgrade()" []
          (.ok [.table [("lsn", .inl 5), ("iid", .inl 1)]])]
      [⟨"app", "r1", "r1.sock"⟩, ⟨"app", "r2", "r2.sock"⟩]
      [Event.connect ⟨"unix", "r1.sock"⟩ none,
        Event.eval ⟨"r1.sock", 13⟩ "return box.info.vclock[1]" [] (.ok [.uint32 4]),
        Event.sleep,
        Event.eval ⟨"r1.sock", 13⟩ "return box.info.vclock[1]" [] (.ok [.uint32 5]),
        Event.eval ⟨"r1.sock", 13⟩ "box.schema.upgrade()" []
          (.ok [.table [("lsn", .inl 5), ("iid", .inl 1)]]),
        Event.connect ⟨"unix", "r2.sock"⟩ none,
        Event.eval ⟨"r2.sock", 18⟩ "return box.info.vclock[1]" [] (.ok [.uint32 5]),
        Event.eval ⟨"r2.sock", 18⟩ "box.schema.upgrade()" []
          (.ok [.table [("lsn", .inl 5), ("iid", .inl 1)]])]
      true :=
  ⟨by decide, by decide,
    (Upgrade_master_before_replicas healthyEnv ⟨[sampleRs0, sampleRs1]⟩ [] 5 [sampleRs0] []
      sampleRs1 (Upgrade healthyEnv ⟨[sampleRs0]⟩ [] 5).1
      [sampleInst "r1"] [sampleInst "r2"] (sampleInst "m")
      (by decide) (by decide) (by decide) (by decide) (by decide)
      sampleScript_ne_vclockExpr).1,
    (Upgrade_master_before_replicas healthyEnv ⟨[sampleRs0, sampleRs1]⟩ [] 5 [sampleRs0] []
      sampleRs1 (Upgrade healthyEnv ⟨[sampleRs0]⟩ [] 5).1
      [sampleInst "r1"] [sampleInst "r2"] (sampleInst "m")
      (by decide) (by decide) (by decide) (by decide) (by decide)
      sampleScript_ne_vclockExpr).2.1,
    by
      obtain ⟨more, completed, h1, h2, h3, _⟩ :=
        (Upgrade_master_before_replicas healthyEnv ⟨[sampleRs0, sampleRs1]⟩ [] 5 [sampleRs0] []
          sampleRs1 (Upgrade healthyEnv ⟨[sampleRs0]⟩ [] 5).1
          [sampleInst "r1"] [sampleInst "r2"] (sampleInst "m")
          (by decide) (by decide) (by decide) (by decide) (by decide)
          sampleScript_ne_vclockExpr).2.2.2 (.table [("lsn", .inl 5), ("iid", .inl 1)]) []
          ⟨5, 1, none⟩ (by decide) (by decide) (by decide) rfl
      have hc : completed = true := h3.mpr (by decide)
      subst hc
      have hrun : (Upgrade.replicaset healthyEnv 5 sampleRs1
          (Upgrade healthyEnv ⟨[sampleRs0]⟩ [] 5).1).1 =
          (Upgrade healthyEnv ⟨[sampleRs0]⟩ [] 5).1
            ++ classEvents healthyEnv (Upgrade healthyEnv ⟨[sampleRs0]⟩ [] 5).1
              sampleRs1.Instances
            ++ [Event.connect ⟨"unix", (sampleInst "m").InstanceCtx.ConsoleSocket⟩ none,
              Event.eval ⟨(sampleInst "m").InstanceCtx.ConsoleSocket,
                ((Upgrade healthyEnv ⟨[sampleRs0]⟩ [] 5).1
                  ++ classEvents healthyEnv (Upgrade healthyEnv ⟨[sampleRs0]⟩ [] 5).1
                    sampleRs1.Instances).length⟩ healthyEnv.upgradeLuaScript []
                (.ok [.table [("lsn", .inl 5), ("iid", .inl 1)]])]
            ++ [Event.connect ⟨"unix", "r1.sock"⟩ none,
              Event.eval ⟨"r1.sock", 13⟩ "return box.info.vclock[1]" [] (.ok [.uint32 4]),
              Event.sleep,
              Event.eval ⟨"r1.sock", 13⟩ "return box.info.vclock[1]" [] (.ok [.uint32 5]),
              Event.eval ⟨"r1.sock", 13⟩ "box.schema.upgrade()" []
                (.ok [.table [("lsn", .inl 5), ("iid", .inl 1)]]),
              Event.connect ⟨"unix", "r2.sock"⟩ none,
              Event.eval ⟨"r2.sock", 18⟩ "return box.info.vclock[1]" [] (.ok [.uint32 5]),
              Event.eval ⟨"r2.sock", 18⟩ "box.schema.upgrade()" []
                (.ok [.table [("lsn", .inl 5), ("iid", .inl 1)]])]
            ++ (if true = true then [Event.print (statusLine sampleRs1.Alias "ok")] else []) := by
        decide
      rw [hrun] at h2
      have hmore := List.append_cancel_left (List.append_cancel_right h2)
      rw [← hmore] at h1
      exact h1⟩

/-! ## The run over the selected replicasets -/

/-- The selected replicasets are processed in list order up to the first one
that fails, for every behaviour of the endpoints: the printed lines are `ok`
for the replicasets before it and `error` for it when `Upgrade` returns an
error; the run is the run on the list cut after it, with every connection made
to an instance of a replicaset up to it; `Upgrade` returns an error iff an
`error` line was printed, and returns nil only if none was. -/
theorem Upgrade_stops_at_first_error (env : Env) (rss : Replicasets) (aliases : List String)
    (T : Int) (sel : List Replicaset)
    (hsel : GetAllowedReplicasets env.IsPrintTable rss aliases = (sel, none)) :
    (((Upgrade env rss aliases T).2 = .ret none ∧
        printed (Upgrade env rss aliases T).1 = sel.map (fun rs => statusLine rs.Alias "ok") ∧
        ∀ o ∈ connects (Upgrade env rss aliases T).1, ∃ rs ∈ sel, ∃ i ∈ rs.Instances,
          o = ⟨"unix", i.InstanceCtx.ConsoleSocket⟩) ∨
      ∃ done rs later, sel = done ++ rs :: later ∧
        Upgrade env rss aliases T = Upgrade env ⟨done ++ [rs]⟩ [] T ∧
        (∀ o ∈ connects (Upgrade env rss aliases T).1, ∃ r ∈ done ++ [rs], ∃ i ∈ r.Instances,
          o = ⟨"unix", i.InstanceCtx.ConsoleSocket⟩) ∧
        ((∃ err, (Upgrade env rss aliases T).2 = .ret (some err) ∧
            printed (Upgrade env rss aliases T).1 =
              done.map (fun rs => statusLine rs.Alias "ok") ++ [statusLine rs.Alias "error"]) ∨
          (∃ msg, (Upgrade env rss aliases T).2 = .panic msg ∧
            printed (Upgrade env rss aliases T).1 =
              done.map (fun rs => statusLine rs.Alias "ok")))) ∧
    ((∃ err, (Upgrade env rss aliases T).2 = .ret (some err)) ↔
      ∃ a, statusLine a "error" ∈ printed (Upgrade env rss aliases T).1) ∧
    ((Upgrade env rss aliases T).2 = .ret none →
      ∀ a, statusLine a "error" ∉ printed (Upgrade env rss aliases T).1) := by
  have hU : Upgrade env rss aliases T = Upgrade.loop env T sel [] := by
    simp [Upgrade, hsel]
  have hcut : ∀ l, Upgrade env ⟨l⟩ [] T = Upgrade.loop env T l [] := by
    intro l
    simp [Upgrade, GetAllowedReplicasets]
  obtain ⟨ev, hev, hcases⟩ := Upgrade_loop_shape env T sel []
  simp only [List.nil_append] at hev
  have hnot : ∀ (l : List Replicaset) (a : String),
      statusLine a "error" ∉ l.map (fun rs => statusLine rs.Alias "ok") := by
    intro l a hmem
    simp only [List.mem_map] at hmem
    obtain ⟨r, _, hr⟩ := hmem
    exact statusLine_ok_ne_error _ _ hr
  rw [hU, hev]
  rcases hcases with ⟨hret, hpr, hcn⟩ | ⟨done, rs, later, hs, hc, hcn, hout⟩
  · refine ⟨Or.inl ⟨hret, hpr, hcn⟩, ?_, ?_⟩
    · constructor
      · rintro ⟨err, herr⟩
        rw [hret] at herr
        cases herr
      · rintro ⟨a, ha⟩
        rw [hpr] at ha
        exact absurd ha (hnot _ _)
    · intro _ a ha
      rw [hpr] at ha
      exact hnot _ _ ha
  · refine ⟨Or.inr ⟨done, rs, later, hs, ?_, hcn, hout⟩, ?_, ?_⟩
    · rw [hcut, ← hc]
    · rcases hout with ⟨err, he, hpr⟩ | ⟨msg, he, hpr⟩
      · constructor
        · intro _
          exact ⟨rs.Alias, by rw [hpr]; simp⟩
        · intro _
          exact ⟨err, he⟩
      · constructor
        · rintro ⟨err, herr⟩
          rw [he] at herr
          cases herr
        · rintro ⟨a, ha⟩
          rw [hpr] at ha
          exact absurd ha (hnot _ _)
    · intro hnil a ha
      rcases hout with ⟨err, he, hpr⟩ | ⟨msg, he, hpr⟩
      · rw [he] at hnil
        cases hnil
      · rw [he] at hnil
        cases hnil

/-- C7 (the code at the failing input): the master `m2` of the second selected
replicaset answers the migration with an empty result and no error;
`internalUpgrade` indexes `res[0]` and panics, so `Upgrade` prints `ok` for `rs1`
and no line at all for `rs2`, and it neither returns nil nor an error: no
`error` line was printed although `Upgrade` did not return nil. -/
theorem Upgrade_empty_migration_reply_panics :
    Upgrade (sampleEnv (fun sock => [.bool (sock != "m.sock" && sock != "m2.sock")])
        (fun sock => if sock = "m2.sock" then [] else [.table [("lsn", .inl 5), ("iid", .inl 1)]])
        (fun _ _ => [.uint32 9]))
        ⟨[⟨"rs1", [sampleInst "m"]⟩, ⟨"rs2", [sampleInst "m2"]⟩, ⟨"rs3", [sampleInst "m"]⟩]⟩ [] 5 =
      ([Event.connect ⟨"unix", "m.sock"⟩ none,
        Event.eval ⟨"m.sock", 0⟩ roExpr [] (.ok [.bool false]),
        Event.connect ⟨"unix", "m.sock"⟩ none,
        Event.eval ⟨"m.sock", 2⟩ "box.schema.upgrade()" []
          (.ok [.table [("lsn", .inl 5), ("iid", .inl 1)]]),
        Event.print "• rs1: ok\n",
        Event.connect ⟨"unix", "m2.sock"⟩ none,
        Event.eval ⟨"m2.sock", 5⟩ roExpr [] (.ok [.bool false]),
        Event.connect ⟨"unix", "m2.sock"⟩ none,
        Event.eval ⟨"m2.sock", 7⟩ "box.schema.upgrade()" [] (.ok [])],
        .panic "runtime error: index out of range [0] with length 0") ∧
    printed (Upgrade (sampleEnv (fun sock => [.bool (sock != "m.sock" && sock != "m2.sock")])
        (fun sock => if sock = "m2.sock" then [] else [.table [("lsn", .inl 5), ("iid", .inl 1)]])
        (fun _ _ => [.uint32 9]))
        ⟨[⟨"rs1", [sampleInst "m"]⟩, ⟨"rs2", [sampleInst "m2"]⟩, ⟨"rs3", [sampleInst "m"]⟩]⟩ []
        5).1 = ["• rs1: ok\n"] ∧
    (Upgrade (sampleEnv (fun sock => [.bool (sock != "m.sock" && sock != "m2.sock")])
        (fun sock => if sock = "m2.sock" then [] else [.table [("lsn", .inl 5), ("iid", .inl 1)]])
        (fun _ _ => [.uint32 9]))
        ⟨[⟨"rs1", [sampleInst "m"]⟩, ⟨"rs2", [sampleInst "m2"]⟩, ⟨"rs3", [sampleInst "m"]⟩]⟩ []
        5).2 ≠ .ret none := by
  decide

/-! ## `Upgrade` and `Downgrade` are instances of `Orchestrate` -/

theorem internalUpgrade_eq_migrate (env : Env) (tr : Trace) (c : Connector) :
    internalUpgrade env tr c = Orchestrate.migrate env env.upgradeLuaScript [] tr c := rfl

theorem internalDowngrade_eq_migrate (env : Env) (v : String) (tr : Trace) (c : Connector) :
    internalDowngrade env v tr c =
      Orchestrate.migrate env env.downgradeLuaScript [.string v] tr c := rfl

theorem Upgrade_classify_eq (env : Env) (a : String) (insts : List Instance)
    (m : Option InstanceCtx) (reps : List InstanceCtx) (tr : Trace) :
    Upgrade.classify env a insts m reps tr = Orchestrate.classify env a insts m reps tr := by
  induction insts generalizing m reps tr with
  | nil => rfl
  | cons i rest ih => simp only [Upgrade.classify, Orchestrate.classify, ih]

theorem Downgrade_classify_eq (env : Env) (a : String) (insts : List Instance)
    (m : Option InstanceCtx) (reps : List InstanceCtx) (tr : Trace) :
    Downgrade.classify env a insts m reps tr = Orchestrate.classify env a insts m reps tr := by
  induction insts generalizing m reps tr with
  | nil => rfl
  | cons i rest ih => simp only [Downgrade.classify, Orchestrate.classify, ih]

theorem Upgrade_replicas_eq (env : Env) (a : String) (info : SyncInfo) (T : Int)
    (reps : List InstanceCtx) (tr : Trace) :
    Upgrade.replicas env a info T reps tr =
      Orchestrate.replicas env env.upgradeLuaScript [] a info T reps tr := by
  induction reps generalizing tr with
  | nil => rfl
  | cons r rest ih =>
    simp only [Upgrade.replicas, Orchestrate.replicas, ih, internalUpgrade_eq_migrate]

theorem Downgrade_replicas_eq (env : Env) (v : String) (a : String) (info : SyncInfo) (T : Int)
    (reps : List InstanceCtx) (tr : Trace) :
    Downgrade.replicas env v a info T reps tr =
      Orchestrate.replicas env env.downgradeLuaScript [.string v] a info T reps tr := by
  induction reps generalizing tr with
  | nil => rfl
  | cons r rest ih =>
    simp only [Downgrade.replicas, Orchestrate.replicas, ih, internalDowngrade_eq_migrate]

theorem Upgrade_replicaset_eq (env : Env) (T : Int) (rs : Replicaset) (tr : Trace) :
    Upgrade.replicaset env T rs tr =
      Orchestrate.replicaset env env.upgradeLuaScript [] T rs tr := by
  simp only [Upgrade.replicaset, Orchestrate.replicaset, Upgrade_classify_eq,
    Upgrade_replicas_eq, internalUpgrade_eq_migrate]

theorem Downgrade_replicaset_eq (env : Env) (v : String) (T : Int) (rs : Replicaset)
    (tr : Trace) :
    Downgrade.replicaset env v T rs tr =
      Orchestrate.replicaset env env.downgradeLuaScript [.string v] T rs tr := by
  simp only [Downgrade.replicaset, Orchestrate.replicaset, Downgrade_classify_eq,
    Downgrade_replicas_eq, internalDowngrade_eq_migrate]

theorem Upgrade_loop_eq (env : Env) (T : Int) (sel : List Replicaset) (tr : Trace) :
    Upgrade.loop env T sel tr = Orchestrate.loop env env.upgradeLuaScript [] T sel tr := by
  induction sel generalizing tr with
  | nil => rfl
  | cons rs rest ih => simp only [Upgrade.loop, Orchestrate.loop, ih, Upgrade_replicaset_eq]

theorem Downgrade_loop_eq (env : Env) (v : String) (T : Int) (sel : List Replicaset)
    (tr : Trace) :
    Downgrade.loop env v T sel tr =
      Orchestrate.loop env env.downgradeLuaScript [.string v] T sel tr := by
  induction sel generalizing tr with
  | nil => rfl
  | cons rs rest ih =>
    simp only [Downgrade.loop, Orchestrate.loop, ih, Downgrade_replicaset_eq]

theorem Upgrade_eq_Orchestrate (env : Env) (rss : Replicasets) (aliases : List String)
    (T : Int) :
    Upgrade env rss aliases T = Orchestrate env env.upgradeLuaScript [] rss aliases T := by
  simp only [Upgrade, Orchestrate, Upgrade_loop_eq]

theorem Downgrade_eq_Orchestrate (env : Env) (v : String) (rss : Replicasets)
    (aliases : List String) (T : Int) :
    Downgrade env v rss aliases T =
      Orchestrate env env.downgradeLuaScript [.string v] rss aliases T := by
  simp only [Downgrade, Orchestrate, Downgrade_loop_eq]

/-! ## A downgrade run corresponds to the upgrade run -/

theorem toDowngrade_other (env : Env) (v : String) (c : Connector) (expr : String)
    (res : Except GoError (List Value)) (h : env.upgradeLuaScript ≠ expr) :
    toDowngrade env v (Event.eval c expr [] res) = Event.eval c expr [] res := by
  have h2 : ¬ expr = env.upgradeLuaScript := fun hx => h hx.symm
  simp [toDowngrade, h2]

theorem toDowngrade_migration (env : Env) (v : String) (c : Connector)
    (res : Except GoError (List Value)) :
    toDowngrade env v (Event.eval c env.upgradeLuaScript [] res) =
      Event.eval c env.downgradeLuaScript [.string v] res := by
  simp [toDowngrade]

theorem Connect_alike (env : Env) (v : String) (h : AnswerAlike env v) (tr : Trace)
    (o : ConnectOpts) :
    Connect env (tr.map (toDowngrade env v)) o =
      ((Connect env tr o).1.map (toDowngrade env v), (Connect env tr o).2) := by
  simp only [Connect, h.1]
  cases env.Connect tr o <;> simp [toDowngrade]

theorem printStatus_alike (env : Env) (v : String) (tr : Trace) (a st : String) :
    printReplicasetStatus (tr.map (toDowngrade env v)) a st =
      (printReplicasetStatus tr a st).map (toDowngrade env v) := by
  simp [printReplicasetStatus, toDowngrade]

theorem classify_alike (env : Env) (v : String) (h : AnswerAlike env v)
    (hs1 : env.upgradeLuaScript ≠ roExpr) (a : String) (insts : List Instance)
    (m : Option InstanceCtx) (reps : List InstanceCtx) (tr : Trace) :
    Orchestrate.classify env a insts m reps (tr.map (toDowngrade env v)) =
      ((Orchestrate.classify env a insts m reps tr).1.map (toDowngrade env v),
        (Orchestrate.classify env a insts m reps tr).2) := by
  induction insts generalizing m reps tr with
  | nil => rfl
  | cons inst rest ih =>
    simp only [Orchestrate.classify, Connect_alike env v h]
    rcases hc : Connect env tr ⟨"unix", inst.InstanceCtx.ConsoleSocket⟩ with ⟨tr1, rc⟩
    cases rc with
    | error err => simp only [printStatus_alike]
    | ok conn =>
      simp only [Connector.Eval]
      rw [h.2.1 tr1 conn]
      have e1 : List.map (toDowngrade env v) tr1
          ++ [Event.eval conn roExpr [] (env.Eval tr1 conn roExpr [])] =
          List.map (toDowngrade env v)
            (tr1 ++ [Event.eval conn roExpr [] (env.Eval tr1 conn roExpr [])]) := by
        simp [toDowngrade_other env v conn roExpr _ hs1]
      rw [e1]
      cases hres : env.Eval tr1 conn roExpr [] with
      | error err => simp only [printStatus_alike]
      | ok res =>
        cases res with
        | nil => simp only [printStatus_alike]
        | cons x xs =>
          cases x with
          | bool b =>
            cases b with
            | true => simp only [ih]
            | false =>
              cases m with
              | none => simp only [ih]
              | some m0 => simp only [printStatus_alike]
          | _ => rfl

theorem WaitLSN_alike (env : Env) (v : String) (h : AnswerAlike env v)
    (hs2 : ∀ i, env.upgradeLuaScript ≠ vclockExpr i) (c : Connector) (info : SyncInfo)
    (n : Nat) (tr : Trace) :
    WaitLSN.loop env c info n (tr.map (toDowngrade env v)) =
      ((WaitLSN.loop env c info n tr).1.map (toDowngrade env v),
        (WaitLSN.loop env c info n tr).2) := by
  induction n generalizing tr with
  | zero => rfl
  | succ n ih =>
    simp only [WaitLSN.loop, Connector.Eval]
    rw [h.2.2.1 tr c]
    cases hres : env.Eval tr c (vclockExpr info.IID) [] with
    | error err => simp [toDowngrade_other env v c _ _ (hs2 _)]
    | ok res =>
      cases res with
      | nil => simp [toDowngrade_other env v c _ _ (hs2 _)]
      | cons x xs =>
        by_cases hge : lsnOf x ≥ info.LSN
        · simp [hge, toDowngrade_other env v c _ _ (hs2 _)]
        · have e1 : List.map (toDowngrade env v) tr
              ++ [Event.eval c (vclockExpr info.IID) [] (.ok (x :: xs))] ++ [Event.sleep] =
              List.map (toDowngrade env v)
                (tr ++ [Event.eval c (vclockExpr info.IID) [] (.ok (x :: xs))]
                  ++ [Event.sleep]) := by
            rw [List.map_append, List.map_append, List.map_singleton, List.map_singleton,
              toDowngrade_other env v c _ _ (hs2 _)]
            rfl
          simp only [hge, if_false]
          rw [e1, ih]

theorem migrate_alike (env : Env) (v : String) (h : AnswerAlike env v) (tr : Trace)
    (c : Connector) :
    Orchestrate.migrate env env.downgradeLuaScript [.string v]
        (tr.map (toDowngrade env v)) c =
      ((Orchestrate.migrate env env.upgradeLuaScript [] tr c).1.map (toDowngrade env v),
        (Orchestrate.migrate env env.upgradeLuaScript [] tr c).2) := by
  simp only [Orchestrate.migrate, Connector.Eval]
  rw [h.2.2.2 tr c]
  cases hres : env.Eval tr c env.upgradeLuaScript [] with
  | error err => simp [toDowngrade_migration]
  | ok res =>
    cases res with
    | nil => simp [toDowngrade_migration]
    | cons x xs =>
      simp only
      rcases env.Decode x with ⟨i, e⟩
      cases e with
      | some err => simp [toDowngrade_migration]
      | none =>
        simp only
        cases i.Err <;> simp [toDowngrade_migration]

theorem replicas_alike (env : Env) (v : String) (h : AnswerAlike env v)
    (hs2 : ∀ i, env.upgradeLuaScript ≠ vclockExpr i) (a : String) (info : SyncInfo) (T : Int)
    (reps : List InstanceCtx) (tr : Trace) :
    Orchestrate.replicas env env.downgradeLuaScript [.string v] a info T reps
        (tr.map (toDowngrade env v)) =
      ((Orchestrate.replicas env env.upgradeLuaScript [] a info T reps tr).1.map
          (toDowngrade env v),
        (Orchestrate.replicas env env.upgradeLuaScript [] a info T reps tr).2) := by
  induction reps generalizing tr with
  | nil => rfl
  | cons run rest ih =>
    simp only [Orchestrate.replicas, Connect_alike env v h]
    rcases hc : Connect env tr ⟨"unix", run.ConsoleSocket⟩ with ⟨tr1, rc⟩
    cases rc with
    | error err => simp only [printStatus_alike]
    | ok conn =>
      simp only [WaitLSN, WaitLSN_alike env v h hs2]
      rcases hw : WaitLSN.loop env conn info T.toNat tr1 with ⟨tr2, rw2⟩
      cases rw2 with
      | some err => simp only [printStatus_alike]
      | none =>
        simp only [migrate_alike env v h]
        rcases hm : Orchestrate.migrate env env.upgradeLuaScript [] tr2 conn with ⟨tr3, rm⟩
        cases rm with
        | panic msg => rfl
        | ret p =>
          rcases p with ⟨i2, e2⟩
          cases e2 with
          | some err => simp only [printStatus_alike]
          | none => simp only [ih]

theorem replicaset_alike (env : Env) (v : String) (h : AnswerAlike env v)
    (hs1 : env.upgradeLuaScript ≠ roExpr) (hs2 : ∀ i, env.upgradeLuaScript ≠ vclockExpr i)
    (T : Int) (rs : Replicaset) (tr : Trace) :
    Orchestrate.replicaset env env.downgradeLuaScript [.string v] T rs
        (tr.map (toDowngrade env v)) =
      ((Orchestrate.replicaset env env.upgradeLuaScript [] T rs tr).1.map (toDowngrade env v),
        (Orchestrate.replicaset env env.upgradeLuaScript [] T rs tr).2) := by
  simp only [Orchestrate.replicaset, classify_alike env v h hs1]
  rcases hcl : Orchestrate.classify env rs.Alias rs.Instances none [] tr with ⟨tr1, fl⟩
  cases fl with
  | abort err => rfl
  | panic msg => rfl
  | next p =>
    rcases p with ⟨m1, reps1⟩
    cases m1 with
    | none => simp only [printStatus_alike]
    | some master =>
      simp only [Connect_alike env v h]
      rcases hc : Connect env tr1 ⟨"unix", master.ConsoleSocket⟩ with ⟨tr2, rc⟩
      cases rc with
      | error err => simp only [printStatus_alike]
      | ok conn =>
        simp only [migrate_alike env v h]
        rcases hm : Orchestrate.migrate env env.upgradeLuaScript [] tr2 conn with ⟨tr3, rm⟩
        cases rm with
        | panic msg => rfl
        | ret p =>
          rcases p with ⟨info, e2⟩
          cases e2 with
          | some err => simp only [printStatus_alike]
          | none =>
            simp only [replicas_alike env v h hs2]
            rcases hr : Orchestrate.replicas env env.upgradeLuaScript [] rs.Alias info T reps1
              tr3 with ⟨tr4, fl2⟩
            cases fl2 with
            | next u => simp only [printStatus_alike]
            | abort err => rfl
            | panic msg => rfl

theorem loop_alike (env : Env) (v : String) (h : AnswerAlike env v)
    (hs1 : env.upgradeLuaScript ≠ roExpr) (hs2 : ∀ i, env.upgradeLuaScript ≠ vclockExpr i)
    (T : Int) (sel : List Replicaset) (tr : Trace) :
    Orchestrate.loop env env.downgradeLuaScript [.string v] T sel
        (tr.map (toDowngrade env v)) =
      ((Orchestrate.loop env env.upgradeLuaScript [] T sel tr).1.map (toDowngrade env v),
        (Orchestrate.loop env env.upgradeLuaScript [] T sel tr).2) := by
  induction sel generalizing tr with
  | nil => rfl
  | cons rs rest ih =>
    simp only [Orchestrate.loop, replicaset_alike env v h hs1 hs2]
    rcases hr : Orchestrate.replicaset env env.upgradeLuaScript [] T rs tr with ⟨tr1, fl⟩
    cases fl with
    | next u => simp only [ih]
    | abort err => rfl
    | panic msg => rfl

theorem Orchestrate_alike (env : Env) (v : String) (h : AnswerAlike env v)
    (hs1 : env.upgradeLuaScript ≠ roExpr) (hs2 : ∀ i, env.upgradeLuaScript ≠ vclockExpr i)
    (rss : Replicasets) (aliases : List String) (T : Int) :
    Orchestrate env env.downgradeLuaScript [.string v] rss aliases T =
      ((Orchestrate env env.upgradeLuaScript [] rss aliases T).1.map (toDowngrade env v),
        (Orchestrate env env.upgradeLuaScript [] rss aliases T).2) := by
  simp only [Orchestrate]
  rcases GetAllowedReplicasets env.IsPrintTable rss aliases with ⟨sel, e⟩
  cases e with
  | some err => rfl
  | none =>
    have := loop_alike env v h hs1 hs2 T sel []
    simpa using this

/-! ## C12: `Upgrade` and `Downgrade` are one algorithm -/

theorem toDowngrade_count_sleep (env : Env) (v : String) (tr : Trace) :
    (tr.map (toDowngrade env v)).count Event.sleep = tr.count Event.sleep := by
  induction tr with
  | nil => rfl
  | cons e rest ih =>
    cases e with
    | eval c expr args res =>
      simp only [List.map_cons, toDowngrade]
      split <;> simp [List.count_cons, ih]
    | _ => simp [toDowngrade, List.count_cons, ih]

theorem connects_map_toDowngrade (env : Env) (v : String) (tr : Trace) :
    connects (tr.map (toDowngrade env v)) = connects tr := by
  induction tr with
  | nil => rfl
  | cons e rest ih =>
    cases e with
    | eval c expr args res =>
      simp only [List.map_cons, toDowngrade]
      split <;> simpa [connects] using ih
    | _ => simpa [toDowngrade, connects] using ih

theorem printed_map_toDowngrade (env : Env) (v : String) (tr : Trace) :
    printed (tr.map (toDowngrade env v)) = printed tr := by
  induction tr with
  | nil => rfl
  | cons e rest ih =>
    cases e with
    | eval c expr args res =>
      simp only [List.map_cons, toDowngrade]
      split <;> simpa [printed] using ih
    | _ => simpa [toDowngrade, printed] using ih

theorem healthyEnv_alike (v : String) : AnswerAlike healthyEnv v := by
  refine ⟨fun _ _ => rfl, ?_, ?_, ?_⟩
  · intro tr c
    simp only [healthyEnv, sampleEnv, toDowngrade_count_sleep]
  · intro tr c i
    simp only [healthyEnv, sampleEnv, toDowngrade_count_sleep]
  · intro tr c
    simp [healthyEnv, sampleEnv, roExpr]

/-- C12: `Upgrade` and `Downgrade` are the same orchestration algorithm. Each
equals the algorithm `Orchestrate` written once from the description, `Upgrade`
with the upgrade script and no argument, `Downgrade` with the downgrade script
and the single version-string argument. When the endpoints answer the two
procedures alike, the history of `Downgrade` is the history of `Upgrade` event
by event, with the same connections, predicate evaluations, log-position polls,
sleeps and status lines on the same instances in the same order, except that
each evaluation of the upgrade script is an evaluation of the downgrade script
with the version argument; the connection attempts and the printed lines are
the same, and so is the returned error (or the panic). -/
theorem Downgrade_corresponds_to_Upgrade (env : Env) (DowngradeVersion : String)
    (rss : Replicasets) (aliases : List String) (T : Int)
    (halike : AnswerAlike env DowngradeVersion)
    (hs1 : env.upgradeLuaScript ≠ roExpr) (hs2 : ∀ i, env.upgradeLuaScript ≠ vclockExpr i) :
    Upgrade env rss aliases T = Orchestrate env env.upgradeLuaScript [] rss aliases T ∧
    Downgrade env DowngradeVersion rss aliases T =
      Orchestrate env env.downgradeLuaScript [.string DowngradeVersion] rss aliases T ∧
    Downgrade env DowngradeVersion rss aliases T =
      ((Upgrade env rss aliases T).1.map (toDowngrade env DowngradeVersion),
        (Upgrade env rss aliases T).2) ∧
    connects (Downgrade env DowngradeVersion rss aliases T).1 =
      connects (Upgrade env rss aliases T).1 ∧
    printed (Downgrade env DowngradeVersion rss aliases T).1 =
      printed (Upgrade env rss aliases T).1 ∧
    (Downgrade env DowngradeVersion rss aliases T).2 = (Upgrade env rss aliases T).2 := by
  have hmain : Downgrade env DowngradeVersion rss aliases T =
      ((Upgrade env rss aliases T).1.map (toDowngrade env DowngradeVersion),
        (Upgrade env rss aliases T).2) := by
    rw [Downgrade_eq_Orchestrate, Upgrade_eq_Orchestrate]
    exact Orchestrate_alike env DowngradeVersion halike hs1 hs2 rss aliases T
  refine ⟨Upgrade_eq_Orchestrate env rss aliases T,
    Downgrade_eq_Orchestrate env DowngradeVersion rss aliases T, hmain, ?_, ?_, ?_⟩
  · rw [hmain]
    exact connects_map_toDowngrade env DowngradeVersion _
  · rw [hmain]
    exact printed_map_toDowngrade env DowngradeVersion _
  · rw [hmain]

/-- C12 at a concrete input: the downgrade to `2.8.4` of the two sample
replicasets on healthy endpoints, read off the upgrade run. -/
theorem Downgrade_corresponds_to_Upgrade_witness :
    Downgrade healthyEnv "2.8.4" ⟨[sampleRs0, sampleRs1]⟩ [] 5 =
      ([Event.connect ⟨"unix", "m2.sock"⟩ none,
        Event.eval ⟨"m2.sock", 0⟩ roExpr [] (.ok [.bool false]),
        Event.connect ⟨"unix", "m2.sock"⟩ none,
        Event.eval ⟨"m2.sock", 2⟩ "box.schema.downgrade(...)" [.string "2.8.4"]
          (.ok [.table [("lsn", .inl 5), ("iid", .inl 1)]]),
        Event.print "• rs0: ok\n",
        Event.connect ⟨"unix", "r1.sock"⟩ none,
        Event.eval ⟨"r1.sock", 5⟩ roExpr [] (.ok [.bool true]),
        Event.connect ⟨"unix", "m.sock"⟩ none,
        Event.eval ⟨"m.sock", 7⟩ roExpr [] (.ok [.bool false]),
        Event.connect ⟨"unix", "r2.sock"⟩ none,
        Event.eval ⟨"r2.sock", 9⟩ roExpr [] (.ok [.bool true]),
        Event.connect ⟨"unix", "m.sock"⟩ none,
        Event.eval ⟨"m.sock", 11⟩ "box.schema.downgrade(...)" [.string "2.8.4"]
          (.ok [.table [("lsn", .inl 5), ("iid", .inl 1)]]),
        Event.connect ⟨"unix", "r1.sock"⟩ none,
        Event.eval ⟨"r1.sock", 13⟩ "return box.info.vclock[1]" [] (.ok [.uint32 4]),
        Event.sleep,
        Event.eval ⟨"r1.sock", 13⟩ "return box.info.vclock[1]" [] (.ok [.uint32 5]),
        Event.eval ⟨"r1.sock", 13⟩ "box.schema.downgrade(...)" [.string "2.8.4"]
          (.ok [.table [("lsn", .inl 5), ("iid", .inl 1)]]),
        Event.connect ⟨"unix", "r2.sock"⟩ none,
        Event.eval ⟨"r2.sock", 18⟩ "return box.info.vclock[1]" [] (.ok [.uint32 5]),
        Event.eval ⟨"r2.sock", 18⟩ "box.schema.downgrade(...)" [.string "2.8.4"]
          (.ok [.table [("lsn", .inl 5), ("iid", .inl 1)]]),
        Event.print "• rs1: ok\n"], .ret none) :=
  (Downgrade_corresponds_to_Upgrade healthyEnv "2.8.4" ⟨[sampleRs0, sampleRs1]⟩ [] 5
    (healthyEnv_alike "2.8.4") (by decide) sampleScript_ne_vclockExpr).2.2.1.trans (by decide)

/-! ## C19 and C11: either orchestrator -/

theorem orchestrator_eq (env : Env) (v : String) (down : Bool) (rss : Replicasets)
    (aliases : List String) (T : Int) :
    orchestrator env v down rss aliases T =
      Orchestrate env (migrationScript env down) (migrationArgs v down) rss aliases T := by
  cases down
  · simp [orchestrator, migrationScript, migrationArgs, Upgrade_eq_Orchestrate]
  · simp [orchestrator, migrationScript, migrationArgs, Downgrade_eq_Orchestrate]

theorem replicaLoop_eq (env : Env) (v : String) (down : Bool) (a : String) (info : SyncInfo)
    (T : Int) (reps : List InstanceCtx) (tr : Trace) :
    replicaLoop env v down a info T reps tr =
      Orchestrate.replicas env (migrationScript env down) (migrationArgs v down) a info T
        reps tr := by
  cases down
  · simp [replicaLoop, migrationScript, migrationArgs, Upgrade_replicas_eq]
  · simp [replicaLoop, migrationScript, migrationArgs, Downgrade_replicas_eq]

theorem Orchestrate_loop_append (env : Env) (script : String) (args : List Value) (T : Int)
    (pre rest : List Replicaset) (tr tr0 : Trace)
    (h : Orchestrate.loop env script args T pre tr = (tr0, .ret none)) :
    Orchestrate.loop env script args T (pre ++ rest) tr =
      Orchestrate.loop env script args T rest tr0 := by
  induction pre generalizing tr with
  | nil =>
    simp only [Orchestrate.loop, Prod.mk.injEq, and_true] at h
    subst h
    rfl
  | cons rs pre ih =>
    simp only [List.cons_append]
    simp only [Orchestrate.loop] at h ⊢
    rcases hr : Orchestrate.replicaset env script args T rs tr with ⟨tr1, fl⟩
    rw [hr] at h
    cases fl with
    | next u => exact ih _ h
    | abort err => simp at h
    | panic msg => simp at h

theorem Orchestrate_at (env : Env) (script : String) (args : List Value) (rss : Replicasets)
    (aliases : List String) (T : Int) (pre post : List Replicaset) (rs : Replicaset)
    (tr0 : Trace)
    (hsel : GetAllowedReplicasets env.IsPrintTable rss aliases = (pre ++ rs :: post, none))
    (hpre : Orchestrate env script args ⟨pre⟩ [] T = (tr0, .ret none)) :
    Orchestrate env script args rss aliases T =
      match Orchestrate.replicaset env script args T rs tr0 with
      | (tr1, .next _) => Orchestrate.loop env script args T post tr1
      | (tr1, .abort err) => (tr1, .ret (some err))
      | (tr1, .panic msg) => (tr1, .panic msg) := by
  have hpre2 : Orchestrate.loop env script args T pre [] = (tr0, .ret none) := by
    simpa [Orchestrate, GetAllowedReplicasets] using hpre
  simp only [Orchestrate, hsel]
  rw [Orchestrate_loop_append env script args T pre (rs :: post) [] tr0 hpre2]
  rfl

theorem Orchestrate_replicas_append (env : Env) (script : String) (args : List Value)
    (a : String) (info : SyncInfo) (T : Int) (xs ys : List InstanceCtx) (tr tr1 : Trace)
    (h : Orchestrate.replicas env script args a info T xs tr = (tr1, .next ())) :
    Orchestrate.replicas env script args a info T (xs ++ ys) tr =
      Orchestrate.replicas env script args a info T ys tr1 := by
  induction xs generalizing tr with
  | nil =>
    simp only [Orchestrate.replicas, Prod.mk.injEq, and_true] at h
    subst h
    rfl
  | cons x xs ih =>
    simp only [List.cons_append]
    simp only [Orchestrate.replicas] at h ⊢
    rcases hc : Connect env tr ⟨"unix", x.ConsoleSocket⟩ with ⟨tr2, rc⟩
    rw [hc] at h
    cases rc with
    | error err => simp at h
    | ok conn =>
      simp only at h ⊢
      rcases hw : WaitLSN env tr2 conn info T with ⟨tr3, rw3⟩
      rw [hw] at h
      cases rw3 with
      | some err => simp at h
      | none =>
        simp only at h ⊢
        rcases hi : Orchestrate.migrate env script args tr3 conn with ⟨tr4, ri⟩
        rw [hi] at h
        cases ri with
        | panic msg => simp at h
        | ret p =>
          rcases p with ⟨i2, e2⟩
          cases e2 with
          | some err => simp at h
          | none => exact ih _ h

theorem migrate_ok (env : Env) (script : String) (args : List Value) (tr : Trace)
    (c : Connector) (v : Value) (vs : List Value) (info : SyncInfo)
    (h : env.Eval tr c script args = .ok (v :: vs))
    (hdec : env.Decode v = (info, none)) (herr : info.Err = none) :
    Orchestrate.migrate env script args tr c =
      (tr ++ [Event.eval c script args (.ok (v :: vs))], .ret (info, none)) := by
  simp [Orchestrate.migrate, Connector.Eval, h, hdec, herr]

theorem WaitLSN_first_poll_error (env : Env) (tr : Trace) (c : Connector) (info : SyncInfo)
    (T : Int) (e : GoError) (hT : 0 < T)
    (h : env.Eval tr c (vclockExpr info.IID) [] = .error e) :
    WaitLSN env tr c info T =
      (tr ++ [Event.eval c (vclockExpr info.IID) [] (.error e)], some e) := by
  obtain ⟨n, hn⟩ : ∃ n, T.toNat = n + 1 := ⟨T.toNat - 1, by omega⟩
  simp [WaitLSN, hn, WaitLSN.loop, Connector.Eval, h]

/-- C19: either orchestrator (`Downgrade` when `down`, else `Upgrade`) reports
the LSN wait timeout whenever `WaitLSN` returns an error, whatever that error
is. Let the run reach a replica `N` of a replicaset whose master was migrated
with log position `L` of component `I`, and let `WaitLSN` on `N` return any
error `e`. Then the orchestrator prints the `error` status line and returns the
message `LSN wait timeout ... time quota T seconds exceeded` with `L`, `I`, the
name of `N` and `T`; the message is the same for every `e`, so the text of `e`
is not in it. In particular, when `0 < T` and the very first log-position
evaluation on `N` fails with `e1`, `WaitLSN` returns `e1` at once: its history
is that single evaluation, with no sleep and no second poll. -/
theorem wait_error_reported_as_timeout (env : Env) (DowngradeVersion : String) (down : Bool)
    (rss : Replicasets) (aliases : List String) (T : Int) (pre post : List Replicaset)
    (rs : Replicaset) (tr0 tr1 tr2 : Trace) (l1 l2 : List Instance) (M : Instance) (v : Value)
    (vs : List Value) (L I : Nat) (earlier later : List InstanceCtx) (N : InstanceCtx)
    (e : GoError)
    (hsel : GetAllowedReplicasets env.IsPrintTable rss aliases = (pre ++ rs :: post, none))
    (hpre : orchestrator env DowngradeVersion down ⟨pre⟩ [] T = (tr0, .ret none))
    (hinst : rs.Instances = l1 ++ M :: l2)
    (hrep : reports env tr0 rs.Instances =
      some (List.replicate l1.length true ++ false :: List.replicate l2.length true))
    (hconn : env.Connect (tr0 ++ classEvents env tr0 rs.Instances)
      ⟨"unix", M.InstanceCtx.ConsoleSocket⟩ = none)
    (hmig : env.Eval (tr0 ++ classEvents env tr0 rs.Instances
        ++ [Event.connect ⟨"unix", M.InstanceCtx.ConsoleSocket⟩ none])
      ⟨M.InstanceCtx.ConsoleSocket, (tr0 ++ classEvents env tr0 rs.Instances).length⟩
      (migrationScript env down) (migrationArgs DowngradeVersion down) = .ok (v :: vs))
    (hdec : env.Decode v = (⟨L, I, none⟩, none))
    (hreps : (l1 ++ l2).map (fun i => i.InstanceCtx) = earlier ++ N :: later)
    (hearlier : replicaLoop env DowngradeVersion down rs.Alias ⟨L, I, none⟩ T earlier
      (tr0 ++ classEvents env tr0 rs.Instances
        ++ [Event.connect ⟨"unix", M.InstanceCtx.ConsoleSocket⟩ none,
          Event.eval ⟨M.InstanceCtx.ConsoleSocket,
            (tr0 ++ classEvents env tr0 rs.Instances).length⟩ (migrationScript env down)
            (migrationArgs DowngradeVersion down) (.ok (v :: vs))]) = (tr1, .next ()))
    (hNconn : env.Connect tr1 ⟨"unix", N.ConsoleSocket⟩ = none)
    (hwait : WaitLSN env (tr1 ++ [Event.connect ⟨"unix", N.ConsoleSocket⟩ none])
      ⟨N.ConsoleSocket, tr1.length⟩ ⟨L, I, none⟩ T = (tr2, some e)) :
    (∀ e1, 0 < T →
      env.Eval (tr1 ++ [Event.connect ⟨"unix", N.ConsoleSocket⟩ none])
        ⟨N.ConsoleSocket, tr1.length⟩ (vclockExpr I) [] = .error e1 →
      WaitLSN env (tr1 ++ [Event.connect ⟨"unix", N.ConsoleSocket⟩ none])
          ⟨N.ConsoleSocket, tr1.length⟩ ⟨L, I, none⟩ T =
        (tr1 ++ [Event.connect ⟨"unix", N.ConsoleSocket⟩ none,
          Event.eval ⟨N.ConsoleSocket, tr1.length⟩ (vclockExpr I) [] (.error e1)], some e1) ∧
      tr2 = tr1 ++ [Event.connect ⟨"unix", N.ConsoleSocket⟩ none,
        Event.eval ⟨N.ConsoleSocket, tr1.length⟩ (vclockExpr I) [] (.error e1)] ∧ e = e1) ∧
    orchestrator env DowngradeVersion down rss aliases T =
      (tr2 ++ [Event.print ("• " ++ rs.Alias ++ ": error\n")],
        .ret (some (.errorString ("[" ++ rs.Alias ++ "]: LSN wait timeout: error waiting LSN "
          ++ toString L ++ " in vclock component " ++ toString I ++ " on "
          ++ GetAppInstanceName N ++ ": time quota " ++ toString T ++ " seconds exceeded")))) := by
  refine ⟨?_, ?_⟩
  · intro e1 hT hfail
    have hw := WaitLSN_first_poll_error env _ ⟨N.ConsoleSocket, tr1.length⟩ ⟨L, I, none⟩ T e1 hT
      hfail
    have hw2 := hw
    rw [hwait] at hw2
    simp only [Prod.mk.injEq, Option.some.injEq] at hw2
    exact ⟨by rw [hw]; simp, by rw [hw2.1]; simp, hw2.2⟩
  · rw [orchestrator_eq] at hpre ⊢
    rw [replicaLoop_eq] at hearlier
    rw [Orchestrate_at env _ _ rss aliases T pre post rs tr0 hsel hpre]
    rw [hinst] at hrep
    have hcls := classify_one_master env rs.Alias l1 l2 M tr0 hrep
    rw [← hinst, Upgrade_classify_eq] at hcls
    have hearlier2 : Orchestrate.replicas env (migrationScript env down)
        (migrationArgs DowngradeVersion down) rs.Alias ⟨L, I, none⟩ T earlier
        (tr0 ++ classEvents env tr0 rs.Instances
          ++ [Event.connect ⟨"unix", M.InstanceCtx.ConsoleSocket⟩ none]
          ++ [Event.eval ⟨M.InstanceCtx.ConsoleSocket,
            (tr0 ++ classEvents env tr0 rs.Instances).length⟩ (migrationScript env down)
            (migrationArgs DowngradeVersion down) (.ok (v :: vs))]) = (tr1, .next ()) := by
      rw [← hearlier]
      simp
    simp only [Orchestrate.replicaset, hcls, Connect_ok env _ _ hconn,
      migrate_ok env _ _ _ _ v vs ⟨L, I, none⟩ hmig hdec rfl, hreps,
      Orchestrate_replicas_append env _ _ rs.Alias ⟨L, I, none⟩ T earlier (N :: later) _ tr1
        hearlier2,
      Orchestrate.replicas, Connect_ok env _ _ hNconn, hwait, printReplicasetStatus, lsnErr]
    simp [String.append_assoc]

/-- C19 at a concrete input: a downgrade in which the first log-position
evaluation on the replica `r2` fails with `connection reset by peer`. `WaitLSN`
returns that error after the single evaluation, and `Downgrade` returns the
timeout message, in which no such text occurs. -/
theorem wait_error_reported_as_timeout_witness :
    WaitLSN brokenPollEnv
        [Event.connect ⟨"unix", "r1.sock"⟩ none,
          Event.eval ⟨"r1.sock", 0⟩ roExpr [] (.ok [.bool true]),
          Event.connect ⟨"unix", "m.sock"⟩ none,
          Event.eval ⟨"m.sock", 2⟩ roExpr [] (.ok [.bool false]),
          Event.connect ⟨"unix", "r2.sock"⟩ none,
          Event.eval ⟨"r2.sock", 4⟩ roExpr [] (.ok [.bool true]),
          Event.connect ⟨"unix", "m.sock"⟩ none,
          Event.eval ⟨"m.sock", 6⟩ "box.schema.downgrade(...)" [.string "2.8.4"]
            (.ok [.table [("lsn", .inl 5), ("iid", .inl 1)]]),
          Event.connect ⟨"unix", "r1.sock"⟩ none,
          Event.eval ⟨"r1.sock", 8⟩ "return box.info.vclock[1]" [] (.ok [.uint32 4]),
          Event.sleep,
          Event.eval ⟨"r1.sock", 8⟩ "return box.info.vclock[1]" [] (.ok [.uint32 5]),
          Event.eval ⟨"r1.sock", 8⟩ "box.schema.downgrade(...)" [.string "2.8.4"]
            (.ok [.table [("lsn", .inl 5), ("iid", .inl 1)]]),
          Event.connect ⟨"unix", "r2.sock"⟩ none]
        ⟨"r2.sock", 13⟩ ⟨5, 1, none⟩ 5 =
      ([Event.connect ⟨"unix", "r1.sock"⟩ none,
          Event.eval ⟨"r1.sock", 0⟩ roExpr [] (.ok [.bool true]),
          Event.connect ⟨"unix", "m.sock"⟩ none,
          Event.eval ⟨"m.sock", 2⟩ roExpr [] (.ok [.bool false]),
          Event.connect ⟨"unix", "r2.sock"⟩ none,
          Event.eval ⟨"r2.sock", 4⟩ roExpr [] (.ok [.bool true]),
          Event.connect ⟨"unix", "m.sock"⟩ none,
          Event.eval ⟨"m.sock", 6⟩ "box.schema.downgrade(...)" [.string "2.8.4"]
            (.ok [.table [("lsn", .inl 5), ("iid", .inl 1)]]),
          Event.connect ⟨"unix", "r1.sock"⟩ none,
          Event.eval ⟨"r1.sock", 8⟩ "return box.info.vclock[1]" [] (.ok [.uint32 4]),
          Event.sleep,
          Event.eval ⟨"r1.sock", 8⟩ "return box.info.vclock[1]" [] (.ok [.uint32 5]),
          Event.eval ⟨"r1.sock", 8⟩ "box.schema.downgrade(...)" [.string "2.8.4"]
            (.ok [.table [("lsn", .inl 5), ("iid", .inl 1)]]),
          Event.connect ⟨"unix", "r2.sock"⟩ none,
          Event.eval ⟨"r2.sock", 13⟩ "return box.info.vclock[1]" []
            (.error (.errorString "connection reset by peer"))],
        some (.errorString "connection reset by peer")) ∧
    Downgrade brokenPollEnv "2.8.4" ⟨[sampleRs1]⟩ [] 5 =
      ([Event.connect ⟨"unix", "r1.sock"⟩ none,
          Event.eval ⟨"r1.sock", 0⟩ roExpr [] (.ok [.bool true]),
          Event.connect ⟨"unix", "m.sock"⟩ none,
          Event.eval ⟨"m.sock", 2⟩ roExpr [] (.ok [.bool false]),
          Event.connect ⟨"unix", "r2.sock"⟩ none,
          Event.eval ⟨"r2.sock", 4⟩ roExpr [] (.ok [.bool true]),
          Event.connect ⟨"unix", "m.sock"⟩ none,
          Event.eval ⟨"m.sock", 6⟩ "box.schema.downgrade(...)" [.string "2.8.4"]
            (.ok [.table [("lsn", .inl 5), ("iid", .inl 1)]]),
          Event.connect ⟨"unix", "r1.sock"⟩ none,
          Event.eval ⟨"r1.sock", 8⟩ "return box.info.vclock[1]" [] (.ok [.uint32 4]),
          Event.sleep,
          Event.eval ⟨"r1.sock", 8⟩ "return box.info.vclock[1]" [] (.ok [.uint32 5]),
          Event.eval ⟨"r1.sock", 8⟩ "box.schema.downgrade(...)" [.string "2.8.4"]
            (.ok [.table [("lsn", .inl 5), ("iid", .inl 1)]]),
          Event.connect ⟨"unix", "r2.sock"⟩ none,
          Event.eval ⟨"r2.sock", 13⟩ "return box.info.vclock[1]" []
            (.error (.errorString "connection reset by peer")),
          Event.print "• rs1: error\n"],
        .ret (some (.errorString ("[rs1]: LSN wait timeout: error waiting LSN 5 in vclock "
          ++ "component 1 on app:r2: time quota 5 seconds exceeded")))) :=
  ⟨by decide,
    (wait_error_reported_as_timeout brokenPollEnv "2.8.4" true ⟨[sampleRs1]⟩ [] 5 [] [] sampleRs1
      []
      [Event.connect ⟨"unix", "r1.sock"⟩ none,
        Event.eval ⟨"r1.sock", 0⟩ roExpr [] (.ok [.bool true]),
        Event.connect ⟨"unix", "m.sock"⟩ none,
        Event.eval ⟨"m.sock", 2⟩ roExpr [] (.ok [.bool false]),
        Event.connect ⟨"unix", "r2.sock"⟩ none,
        Event.eval ⟨"r2.sock", 4⟩ roExpr [] (.ok [.bool true]),
        Event.connect ⟨"unix", "m.sock"⟩ none,
        Event.eval ⟨"m.sock", 6⟩ "box.schema.downgrade(...)" [.string "2.8.4"]
          (.ok [.table [("lsn", .inl 5), ("iid", .inl 1)]]),
        Event.connect ⟨"unix", "r1.sock"⟩ none,
        Event.eval ⟨"r1.sock", 8⟩ "return box.info.vclock[1]" [] (.ok [.uint32 4]),
        Event.sleep,
        Event.eval ⟨"r1.sock", 8⟩ "return box.info.vclock[1]" [] (.ok [.uint32 5]),
        Event.eval ⟨"r1.sock", 8⟩ "box.schema.downgrade(...)" [.string "2.8.4"]
          (.ok [.table [("lsn", .inl 5), ("iid", .inl 1)]])]
      [Event.connect ⟨"unix", "r1.sock"⟩ none,
        Event.eval ⟨"r1.sock", 0⟩ roExpr [] (.ok [.bool true]),
        Event.connect ⟨"unix", "m.sock"⟩ none,
        Event.eval ⟨"m.sock", 2⟩ roExpr [] (.ok [.bool false]),
        Event.connect ⟨"unix", "r2.sock"⟩ none,
        Event.eval ⟨"r2.sock", 4⟩ roExpr [] (.ok [.bool true]),
        Event.connect ⟨"unix", "m.sock"⟩ none,
        Event.eval ⟨"m.sock", 6⟩ "box.schema.downgrade(...)" [.string "2.8.4"]
          (.ok [.table [("lsn", .inl 5), ("iid", .inl 1)]]),
        Event.connect ⟨"unix", "r1.sock"⟩ none,
        Event.eval ⟨"r1.sock", 8⟩ "return box.info.vclock[1]" [] (.ok [.uint32 4]),
        Event.sleep,
        Event.eval ⟨"r1.sock", 8⟩ "return box.info.vclock[1]" [] (.ok [.uint32 5]),
        Event.eval ⟨"r1.sock", 8⟩ "box.schema.downgrade(...)" [.string "2.8.4"]
          (.ok [.table [("lsn", .inl 5), ("iid", .inl 1)]]),
        Event.connect ⟨"unix", "r2.sock"⟩ none,
        Event.eval ⟨"r2.sock", 13⟩ "return box.info.vclock[1]" []
          (.error (.errorString "connection reset by peer"))]
      [sampleInst "r1"] [sampleInst "r2"] (sampleInst "m")
      (.table [("lsn", .inl 5), ("iid", .inl 1)]) [] 5 1
      [(sampleInst "r1").InstanceCtx] [] (sampleInst "r2").InstanceCtx
      (.errorString "connection reset by peer")
      (by decide) (by decide) (by decide) (by decide) (by decide) (by decide) (by decide)
      (by decide) (by decide) (by decide) (by decide)).2.trans (by decide)⟩

/-- C11: when the alias list contains an alias that no replicaset has,
`Upgrade` and `Downgrade` each return the `doesn't exist` error for the first
such alias with an empty history: no connection is opened, no remote evaluation
is made and no status line is printed. The aliases before the missing one may
all exist, and the aliases after it are arbitrary. -/
theorem missing_alias_no_network (env : Env) (DowngradeVersion : String) (rss : Replicasets)
    (aliases : List String) (T : Int)
    (h : ∃ a ∈ aliases, ∀ rs ∈ rss.Replicasets, rs.Alias ≠ a) :
    ∃ found a rest, aliases = found ++ a :: rest ∧
      (∀ x ∈ found, ∃ rs ∈ rss.Replicasets, rs.Alias = x) ∧
      (∀ rs ∈ rss.Replicasets, rs.Alias ≠ a) ∧
      Upgrade env rss aliases T =
        ([], .ret (some (.errorString
          ("replicaset with alias " ++ Quote env.IsPrintTable a ++ " doesn't exist")))) ∧
      Downgrade env DowngradeVersion rss aliases T =
        ([], .ret (some (.errorString
          ("replicaset with alias " ++ Quote env.IsPrintTable a ++ " doesn't exist")))) := by
  obtain ⟨found, a, rest, hal, hfound, ha⟩ :=
    exists_first_split (fun a => ∀ rs ∈ rss.Replicasets, rs.Alias ≠ a) aliases h
  have hfound2 : ∀ x ∈ found, ∃ rs ∈ rss.Replicasets, rs.Alias = x := by
    intro x hx
    have := hfound x hx
    push_neg at this
    exact this
  have hget : GetAllowedReplicasets env.IsPrintTable rss aliases =
      ([], some (.errorString
        ("replicaset with alias " ++ Quote env.IsPrintTable a ++ " doesn't exist"))) := by
    have hne : ¬ aliases.length = 0 := by simp [hal]
    unfold GetAllowedReplicasets
    rw [if_neg hne, hal]
    apply allowed_loop_err
    · intro x hx hnone
      obtain ⟨rs, hrs, hrsa⟩ := hfound2 x hx
      exact (replicasetMap_none _ _).mp hnone rs hrs hrsa
    · exact (replicasetMap_none _ _).mpr ha
  refine ⟨found, a, rest, hal, hfound2, ha, ?_, ?_⟩
  · simp [Upgrade, hget]
  · simp [Downgrade, hget]

/-- C11 at a concrete input: the alias list `rs0`, `nope`, `rs1` over the two
sample replicasets; `rs0` exists and precedes the missing `nope`. -/
theorem missing_alias_no_network_witness :
    Upgrade healthyEnv ⟨[sampleRs0, sampleRs1]⟩ ["rs0", "nope", "rs1"] 5 =
      ([], .ret (some (.errorString "replicaset with alias \"nope\" doesn't exist"))) ∧
    Downgrade healthyEnv "2.8.4" ⟨[sampleRs0, sampleRs1]⟩ ["rs0", "nope", "rs1"] 5 =
      ([], .ret (some (.errorString "replicaset with alias \"nope\" doesn't exist"))) := by
  obtain ⟨found, a, rest, hal, hfound, ha, hu, hd⟩ :=
    missing_alias_no_network healthyEnv "2.8.4" ⟨[sampleRs0, sampleRs1]⟩ ["rs0", "nope", "rs1"] 5
      ⟨"nope", by decide, by decide⟩
  have hmem : a ∈ ["rs0", "nope", "rs1"] := by
    rw [hal]
    simp
  have hnope : a = "nope" := by
    simp only [List.mem_cons, List.mem_singleton, List.not_mem_nil, or_false] at hmem
    rcases hmem with rfl | rfl | rfl
    · exact absurd rfl (ha sampleRs0 (by simp))
    · rfl
    · exact absurd rfl (ha sampleRs1 (by simp))
  subst hnope
  exact ⟨hu.trans (by decide), hd.trans (by decide)⟩

/-! ## Iteration over instances: lemmas -/

theorem loop_connect_error (env : Env) (ievaler : InstanceEvaler) (X : InstanceCtx)
    (rest : List InstanceCtx) (n : Nat) (tr : Trace) (e : GoError)
    (h : env.Connect tr ⟨"unix", X.ConsoleSocket⟩ = some e) :
    evalForeach.loop env ievaler false (X :: rest) n tr =
      (tr ++ [Event.connect ⟨"unix", X.ConsoleSocket⟩ (some e)],
        .error (.wrapError (connectFailure X e) e)) := by
  simp [evalForeach.loop, Connect, h, connectFailure]

theorem loop_skip (env : Env) (ievaler : InstanceEvaler) (X : InstanceCtx)
    (rest : List InstanceCtx) (n : Nat) (tr : Trace) (e : GoError)
    (h : env.Connect tr ⟨"unix", X.ConsoleSocket⟩ = some e) :
    evalForeach.loop env ievaler true (X :: rest) n tr =
      evalForeach.loop env ievaler true rest n (tr ++ skipEvents X e) := by
  simp [evalForeach.loop, Connect, h, connectFailure, skipEvents]

theorem loop_visit (env : Env) (answer : Trace → InstanceCtx → Connector → Bool × Option GoError)
    (skip : Bool) (X : InstanceCtx) (rest : List InstanceCtx) (n : Nat) (tr : Trace)
    (h : env.Connect tr ⟨"unix", X.ConsoleSocket⟩ = none) :
    evalForeach.loop env (callerEvaler answer) skip (X :: rest) n tr =
      match (answer (tr ++ [Event.connect ⟨"unix", X.ConsoleSocket⟩ none]) X
          ⟨X.ConsoleSocket, tr.length⟩).2 with
      | some e => (tr ++ visitEvents answer tr X, .error e)
      | none =>
        if (answer (tr ++ [Event.connect ⟨"unix", X.ConsoleSocket⟩ none]) X
            ⟨X.ConsoleSocket, tr.length⟩).1 then (tr ++ visitEvents answer tr X, .ok (n + 1))
        else evalForeach.loop env (callerEvaler answer) skip rest (n + 1)
          (tr ++ visitEvents answer tr X) := by
  simp only [evalForeach.loop, Connect, h, callerEvaler, visitEvents]
  rcases ha : answer (tr ++ [Event.connect ⟨"unix", X.ConsoleSocket⟩ none]) X
    ⟨X.ConsoleSocket, tr.length⟩ with ⟨d, e⟩
  cases e <;> cases d <;> simp

theorem loop_skips (env : Env) (ievaler : InstanceEvaler) (pre rest : List InstanceCtx) (n : Nat)
    (tr tr1 : Trace) (h : skips env pre tr = some tr1) :
    evalForeach.loop env ievaler true (pre ++ rest) n tr =
      evalForeach.loop env ievaler true rest n tr1 := by
  induction pre generalizing tr with
  | nil =>
    simp only [skips, Option.some.injEq] at h
    subst h
    rfl
  | cons x pre ih =>
    simp only [skips] at h
    cases hc : env.Connect tr ⟨"unix", x.ConsoleSocket⟩ with
    | none => simp [hc] at h
    | some e =>
      rw [hc] at h
      simp only at h
      rw [List.cons_append, loop_skip env ievaler x _ n tr e hc]
      exact ih _ h

theorem skips_passes (env : Env)
    (answer : Trace → InstanceCtx → Connector → Bool × Option GoError)
    (pre : List InstanceCtx) (tr tr1 : Trace) (h : skips env pre tr = some tr1) :
    passes env answer true pre tr = some tr1 := by
  induction pre generalizing tr with
  | nil => simpa [skips, passes] using h
  | cons x pre ih =>
    simp only [skips] at h
    simp only [passes]
    cases hc : env.Connect tr ⟨"unix", x.ConsoleSocket⟩ with
    | none => simp [hc] at h
    | some e =>
      rw [hc] at h
      simp only at h
      simpa using ih _ h

theorem called_append (a b : List Event) : called (a ++ b) = called a ++ called b := by
  simp [called, List.filterMap_append]

theorem skips_called (env : Env) (pre : List InstanceCtx) (tr tr1 : Trace)
    (h : skips env pre tr = some tr1) : called tr1 = called tr := by
  induction pre generalizing tr with
  | nil =>
    simp only [skips, Option.some.injEq] at h
    rw [h]
  | cons x pre ih =>
    simp only [skips] at h
    cases hc : env.Connect tr ⟨"unix", x.ConsoleSocket⟩ with
    | none => simp [hc] at h
    | some e =>
      rw [hc] at h
      simp only at h
      rw [ih _ h, called_append]
      simp [called, skipEvents]

theorem skips_connects (env : Env) (pre : List InstanceCtx) (tr tr1 : Trace)
    (h : skips env pre tr = some tr1) :
    connects tr1 = connects tr ++ pre.map (fun i => ⟨"unix", i.ConsoleSocket⟩) := by
  induction pre generalizing tr with
  | nil =>
    simp only [skips, Option.some.injEq] at h
    simp [h]
  | cons x pre ih =>
    simp only [skips] at h
    cases hc : env.Connect tr ⟨"unix", x.ConsoleSocket⟩ with
    | none => simp [hc] at h
    | some e =>
      rw [hc] at h
      simp only at h
      rw [ih _ h, connects_append]
      simp [connects, skipEvents]

/-- In strict mode the instances passed over are exactly those on which the
evaluator was called and those connected to. -/
theorem passes_strict (env : Env)
    (answer : Trace → InstanceCtx → Connector → Bool × Option GoError)
    (pre : List InstanceCtx) (tr tr1 : Trace) (h : passes env answer false pre tr = some tr1) :
    called tr1 = called tr ++ pre ∧
      connects tr1 = connects tr ++ pre.map (fun i => ⟨"unix", i.ConsoleSocket⟩) := by
  induction pre generalizing tr with
  | nil =>
    simp only [passes, Option.some.injEq] at h
    simp [h]
  | cons x pre ih =>
    simp only [passes] at h
    cases hc : env.Connect tr ⟨"unix", x.ConsoleSocket⟩ with
    | some e => simp [hc] at h
    | none =>
      rw [hc] at h
      simp only at h
      split at h
      · obtain ⟨h1, h2⟩ := ih _ h
        rw [h1, h2, called_append, connects_append]
        simp [called, connects, visitEvents]
      · simp at h

/-- Passing over a prefix: the loop continues on the rest from the history left,
with the counter raised by the number `m` of instances that connected; `m` is
zero only if every instance of the prefix failed to connect. -/
theorem loop_passes (env : Env)
    (answer : Trace → InstanceCtx → Connector → Bool × Option GoError) (skip : Bool)
    (pre rest : List InstanceCtx) (n : Nat) (tr tr1 : Trace)
    (h : passes env answer skip pre tr = some tr1) :
    ∃ m, evalForeach.loop env (callerEvaler answer) skip (pre ++ rest) n tr =
        evalForeach.loop env (callerEvaler answer) skip rest (n + m) tr1 ∧
      (m = 0 → skips env pre tr = some tr1) := by
  induction pre generalizing tr n with
  | nil =>
    simp only [passes, Option.some.injEq] at h
    subst h
    exact ⟨0, rfl, fun _ => rfl⟩
  | cons x pre ih =>
    simp only [passes] at h
    cases hc : env.Connect tr ⟨"unix", x.ConsoleSocket⟩ with
    | some e =>
      rw [hc] at h
      simp only at h
      cases skip with
      | false => simp at h
      | true =>
        simp only [if_true] at h
        obtain ⟨m, hm, hz⟩ := ih n _ h
        refine ⟨m, ?_, ?_⟩
        · rw [List.cons_append, loop_skip env _ x _ n tr e hc]
          exact hm
        · intro h0
          simp only [skips, hc]
          exact hz h0
    | none =>
      rw [hc] at h
      simp only at h
      split at h
      · rename_i hans
        obtain ⟨m, hm, _⟩ := ih (n + 1) _ h
        refine ⟨m + 1, ?_, by omega⟩
        rw [List.cons_append, loop_visit env answer skip x _ n tr hc, hans]
        simp only [Bool.false_eq_true, if_false]
        rw [hm]
        congr 1
        omega
      · simp at h

/-- Every iteration either passes over the whole list, or passes over a prefix
and ends at the next instance: that one fails to connect in strict mode, or
connects and its evaluator call does not return `(false, nil)`. -/
theorem passes_total (env : Env)
    (answer : Trace → InstanceCtx → Connector → Bool × Option GoError) (skip : Bool)
    (xs : List InstanceCtx) (tr : Trace) :
    (∃ tr1, passes env answer skip xs tr = some tr1) ∨
    (∃ pre X post tr1, xs = pre ++ X :: post ∧ passes env answer skip pre tr = some tr1 ∧
      ((skip = false ∧ ∃ e, env.Connect tr1 ⟨"unix", X.ConsoleSocket⟩ = some e) ∨
        (env.Connect tr1 ⟨"unix", X.ConsoleSocket⟩ = none ∧
          answer (tr1 ++ [Event.connect ⟨"unix", X.ConsoleSocket⟩ none]) X
            ⟨X.ConsoleSocket, tr1.length⟩ ≠ (false, none)))) := by
  induction xs generalizing tr with
  | nil => exact Or.inl ⟨tr, rfl⟩
  | cons x xs ih =>
    cases hc : env.Connect tr ⟨"unix", x.ConsoleSocket⟩ with
    | some e =>
      cases skip with
      | false =>
        exact Or.inr ⟨[], x, xs, tr, rfl, rfl, Or.inl ⟨rfl, e, hc⟩⟩
      | true =>
        rcases ih (tr ++ skipEvents x e) with ⟨tr1, h1⟩ | ⟨pre, X, post, tr1, hxs, hp, hend⟩
        · exact Or.inl ⟨tr1, by simp [passes, hc, h1]⟩
        · exact Or.inr ⟨x :: pre, X, post, tr1, by simp [hxs], by simp [passes, hc, hp], hend⟩
    | none =>
      by_cases hans : answer (tr ++ [Event.connect ⟨"unix", x.ConsoleSocket⟩ none]) x
          ⟨x.ConsoleSocket, tr.length⟩ = (false, none)
      · rcases ih (tr ++ visitEvents answer tr x) with
          ⟨tr1, h1⟩ | ⟨pre, X, post, tr1, hxs, hp, hend⟩
        · exact Or.inl ⟨tr1, by simp [passes, hc, hans, h1]⟩
        · exact Or.inr ⟨x :: pre, X, post, tr1, by simp [hxs],
            by simp [passes, hc, hans, hp], hend⟩
      · exact Or.inr ⟨[], x, xs, tr, rfl, rfl, Or.inr ⟨hc, hans⟩⟩

/-! ## C13, C14, C16: `EvalForeach` and `EvalForeachAlive` -/

/-- C13: strict mode.  When the iteration passes over the instances before `X`
(each connects and its evaluator call returns `(false, nil)`) and the connection
to `X` fails with cause `e`, `EvalForeach` returns the error
`failed to connect to '<app>:<instance>': e` naming `X` and wrapping `e`.  In
the history the evaluator was called exactly on the instances before `X`, in
list order, and the connection attempts are those to the instances up to `X`,
in list order: none is made to an instance after `X`. -/
theorem EvalForeach_connect_failure (env : Env)
    (answer : Trace → InstanceCtx → Connector → Bool × Option GoError)
    (pre post : List InstanceCtx) (X : InstanceCtx) (tr1 : Trace) (e : GoError)
    (hpass : passes env answer false pre [] = some tr1)
    (hfail : env.Connect tr1 ⟨"unix", X.ConsoleSocket⟩ = some e) :
    EvalForeach env (pre ++ X :: post) (callerEvaler answer) =
        (tr1 ++ [Event.connect ⟨"unix", X.ConsoleSocket⟩ (some e)],
          some (.wrapError ("failed to connect to '" ++ X.AppName ++ ":" ++ X.InstName ++ "': "
            ++ e.Error) e)) ∧
      called (tr1 ++ [Event.connect ⟨"unix", X.ConsoleSocket⟩ (some e)]) = pre ∧
      connects (tr1 ++ [Event.connect ⟨"unix", X.ConsoleSocket⟩ (some e)]) =
        (pre ++ [X]).map (fun i => ⟨"unix", i.ConsoleSocket⟩) := by
  obtain ⟨m, hm, _⟩ := loop_passes env answer false pre (X :: post) 0 [] tr1 hpass
  obtain ⟨hcalled, hconnects⟩ := passes_strict env answer pre [] tr1 hpass
  refine ⟨?_, ?_, ?_⟩
  · have hne : ¬ (pre ++ X :: post).length = 0 := by simp
    simp only [EvalForeach, evalForeach, if_neg hne, hm,
      loop_connect_error env _ X post _ tr1 e hfail, connectFailure]
  · rw [called_append, hcalled]
    simp [called]
  · rw [connects_append, hconnects]
    simp [connects]

/-- C13 at a concrete input: the instances `a`, `b`, `c`, `d`, of which `c`
refuses the connection, with an evaluator that returns `(false, nil)`. -/
theorem EvalForeach_connect_failure_witness :
    EvalForeach (deadEnv ["c.sock"]) sampleInstances (callerEvaler (sampleAnswer "" "")) =
      ([Event.connect ⟨"unix", "a.sock"⟩ none,
        Event.call ⟨"app", "a", "a.sock"⟩ ⟨"a.sock", 0⟩ false none,
        Event.close ⟨"a.sock", 0⟩,
        Event.connect ⟨"unix", "b.sock"⟩ none,
        Event.call ⟨"app", "b", "b.sock"⟩ ⟨"b.sock", 3⟩ false none,
        Event.close ⟨"b.sock", 3⟩,
        Event.connect ⟨"unix", "c.sock"⟩ (some (.errorString "connect: connection refused"))],
        some (.wrapError "failed to connect to 'app:c': connect: connection refused"
          (.errorString "connect: connection refused"))) :=
  (EvalForeach_connect_failure (deadEnv ["c.sock"]) (sampleAnswer "" "")
    [⟨"app", "a", "a.sock"⟩, ⟨"app", "b", "b.sock"⟩] [⟨"app", "d", "d.sock"⟩]
    ⟨"app", "c", "c.sock"⟩
    [Event.connect ⟨"unix", "a.sock"⟩ none,
      Event.call ⟨"app", "a", "a.sock"⟩ ⟨"a.sock", 0⟩ false none,
      Event.close ⟨"a.sock", 0⟩,
      Event.connect ⟨"unix", "b.sock"⟩ none,
      Event.call ⟨"app", "b", "b.sock"⟩ ⟨"b.sock", 3⟩ false none,
      Event.close ⟨"b.sock", 3⟩]
    (.errorString "connect: connection refused") (by decide) (by decide)).1.trans (by decide)

/-- C14 (as stated, refuted): the list is not empty and the instance `b`
connects, yet `EvalForeachAlive` returns an error: the one that the evaluator
returned on `b`. -/
theorem EvalForeachAlive_evaluator_error_counterexample :
    EvalForeachAlive (deadEnv ["a.sock"]) [⟨"app", "a", "a.sock"⟩, ⟨"app", "b", "b.sock"⟩]
        (callerEvaler (sampleAnswer "" "b")) =
      ([Event.connect ⟨"unix", "a.sock"⟩ (some (.errorString "connect: connection refused")),
        Event.debugf "failed to connect to 'app:a': connect: connection refused",
        Event.connect ⟨"unix", "b.sock"⟩ none,
        Event.call ⟨"app", "b", "b.sock"⟩ ⟨"b.sock", 2⟩ false (some (.errorString "eval failed")),
        Event.close ⟨"b.sock", 2⟩], some (.errorString "eval failed")) ∧
      [(⟨"app", "a", "a.sock"⟩ : InstanceCtx), ⟨"app", "b", "b.sock"⟩] ≠ [] ∧
      (deadEnv ["a.sock"]).Connect
        [Event.connect ⟨"unix", "a.sock"⟩ (some (.errorString "connect: connection refused")),
          Event.debugf "failed to connect to 'app:a': connect: connection refused"]
        ⟨"unix", "b.sock"⟩ = none := by
  decide

/-- C14 (amended): `EvalForeachAlive` returns an error only if the instance
list is empty (`no instances to connect`), or every instance failed to connect
(`failed to connect to any instance`), or the iteration reached an instance
that connected and on which the evaluator returned an error, which is the error
returned.  An instance that fails to connect is skipped: the loop records a
debug line and goes on with the next instance, the counter unchanged. -/
theorem EvalForeachAlive_error (env : Env)
    (answer : Trace → InstanceCtx → Connector → Bool × Option GoError)
    (instances : List InstanceCtx) (err : GoError)
    (h : (EvalForeachAlive env instances (callerEvaler answer)).2 = some err) :
    ((instances = [] ∧ err = .errorString "no instances to connect") ∨
      (instances ≠ [] ∧
        skips env instances [] = some (EvalForeachAlive env instances (callerEvaler answer)).1 ∧
        err = .errorString "failed to connect to any instance") ∨
      (∃ pre X post tr1 d, instances = pre ++ X :: post ∧
        passes env answer true pre [] = some tr1 ∧
        env.Connect tr1 ⟨"unix", X.ConsoleSocket⟩ = none ∧
        answer (tr1 ++ [Event.connect ⟨"unix", X.ConsoleSocket⟩ none]) X
          ⟨X.ConsoleSocket, tr1.length⟩ = (d, some err))) ∧
    (∀ X rest n tr e, env.Connect tr ⟨"unix", X.ConsoleSocket⟩ = some e →
      evalForeach.loop env (callerEvaler answer) true (X :: rest) n tr =
        evalForeach.loop env (callerEvaler answer) true rest n
          (tr ++ [Event.connect ⟨"unix", X.ConsoleSocket⟩ (some e),
            Event.debugf ("failed to connect to '" ++ X.AppName ++ ":" ++ X.InstName ++ "': "
              ++ e.Error)])) := by
  refine ⟨?_, fun X rest n tr e he => loop_skip env _ X rest n tr e he⟩
  by_cases hnil : instances = []
  · subst hnil
    left
    simp [EvalForeachAlive, evalForeach] at h
    exact ⟨rfl, h.symm⟩
  · right
    have hne : ¬ instances.length = 0 := by simpa using hnil
    rcases passes_total env answer true instances [] with
      ⟨tr1, hp⟩ | ⟨pre, X, post, tr1, hxs, hp, hend⟩
    · left
      obtain ⟨m, hm, hz⟩ := loop_passes env answer true instances [] 0 [] tr1 hp
      simp only [List.append_nil, evalForeach.loop, Nat.zero_add] at hm
      simp only [EvalForeachAlive, evalForeach, if_neg hne, hm] at h ⊢
      by_cases hm0 : m = 0
      · simp only [hm0, if_true, Option.some.injEq] at h ⊢
        exact ⟨hnil, hz hm0, h.symm⟩
      · simp [hm0] at h
    · right
      rcases hend with ⟨hs, _⟩ | ⟨hc, hans⟩
      · simp at hs
      · obtain ⟨m, hm, _⟩ := loop_passes env answer true pre (X :: post) 0 [] tr1 hp
        have hne2 : ¬ (pre ++ X :: post).length = 0 := by simp
        rw [hxs] at h
        simp only [EvalForeachAlive, evalForeach, if_neg hne2, hm,
          loop_visit env answer true X post _ tr1 hc] at h
        rcases ha : answer (tr1 ++ [Event.connect ⟨"unix", X.ConsoleSocket⟩ none]) X
          ⟨X.ConsoleSocket, tr1.length⟩ with ⟨d, e⟩
        rw [ha] at h hans
        cases e with
        | some e1 =>
          simp only [Option.some.injEq] at h
          subst h
          exact ⟨pre, X, post, tr1, d, hxs, hp, hc, ha⟩
        | none =>
          cases d with
          | true => simp at h
          | false => exact absurd rfl hans

/-- C14 (amended) at a concrete input: `a` refuses the connection and the
evaluator returns an error on `b`; the returned error is the evaluator's. -/
theorem EvalForeachAlive_error_witness :
    ∃ pre X post tr1 d,
      [(⟨"app", "a", "a.sock"⟩ : InstanceCtx), ⟨"app", "b", "b.sock"⟩] = pre ++ X :: post ∧
      passes (deadEnv ["a.sock"]) (sampleAnswer "" "b") true pre [] = some tr1 ∧
      (deadEnv ["a.sock"]).Connect tr1 ⟨"unix", X.ConsoleSocket⟩ = none ∧
      sampleAnswer "" "b" (tr1 ++ [Event.connect ⟨"unix", X.ConsoleSocket⟩ none]) X
        ⟨X.ConsoleSocket, tr1.length⟩ = (d, some (.errorString "eval failed")) :=
  Or.resolve_left (Or.resolve_left
    (EvalForeachAlive_error (deadEnv ["a.sock"]) (sampleAnswer "" "b")
      [⟨"app", "a", "a.sock"⟩, ⟨"app", "b", "b.sock"⟩] (.errorString "eval failed")
      (by decide)).1 (by decide)) (by decide)

/-- C16: in both modes (`EvalForeach` when `skip` is false, `EvalForeachAlive`
when it is true), when the iteration reaches the instance `X`, `X` connects and
its evaluator call returns `(d, e)` with `d = true` or `e` not nil, then the
call returns exactly `e` (nil for `stop=true` without error, the evaluator's
error unchanged otherwise, whatever `d`) and the history ends with the visit of
`X`: connect, evaluator call, close.  No instance after `X` is connected to or
evaluated. -/
theorem evalForeach_stops (env : Env)
    (answer : Trace → InstanceCtx → Connector → Bool × Option GoError) (skip : Bool)
    (pre post : List InstanceCtx) (X : InstanceCtx) (tr1 : Trace) (d : Bool)
    (e : Option GoError)
    (hpass : passes env answer skip pre [] = some tr1)
    (hconn : env.Connect tr1 ⟨"unix", X.ConsoleSocket⟩ = none)
    (hans : answer (tr1 ++ [Event.connect ⟨"unix", X.ConsoleSocket⟩ none]) X
      ⟨X.ConsoleSocket, tr1.length⟩ = (d, e))
    (hstop : d = true ∨ e ≠ none) :
    (skip = false → EvalForeach env (pre ++ X :: post) (callerEvaler answer) =
      (tr1 ++ [Event.connect ⟨"unix", X.ConsoleSocket⟩ none,
        Event.call X ⟨X.ConsoleSocket, tr1.length⟩ d e,
        Event.close ⟨X.ConsoleSocket, tr1.length⟩], e)) ∧
    (skip = true → EvalForeachAlive env (pre ++ X :: post) (callerEvaler answer) =
      (tr1 ++ [Event.connect ⟨"unix", X.ConsoleSocket⟩ none,
        Event.call X ⟨X.ConsoleSocket, tr1.length⟩ d e,
        Event.close ⟨X.ConsoleSocket, tr1.length⟩], e)) := by
  obtain ⟨m, hm, _⟩ := loop_passes env answer skip pre (X :: post) 0 [] tr1 hpass
  have hne : ¬ (pre ++ X :: post).length = 0 := by simp
  have key : evalForeach env (pre ++ X :: post) (callerEvaler answer) skip =
      (tr1 ++ [Event.connect ⟨"unix", X.ConsoleSocket⟩ none,
        Event.call X ⟨X.ConsoleSocket, tr1.length⟩ d e,
        Event.close ⟨X.ConsoleSocket, tr1.length⟩], e) := by
    simp only [evalForeach, if_neg hne, hm, loop_visit env answer skip X post _ tr1 hconn,
      hans, visitEvents]
    cases e with
    | some err => rfl
    | none =>
      rcases hstop with hd | he
      · subst hd
        simp
      · exact absurd rfl he
  constructor
  · intro hs
    subst hs
    exact key
  · intro hs
    subst hs
    exact key

/-- C16 at concrete inputs.  In tolerant mode, `a` refuses the connection and
the evaluator returns `stop=true` on `c`: the call returns nil and `d` is never
connected to.  In strict mode the evaluator returns an error (with
`stop=false`) on `b`: that error is returned and `c`, `d` are never connected
to. -/
theorem evalForeach_stops_witness :
    EvalForeachAlive (deadEnv ["a.sock"]) sampleInstances (callerEvaler (sampleAnswer "c" "")) =
      ([Event.connect ⟨"unix", "a.sock"⟩ (some (.errorString "connect: connection refused")),
        Event.debugf "failed to connect to 'app:a': connect: connection refused",
        Event.connect ⟨"unix", "b.sock"⟩ none,
        Event.call ⟨"app", "b", "b.sock"⟩ ⟨"b.sock", 2⟩ false none,
        Event.close ⟨"b.sock", 2⟩,
        Event.connect ⟨"unix", "c.sock"⟩ none,
        Event.call ⟨"app", "c", "c.sock"⟩ ⟨"c.sock", 5⟩ true none,
        Event.close ⟨"c.sock", 5⟩], none) ∧
    EvalForeach (deadEnv []) sampleInstances (callerEvaler (sampleAnswer "" "b")) =
      ([Event.connect ⟨"unix", "a.sock"⟩ none,
        Event.call ⟨"app", "a", "a.sock"⟩ ⟨"a.sock", 0⟩ false none,
        Event.close ⟨"a.sock", 0⟩,
        Event.connect ⟨"unix", "b.sock"⟩ none,
        Event.call ⟨"app", "b", "b.sock"⟩ ⟨"b.sock", 3⟩ false (some (.errorString "eval failed")),
        Event.close ⟨"b.sock", 3⟩], some (.errorString "eval failed")) :=
  ⟨((evalForeach_stops (deadEnv ["a.sock"]) (sampleAnswer "c" "") true
      [⟨"app", "a", "a.sock"⟩, ⟨"app", "b", "b.sock"⟩] [⟨"app", "d", "d.sock"⟩]
      ⟨"app", "c", "c.sock"⟩
      [Event.connect ⟨"unix", "a.sock"⟩ (some (.errorString "connect: connection refused")),
        Event.debugf "failed to connect to 'app:a': connect: connection refused",
        Event.connect ⟨"unix", "b.sock"⟩ none,
        Event.call ⟨"app", "b", "b.sock"⟩ ⟨"b.sock", 2⟩ false none,
        Event.close ⟨"b.sock", 2⟩]
      true none (by decide) (by decide) (by decide) (Or.inl rfl)).2 rfl).trans (by decide),
    ((evalForeach_stops (deadEnv []) (sampleAnswer "" "b") false
      [⟨"app", "a", "a.sock"⟩] [⟨"app", "c", "c.sock"⟩, ⟨"app", "d", "d.sock"⟩]
      ⟨"app", "b", "b.sock"⟩
      [Event.connect ⟨"unix", "a.sock"⟩ none,
        Event.call ⟨"app", "a", "a.sock"⟩ ⟨"a.sock", 0⟩ false none,
        Event.close ⟨"a.sock", 0⟩]
      false (some (.errorString "eval failed")) (by decide) (by decide) (by decide)
      (Or.inr (by decide))).1 rfl).trans (by decide)⟩

/-! ## C15: `EvalAny` -/

theorem skips_total (env : Env) (xs : List InstanceCtx) (tr : Trace) :
    (∃ tr1, skips env xs tr = some tr1) ∨
    (∃ pre X post tr1, xs = pre ++ X :: post ∧ skips env pre tr = some tr1 ∧
      env.Connect tr1 ⟨"unix", X.ConsoleSocket⟩ = none) := by
  induction xs generalizing tr with
  | nil => exact Or.inl ⟨tr, rfl⟩
  | cons x xs ih =>
    cases hc : env.Connect tr ⟨"unix", x.ConsoleSocket⟩ with
    | some e =>
      rcases ih (tr ++ skipEvents x e) with ⟨tr1, h1⟩ | ⟨pre, X, post, tr1, hxs, hp, hend⟩
      · exact Or.inl ⟨tr1, by simp [skips, hc, h1]⟩
      · exact Or.inr ⟨x :: pre, X, post, tr1, by simp [hxs], by simp [skips, hc, hp], hend⟩
    | none => exact Or.inr ⟨[], x, xs, tr, rfl, rfl, hc⟩

theorem loop_visit_any (env : Env)
    (answer : Trace → InstanceCtx → Connector → Bool × Option GoError)
    (X : InstanceCtx) (rest : List InstanceCtx) (n : Nat) (tr : Trace)
    (h : env.Connect tr ⟨"unix", X.ConsoleSocket⟩ = none) :
    evalForeach.loop env (InstanceEvalFunc (EvalAny.func1 (callerEvaler answer))) true
        (X :: rest) n tr =
      (tr ++ visitEvents answer tr X,
        match (answer (tr ++ [Event.connect ⟨"unix", X.ConsoleSocket⟩ none]) X
            ⟨X.ConsoleSocket, tr.length⟩).2 with
        | some e => .error e
        | none => .ok (n + 1)) := by
  simp only [evalForeach.loop, Connect, h, InstanceEvalFunc, EvalAny.func1, callerEvaler,
    visitEvents]
  rcases ha : answer (tr ++ [Event.connect ⟨"unix", X.ConsoleSocket⟩ none]) X
    ⟨X.ConsoleSocket, tr.length⟩ with ⟨d, e⟩
  cases e <;> simp

/-- C15: `EvalAny` calls the evaluator at most once.  Either the list is empty
and the error `no instances to connect` is returned without any event; or every
instance fails to connect, the evaluator is never called and the error
`failed to connect to any instance` is returned; or `X` is the first instance
in list order that connects: the evaluator is called on `X` only, connection
attempts are made to the instances up to `X` and to none after it, and the
call returns exactly the error of that evaluator call (nil when it returned
none), whatever boolean it returned. -/
theorem EvalAny_first_connected (env : Env)
    (answer : Trace → InstanceCtx → Connector → Bool × Option GoError)
    (instances : List InstanceCtx) :
    (called (EvalAny env instances (callerEvaler answer)).1).length ≤ 1 ∧
    ((instances = [] ∧
        EvalAny env instances (callerEvaler answer) =
          ([], some (.errorString "no instances to connect"))) ∨
      (instances ≠ [] ∧ ∃ tr1, skips env instances [] = some tr1 ∧
        called tr1 = [] ∧
        EvalAny env instances (callerEvaler answer) =
          (tr1, some (.errorString "failed to connect to any instance"))) ∨
      (∃ pre X post tr1, instances = pre ++ X :: post ∧ skips env pre [] = some tr1 ∧
        env.Connect tr1 ⟨"unix", X.ConsoleSocket⟩ = none ∧
        called (tr1 ++ visitEvents answer tr1 X) = [X] ∧
        connects (tr1 ++ visitEvents answer tr1 X) =
          (pre ++ [X]).map (fun i => ⟨"unix", i.ConsoleSocket⟩) ∧
        EvalAny env instances (callerEvaler answer) =
          (tr1 ++ visitEvents answer tr1 X,
            (answer (tr1 ++ [Event.connect ⟨"unix", X.ConsoleSocket⟩ none]) X
              ⟨X.ConsoleSocket, tr1.length⟩).2))) := by
  by_cases hnil : instances = []
  · subst hnil
    exact ⟨by simp [EvalAny, EvalForeachAlive, evalForeach, called],
      Or.inl ⟨rfl, by simp [EvalAny, EvalForeachAlive, evalForeach]⟩⟩
  · have hne : ¬ instances.length = 0 := by simpa using hnil
    rcases skips_total env instances [] with ⟨tr1, hs⟩ | ⟨pre, X, post, tr1, hxs, hs, hc⟩
    · have hl := loop_skips env (InstanceEvalFunc (EvalAny.func1 (callerEvaler answer)))
        instances [] 0 [] tr1 hs
      simp only [List.append_nil, evalForeach.loop] at hl
      have hcalled := skips_called env instances [] tr1 hs
      have hres : EvalAny env instances (callerEvaler answer) =
          (tr1, some (.errorString "failed to connect to any instance")) := by
        simp [EvalAny, EvalForeachAlive, evalForeach, hne, hl]
      refine ⟨?_, Or.inr (Or.inl ⟨hnil, tr1, hs, hcalled, hres⟩)⟩
      rw [hres, hcalled]
      simp [called]
    · have hl := loop_skips env (InstanceEvalFunc (EvalAny.func1 (callerEvaler answer)))
        pre (X :: post) 0 [] tr1 hs
      rw [loop_visit_any env answer X post 0 tr1 hc] at hl
      have hcalled : called (tr1 ++ visitEvents answer tr1 X) = [X] := by
        rw [called_append, skips_called env pre [] tr1 hs]
        simp [called, visitEvents]
      have hconnects : connects (tr1 ++ visitEvents answer tr1 X) =
          (pre ++ [X]).map (fun i => ⟨"unix", i.ConsoleSocket⟩) := by
        rw [connects_append, skips_connects env pre [] tr1 hs]
        simp [connects, visitEvents]
      have hne2 : ¬ (pre ++ X :: post).length = 0 := by simp
      have hres : EvalAny env instances (callerEvaler answer) =
          (tr1 ++ visitEvents answer tr1 X,
            (answer (tr1 ++ [Event.connect ⟨"unix", X.ConsoleSocket⟩ none]) X
              ⟨X.ConsoleSocket, tr1.length⟩).2) := by
        rw [hxs]
        simp only [EvalAny, EvalForeachAlive, evalForeach, if_neg hne2, hl]
        cases (answer (tr1 ++ [Event.connect ⟨"unix", X.ConsoleSocket⟩ none]) X
          ⟨X.ConsoleSocket, tr1.length⟩).2 <;> simp
      refine ⟨?_, Or.inr (Or.inr ⟨pre, X, post, tr1, hxs, hs, hc, hcalled, hconnects, hres⟩)⟩
      rw [hres, hcalled]
      simp

/-- A sample run of `EvalAny`: `a` refuses the connection, the evaluator is
called on `b` alone and its error is returned although it did not ask to stop. -/
theorem EvalAny_sample :
    EvalAny (deadEnv ["a.sock"]) sampleInstances (callerEvaler (sampleAnswer "" "b")) =
      ([Event.connect ⟨"unix", "a.sock"⟩ (some (.errorString "connect: connection refused")),
        Event.debugf "failed to connect to 'app:a': connect: connection refused",
        Event.connect ⟨"unix", "b.sock"⟩ none,
        Event.call ⟨"app", "b", "b.sock"⟩ ⟨"b.sock", 2⟩ false (some (.errorString "eval failed")),
        Event.close ⟨"b.sock", 2⟩], some (.errorString "eval failed")) ∧
    EvalAny (deadEnv ["a.sock"]) sampleInstances (callerEvaler (sampleAnswer "" "")) =
      ([Event.connect ⟨"unix", "a.sock"⟩ (some (.errorString "connect: connection refused")),
        Event.debugf "failed to connect to 'app:a': connect: connection refused",
        Event.connect ⟨"unix", "b.sock"⟩ none,
        Event.call ⟨"app", "b", "b.sock"⟩ ⟨"b.sock", 2⟩ false none,
        Event.close ⟨"b.sock", 2⟩], none) ∧
    EvalAny (deadEnv ["a.sock", "b.sock"]) [⟨"app", "a", "a.sock"⟩, ⟨"app", "b", "b.sock"⟩]
        (callerEvaler (sampleAnswer "" "")) =
      ([Event.connect ⟨"unix", "a.sock"⟩ (some (.errorString "connect: connection refused")),
        Event.debugf "failed to connect to 'app:a': connect: connection refused",
        Event.connect ⟨"unix", "b.sock"⟩ (some (.errorString "connect: connection refused")),
        Event.debugf "failed to connect to 'app:b': connect: connection refused"],
        some (.errorString "failed to connect to any instance")) := by
  decide

/-! ## Connections are closed -/

theorem loop_visits (env : Env) (ievaler : InstanceEvaler) (skip : Bool)
    (hrec : ∀ tr i c, ∃ d e, (ievaler tr i c).1 = tr ++ [Event.call i c d e])
    (xs : List InstanceCtx) (n : Nat) (tr : Trace) :
    ∃ em, (evalForeach.loop env ievaler skip xs n tr).1 = tr ++ em ∧ Visits tr.length em := by
  induction xs generalizing n tr with
  | nil => exact ⟨[], by simp [evalForeach.loop], Visits.done _⟩
  | cons x xs ih =>
    simp only [evalForeach.loop, Connect]
    cases hc : env.Connect tr ⟨"unix", x.ConsoleSocket⟩ with
    | some e =>
      cases skip with
      | false =>
        exact ⟨[Event.connect ⟨"unix", x.ConsoleSocket⟩ (some e)], by simp, Visits.fail _ _ _⟩
      | true =>
        simp only [Bool.not_true, Bool.false_eq_true, if_false]
        obtain ⟨em, hem, hv⟩ := ih n (tr ++ [Event.connect ⟨"unix", x.ConsoleSocket⟩ (some e)]
          ++ [Event.debugf ("failed to connect to '" ++ x.AppName ++ ":" ++ x.InstName ++ "': "
            ++ e.Error)])
        refine ⟨Event.connect ⟨"unix", x.ConsoleSocket⟩ (some e)
          :: Event.debugf ("failed to connect to '" ++ x.AppName ++ ":" ++ x.InstName ++ "': "
            ++ e.Error) :: em, ?_, ?_⟩
        · rw [hem]
          simp
        · apply Visits.skip
          simpa [Nat.add_assoc] using hv
    | none =>
      simp only
      obtain ⟨d, e, hde⟩ := hrec (tr ++ [Event.connect ⟨"unix", x.ConsoleSocket⟩ none]) x
        ⟨x.ConsoleSocket, tr.length⟩
      rcases hr : ievaler (tr ++ [Event.connect ⟨"unix", x.ConsoleSocket⟩ none]) x
        ⟨x.ConsoleSocket, tr.length⟩ with ⟨tr2, done, err⟩
      rw [hr] at hde
      simp only at hde
      subst hde
      have hblock : ∀ rest, Visits (tr.length + 3) rest →
          Visits tr.length (Event.connect ⟨"unix", x.ConsoleSocket⟩ none
            :: Event.call x ⟨x.ConsoleSocket, tr.length⟩ d e
            :: Event.close ⟨x.ConsoleSocket, tr.length⟩ :: rest) :=
        fun rest h => Visits.visit tr.length ⟨"unix", x.ConsoleSocket⟩ x d e rest rfl h
      cases err with
      | some e1 =>
        exact ⟨_, by simp, hblock [] (Visits.done _)⟩
      | none =>
        cases done with
        | true => exact ⟨_, by simp, hblock [] (Visits.done _)⟩
        | false =>
          simp only [Bool.false_eq_true, if_false]
          obtain ⟨em, hem, hv⟩ := ih (n + 1) (tr ++ [Event.connect ⟨"unix", x.ConsoleSocket⟩ none]
            ++ [Event.call x ⟨x.ConsoleSocket, tr.length⟩ d e]
            ++ [Event.close ⟨x.ConsoleSocket, tr.length⟩])
          refine ⟨_, ?_, hblock em (by simpa [Nat.add_assoc] using hv)⟩
          rw [hem]
          simp

theorem evalForeach_visits (env : Env) (ievaler : InstanceEvaler) (skip : Bool)
    (hrec : ∀ tr i c, ∃ d e, (ievaler tr i c).1 = tr ++ [Event.call i c d e])
    (instances : List InstanceCtx) : Visits 0 (evalForeach env instances ievaler skip).1 := by
  simp only [evalForeach]
  split
  · exact Visits.done 0
  · obtain ⟨em, hem, hv⟩ := loop_visits env ievaler skip hrec instances 0 []
    rcases hr : evalForeach.loop env ievaler skip instances 0 [] with ⟨tr, r⟩
    rw [hr] at hem
    simp only [List.nil_append] at hem
    subst hem
    cases r with
    | error err => exact hv
    | ok connected =>
      simp only
      split <;> exact hv

theorem visits_close_ge (p : Nat) (em : List Event) (h : Visits p em) :
    ∀ c, Event.close c ∈ em → p ≤ c.id := by
  induction h with
  | done p => simp
  | visit p opts inst d e rest hinst h ih =>
    intro c hc
    simp only [List.mem_cons, Event.close.injEq] at hc
    rcases hc with hc | hc | hc | hc
    · cases hc
    · cases hc
    · subst hc
      exact Nat.le_refl _
    · have := ih c hc
      omega
  | skip p opts err s rest h ih =>
    intro c hc
    simp only [List.mem_cons] at hc
    rcases hc with hc | hc | hc
    · cases hc
    · cases hc
    · have := ih c hc
      omega
  | fail p opts err => simp

theorem visits_count_zero (p : Nat) (em : List Event) (h : Visits p em) (c : Connector)
    (hc : c.id < p) : em.count (Event.close c) = 0 := by
  rw [List.count_eq_zero]
  intro hmem
  have := visits_close_ge p em h c hmem
  omega

theorem visits_at (p : Nat) (em : List Event) (h : Visits p em) :
    ∀ i opts, em[i]? = some (Event.connect opts none) →
      (∃ inst d e, inst.ConsoleSocket = opts.Address ∧
        em[i + 1]? = some (Event.call inst ⟨opts.Address, p + i⟩ d e)) ∧
      em[i + 2]? = some (Event.close ⟨opts.Address, p + i⟩) ∧
      em.count (Event.close ⟨opts.Address, p + i⟩) = 1 := by
  induction h with
  | done p => simp
  | visit p opts inst d e rest hinst h ih =>
    intro i o hi
    match i with
    | 0 =>
      simp only [List.getElem?_cons_zero, Option.some.injEq, Event.connect.injEq, and_true] at hi
      subst hi
      refine ⟨⟨inst, d, e, hinst, by simp⟩, by simp, ?_⟩
      have h0 := visits_count_zero (p + 3) rest h ⟨opts.Address, p⟩ (by simp)
      simp [List.count_cons, h0]
    | 1 => simp at hi
    | 2 => simp at hi
    | j + 3 =>
      simp only [List.getElem?_cons_succ] at hi
      obtain ⟨⟨inst2, d2, e2, hi2, h1⟩, h2, h3⟩ := ih j o hi
      have harith : p + (j + 3) = p + 3 + j := by omega
      rw [harith]
      refine ⟨⟨inst2, d2, e2, hi2, by simpa using h1⟩, by simpa using h2, ?_⟩
      have hne : ¬ (p = p + 3 + j) := by omega
      simp [List.count_cons, h3, hne]
  | skip p opts err s rest h ih =>
    intro i o hi
    match i with
    | 0 => simp at hi
    | 1 => simp at hi
    | j + 2 =>
      simp only [List.getElem?_cons_succ] at hi
      obtain ⟨⟨inst2, d2, e2, hi2, h1⟩, h2, h3⟩ := ih j o hi
      have harith : p + (j + 2) = p + 2 + j := by omega
      rw [harith]
      refine ⟨⟨inst2, d2, e2, hi2, by simpa using h1⟩, by simpa using h2, ?_⟩
      simp [List.count_cons, h3]
  | fail p opts err =>
    intro i o hi
    match i with
    | 0 => simp at hi
    | j + 1 => simp at hi

theorem visits_open (p : Nat) (em : List Event) (h : Visits p em) :
    (∀ n, (openAfter p (em.take n) []).length ≤ 1) ∧ openAfter p em [] = [] := by
  induction h with
  | done p => simp [openAfter]
  | visit p opts inst d e rest hinst h ih =>
    refine ⟨?_, ?_⟩
    · intro n
      match n with
      | 0 => simp [openAfter]
      | 1 => simp [openAfter]
      | 2 => simp [openAfter]
      | k + 3 =>
        simp only [List.take_succ_cons, openAfter, List.nil_append, List.erase_cons_head]
        exact ih.1 k
    · simp only [openAfter, List.nil_append, List.erase_cons_head]
      exact ih.2
  | skip p opts err s rest h ih =>
    refine ⟨?_, ?_⟩
    · intro n
      match n with
      | 0 => simp [openAfter]
      | 1 => simp [openAfter]
      | k + 2 =>
        simp only [List.take_succ_cons, openAfter]
        exact ih.1 k
    · simp only [openAfter]
      exact ih.2
  | fail p opts err =>
    refine ⟨?_, by simp [openAfter]⟩
    intro n
    match n with
    | 0 => simp [openAfter]
    | k + 1 => simp [openAfter]

theorem visits_closes (tr : Trace) (h : Visits 0 tr) : ClosesEachConnection tr := by
  refine ⟨?_, (visits_open 0 tr h).1, (visits_open 0 tr h).2⟩
  intro p opts hp
  simpa using visits_at 0 tr h p opts hp

theorem callerEvaler_records (answer : Trace → InstanceCtx → Connector → Bool × Option GoError) :
    ∀ tr i c, ∃ d e, (callerEvaler answer tr i c).1 = tr ++ [Event.call i c d e] :=
  fun _ _ _ => ⟨_, _, rfl⟩

theorem func1_records (answer : Trace → InstanceCtx → Connector → Bool × Option GoError) :
    ∀ tr i c, ∃ d e, (InstanceEvalFunc (EvalAny.func1 (callerEvaler answer)) tr i c).1 =
      tr ++ [Event.call i c d e] :=
  fun _ _ _ => ⟨_, _, rfl⟩

/-- C17: in every run of `EvalForeach`, `EvalForeachAlive` and `EvalAny`, every
connection opened successfully is closed exactly once, right after the
evaluator call on it (whatever that call returned) and before the next
connection attempt; at most one connection is open after every prefix of the
history and none is open at the end. -/
theorem connections_closed (env : Env)
    (answer : Trace → InstanceCtx → Connector → Bool × Option GoError)
    (instances : List InstanceCtx) :
    ClosesEachConnection (EvalForeach env instances (callerEvaler answer)).1 ∧
    ClosesEachConnection (EvalForeachAlive env instances (callerEvaler answer)).1 ∧
    ClosesEachConnection (EvalAny env instances (callerEvaler answer)).1 :=
  ⟨visits_closes _ (evalForeach_visits env _ false (callerEvaler_records answer) instances),
    visits_closes _ (evalForeach_visits env _ true (callerEvaler_records answer) instances),
    visits_closes _ (evalForeach_visits env _ true (func1_records answer) instances)⟩

/-! ## C18: `Instantiate` -/

theorem lookup_filterMap_key {α : Type} (paths : List (List String))
    (F : List String → Option α) (p : List String) :
    (paths.filterMap (fun q => (F q).map (fun v => (q, v)))).lookup p =
      if p ∈ paths then F p else none := by
  induction paths with
  | nil => simp
  | cons q paths ih =>
    cases hq : F q with
    | none =>
      simp only [List.filterMap_cons, hq, Option.map_none', ih, List.mem_cons]
      by_cases hpq : p = q
      · subst hpq
        simp [hq]
      · simp [hpq]
    | some v =>
      simp only [List.filterMap_cons, hq, Option.map_some', List.lookup_cons, ih, List.mem_cons]
      by_cases hpq : p = q
      · subst hpq
        simp [hq]
      · have : (p == q) = false := by simpa using hpq
        simp [this, hpq]

theorem lookup_filter_key {α : Type} (l : List (List String × α)) (f : List String → Bool)
    (p : List String) :
    (l.filter (fun e => f e.1)).lookup p = if f p then l.lookup p else none := by
  induction l with
  | nil => simp
  | cons e l ih =>
    rcases e with ⟨q, v⟩
    by_cases hpq : p = q
    · subst hpq
      cases hf : f p <;> simp [List.filter_cons, hf, ih, List.lookup_cons]
    · have hb : (p == q) = false := by simpa using hpq
      cases hf : f q <;> simp [List.filter_cons, hf, ih, List.lookup_cons, hb]

theorem lookup_mem_keys {α : Type} (l : List (List String × α)) (p : List String) (v : α)
    (h : l.lookup p = some v) : p ∈ l.map Prod.fst := by
  induction l with
  | nil => simp at h
  | cons e l ih =>
    rcases e with ⟨q, w⟩
    by_cases hpq : p = q
    · subst hpq
      exact List.mem_cons_self _ _
    · have hb : (p == q) = false := by simpa using hpq
      simp only [List.lookup_cons, hb] at h
      exact List.mem_cons_of_mem _ (ih h)

theorem isPrefixOf_append_drop (root path : List String) (h : root.isPrefixOf path = true) :
    root ++ path.drop root.length = path := by
  rw [List.isPrefixOf_iff_prefix] at h
  obtain ⟨t, ht⟩ := h
  subst ht
  simp

theorem sub_get {α : Type} (c : Config α) (root p : List String) :
    (c.sub root).leaves.lookup p = c.Get (root ++ p) := by
  induction c with
  | nil => rfl
  | cons e c ih =>
    rcases e with ⟨q, v⟩
    have ih2 : (Config.sub c root).leaves.lookup p = (Config.leaves c).lookup (root ++ p) := ih
    cases hpre : root.isPrefixOf q with
    | false =>
      have hne : ¬ (root ++ p = q) := by
        intro hq
        have : root.isPrefixOf q = true := by
          rw [List.isPrefixOf_iff_prefix]
          exact ⟨p, hq⟩
        simp [hpre] at this
      have hb : (root ++ p == q) = false := by simpa using hne
      cases v with
      | none =>
        simp only [Config.Get, Config.leaves, Config.sub, List.filterMap_cons, hpre,
          Bool.false_eq_true, if_false, Option.map_none']
        exact ih2
      | some w =>
        simp only [Config.Get, Config.leaves, Config.sub, List.filterMap_cons, hpre,
          Bool.false_eq_true, if_false, Option.map_some', List.lookup_cons, hb]
        exact ih2
    | true =>
      have hq := isPrefixOf_append_drop root q hpre
      cases v with
      | none =>
        simp only [Config.Get, Config.leaves, Config.sub, List.filterMap_cons, hpre, if_true,
          Option.map_none']
        exact ih2
      | some w =>
        simp only [Config.Get, Config.leaves, Config.sub, List.filterMap_cons, hpre, if_true,
          Option.map_some', List.lookup_cons]
        by_cases hpq : p = q.drop root.length
        · have h1 : root ++ p = q := by rw [hpq, hq]
          simp [hpq, hq]
        · have h1 : ¬ (root ++ p = q) := by
            intro h2
            apply hpq
            rw [← h2]
            simp
          have hb1 : (p == q.drop root.length) = false := by simpa using hpq
          have hb2 : (root ++ p == q) = false := by simpa using h1
          rw [hb1, hb2]
          exact ih2

theorem inheritable_lookup {α : Type} (doc : Config α) (structural : String)
    (p : List String) :
    (inheritable doc structural).lookup p =
      if p.head? = some structural then none else doc.leaves.lookup p := by
  have h := lookup_filter_key doc.leaves (fun q => q.head? != some structural) p
  simp only [inheritable]
  rw [h]
  by_cases hs : p.head? = some structural <;> simp [hs]

theorem leaves_filter {α : Type} (c : Config α) (f : List String → Bool) :
    Config.leaves (c.filter (fun e => f e.1)) = (Config.leaves c).filter (fun e => f e.1) := by
  induction c with
  | nil => rfl
  | cons e c ih =>
    rcases e with ⟨q, v⟩
    have ih2 : Config.leaves (List.filter (fun e => f e.1) c) =
        List.filter (fun e => f e.1) (Config.leaves c) := ih
    cases hf : f q <;> cases v <;>
      simp [Config.leaves, List.filter_cons, hf] at ih2 ⊢ <;> exact ih2

theorem Set_get {α : Type} (c : Config α) (p q : List String) (v : α) :
    (c.Set p v).Get q =
      if q = p then some v
      else if q.isPrefixOf p || p.isPrefixOf q then none else c.Get q := by
  have hleaves : (c.Set p v).leaves =
      (Config.leaves c).filter (fun e => !(e.1.isPrefixOf p) && !(p.isPrefixOf e.1))
        ++ [(p, v)] := by
    have h1 := leaves_filter c (fun path => !(path.isPrefixOf p) && !(p.isPrefixOf path))
    simp only [Config.Set]
    unfold Config.leaves at h1 ⊢
    rw [List.filterMap_append, h1]
    rfl
  have hfil := lookup_filter_key (Config.leaves c)
    (fun path => !(path.isPrefixOf p) && !(p.isPrefixOf path)) q
  simp only [Config.Get, hleaves, List.lookup_append, hfil]
  by_cases hqp : q = p
  · subst hqp
    have hself : q.isPrefixOf q = true :=
      List.isPrefixOf_iff_prefix.mpr (List.prefix_refl q)
    simp [hself, List.lookup_cons]
  · have hb : (q == p) = false := by simpa using hqp
    cases h1 : q.isPrefixOf p <;> cases h2 : p.isPrefixOf q <;>
      simp [hqp, List.lookup_cons, hb]

theorem fold_get {α : Type} (ws : List (List String × α)) (doc : Config α) (q : List String)
    (hpw : ws.Pairwise (fun a b => a.1.isPrefixOf b.1 = false ∧ b.1.isPrefixOf a.1 = false)) :
    (ws.foldl (fun d w => d.Set w.1 w.2) doc).Get q =
      match ws.lookup q with
      | some v => some v
      | none =>
        if ws.any (fun w => q.isPrefixOf w.1 || w.1.isPrefixOf q) then none else doc.Get q := by
  induction ws generalizing doc with
  | nil => simp
  | cons w ws ih =>
    rcases w with ⟨p, v⟩
    rw [List.pairwise_cons] at hpw
    obtain ⟨hhead, htail⟩ := hpw
    simp only [List.foldl_cons]
    rw [ih _ htail, Set_get]
    by_cases hqp : q = p
    · subst hqp
      have hnone : ws.lookup q = none := by
        cases hl : ws.lookup q with
        | none => rfl
        | some x =>
          exfalso
          have hmem := lookup_mem_keys ws q x hl
          obtain ⟨e, he, heq⟩ := List.mem_map.mp hmem
          have := (hhead e he).1
          rw [heq] at this
          have hself : q.isPrefixOf q = true :=
            List.isPrefixOf_iff_prefix.mpr (List.prefix_refl q)
          simp [hself] at this
      have hany : ws.any (fun w => q.isPrefixOf w.1 || w.1.isPrefixOf q) = false := by
        rw [List.any_eq_false]
        intro e he
        have := hhead e he
        simp [this.1, this.2]
      simp [hnone, hany, List.lookup_cons]
    · have hb : (q == p) = false := by simpa using hqp
      simp only [List.lookup_cons, hb, List.any_cons, hqp, if_false]
      cases ws.lookup q with
      | some x => rfl
      | none =>
        simp only
        rcases Bool.eq_false_or_eq_true (ws.any (fun w => q.isPrefixOf w.1 || w.1.isPrefixOf q))
          with h1 | h1 <;>
          rcases Bool.eq_false_or_eq_true (q.isPrefixOf p) with h2 | h2 <;>
          rcases Bool.eq_false_or_eq_true (p.isPrefixOf q) with h3 | h3 <;>
          simp [h1, h2, h3]

theorem Set_isDocument {α : Type} (c : Config α) (p : List String) (v : α)
    (h : c.isDocument) : (c.Set p v).isDocument := by
  unfold Config.isDocument at h ⊢
  simp only [Config.Set]
  rw [List.pairwise_append]
  refine ⟨h.filter _, List.pairwise_singleton _ _, ?_⟩
  intro a ha b hb
  simp only [List.mem_singleton] at hb
  subst hb
  have := (List.mem_filter.mp ha).2
  simp only [Bool.and_eq_true, Bool.not_eq_true'] at this
  exact this

theorem fold_isDocument {α : Type} (ws : List (List String × α)) (doc : Config α)
    (h : doc.isDocument) : (ws.foldl (fun d w => d.Set w.1 w.2) doc).isDocument := by
  induction ws generalizing doc with
  | nil => exact h
  | cons w ws ih => exact ih _ (Set_isDocument doc w.1 w.2 h)

/-- The result of `Instantiate` is a Path Document. -/
theorem Instantiate_isDocument {α : Type} (c : Config α) (name : String) :
    (Instantiate c name).isDocument :=
  fold_isDocument _ _ List.Pairwise.nil

theorem writes_pairwise {α : Type} (levels : List (List (List String × α)))
    (h : noConflict levels = true) :
    (writes levels).Pairwise
      (fun a b => a.1.isPrefixOf b.1 = false ∧ b.1.isPrefixOf a.1 = false) := by
  unfold writes
  rw [List.pairwise_filterMap]
  have hnd : (definedPaths levels).Nodup := List.nodup_dedup _
  apply List.Pairwise.imp_of_mem _ hnd
  intro a b ha hb hab x hx y hy
  simp only [noConflict, List.all_eq_true, Bool.or_eq_true, Bool.not_eq_true',
    beq_iff_eq] at h
  have hxa : x.1 = a := by
    cases hf : levels.findSome? (fun level => level.lookup a) with
    | none => simp [hf] at hx
    | some v =>
      simp [hf] at hx
      rw [← hx]
  have hyb : y.1 = b := by
    cases hf : levels.findSome? (fun level => level.lookup b) with
    | none => simp [hf] at hy
    | some v =>
      simp [hf] at hy
      rw [← hy]
  rw [hxa, hyb]
  refine ⟨?_, ?_⟩
  · rcases h a ha b hb with h1 | h1
    · exact h1
    · exact absurd h1 hab
  · rcases h b hb a ha with h1 | h1
    · exact h1
    · exact absurd h1.symm hab

theorem writes_lookup {α : Type} (levels : List (List (List String × α))) (p : List String) :
    (writes levels).lookup p = levels.findSome? (fun level => level.lookup p) := by
  unfold writes
  rw [lookup_filterMap_key]
  split
  · rfl
  · rename_i hp
    cases hf : levels.findSome? (fun level => level.lookup p) with
    | none => rfl
    | some v =>
      exfalso
      apply hp
      obtain ⟨level, hlevel, hl⟩ := List.exists_of_findSome?_eq_some hf
      unfold definedPaths
      rw [List.mem_dedup, List.map_flatten, List.mem_flatten]
      exact ⟨level.map Prod.fst,
        List.mem_map_of_mem _ (List.mem_reverse.mpr hlevel), lookup_mem_keys level p v hl⟩

theorem Instantiate_chain {α : Type} (c : Config α) (name : String)
    (h : noConflict (chain c name) = true) (p : List String) :
    (Instantiate c name).Get p = (chain c name).findSome? (fun level => level.lookup p) := by
  unfold Instantiate
  rw [fold_get _ _ _ (writes_pairwise _ h), writes_lookup]
  cases (chain c name).findSome? (fun level => level.lookup p) with
  | some v => rfl
  | none =>
    simp only
    split <;> rfl

/-- When instance names are unique, as the spec assumes, an instance present
under `groups.g.replicasets.r.instances` is located there. -/
theorem locate_of_unique {α : Type} (c : Config α) (name g r : String)
    (hpres : ∃ e ∈ c, ∃ rest,
      e.1 = "groups" :: g :: "replicasets" :: r :: "instances" :: name :: rest)
    (huniq : ∀ e ∈ c, ∀ g1 r1 rest,
      e.1 = "groups" :: g1 :: "replicasets" :: r1 :: "instances" :: name :: rest →
      g1 = g ∧ r1 = r) :
    locate c name = some (g, r) := by
  cases hl : locate c name with
  | none =>
    exfalso
    obtain ⟨e, he, rest, hpath⟩ := hpres
    simp only [locate, List.findSome?_eq_none_iff] at hl
    have := hl e he
    rw [hpath] at this
    simp at this
  | some gr =>
    obtain ⟨e, he, hf⟩ := List.exists_of_findSome?_eq_some hl
    rcases hq : e.1 with _ | ⟨k1, _ | ⟨g1, _ | ⟨k2, _ | ⟨r1, _ | ⟨k3, _ | ⟨i, rest⟩⟩⟩⟩⟩⟩ <;>
      rw [hq] at hf <;> simp only at hf
    all_goals try (simp at hf)
    obtain ⟨⟨h1, h2, h3, h4⟩, hgr⟩ := hf
    subst h1 h2 h3 h4
    obtain ⟨hg, hr⟩ := huniq e he g1 r1 rest hq
    rw [← hgr, hg, hr]

/-- C18 (as stated, refuted), at three configurations.  In the configuration
of `TestInstantiate_inherbit` the leaf path `replicasets.b.foo` is defined at
group `a`, relative to that level, with value 2, yet the result for instance
`exist` does not contain it; the result holds the leaves that the test expects.
When the name `i` occurs at `groups.a.replicasets.b` and at
`groups.c.replicasets.d`, the leaf `y` of the second occurrence is not in the
result.  When the global leaf `foo` is a proper prefix of the leaf `foo.bar` of
the instance, the result, being a Path Document, does not contain both. -/
theorem Instantiate_structural_counterexample :
    (locate inherbitConfig "exist" = some ("a", "b") ∧
      (inherbitConfig.sub ["groups", "a"]).Get ["replicasets", "b", "foo"] = some 2 ∧
      (Instantiate inherbitConfig "exist").Get ["replicasets", "b", "foo"] = none ∧
      List.Perm (Instantiate inherbitConfig "exist")
        [(["foo"], some 1), (["car"], some 2), (["voo"], some 3), (["boo"], some 4),
          (["bar", "foo"], some 4)]) ∧
    ((duplicateConfig.sub ["groups", "c", "replicasets", "d", "instances", "i"]).Get ["y"] =
        some 2 ∧
      (Instantiate duplicateConfig "i").Get ["y"] = none) ∧
    (locate conflictConfig "i" = some ("a", "b") ∧
      conflictConfig.Get ["foo"] = some 1 ∧
      (conflictConfig.sub ["groups", "a", "replicasets", "b", "instances", "i"]).Get
        ["foo", "bar"] = some 2 ∧
      ¬ ((Instantiate conflictConfig "i").Get ["foo"] = some 1 ∧
        (Instantiate conflictConfig "i").Get ["foo", "bar"] = some 2)) := by
  decide

/-- The result that `TestInstantiate_global` expects: an instance name that
matches nothing gets the global leaves. -/
theorem Instantiate_global_expected :
    Instantiate globalConfig "non_exist" = [(["foo"], some 1), (["bar", "foo"], some 2)] := by
  decide

/-- C18 (amended): let the instance `name` be located at group `g` and
replicaset `r` (its first occurrence in the traversal, the only one when
instance names are unique), and let no leaf path handed down by one of the four
levels be a proper prefix of another one.  Then for every leaf path `p`, the
result of `Instantiate` contains `p` iff `p` is defined at instance `name`, at
replicaset `r` outside `instances`, at group `g` outside `replicasets` or at
the global level outside `groups` (`p` taken relative to that level), and its
value is the one from the most specific of those levels that define `p`.  So a
leaf defined only under another group, replicaset or instance is absent.  The
result is a Path Document, whatever the configuration. -/
theorem Instantiate_most_specific {α : Type} (c : Config α) (name g r : String)
    (hloc : locate c name = some (g, r)) (hnc : noConflict (chain c name) = true)
    (p : List String) :
    (Instantiate c name).Get p =
      (c.Get (["groups", g, "replicasets", r, "instances", name] ++ p) <|>
        (if p.head? = some "instances" then none
          else c.Get (["groups", g, "replicasets", r] ++ p)) <|>
        (if p.head? = some "replicasets" then none else c.Get (["groups", g] ++ p)) <|>
        (if p.head? = some "groups" then none else c.Get p)) ∧
      (Instantiate c name).isDocument := by
  refine ⟨?_, Instantiate_isDocument c name⟩
  rw [Instantiate_chain c name hnc]
  simp only [chain, hloc, List.findSome?, sub_get, inheritable_lookup]
  have hglobal : c.leaves.lookup p = c.Get p := rfl
  rw [hglobal]
  cases c.Get (["groups", g, "replicasets", r, "instances", name] ++ p) <;>
    cases (if p.head? = some "instances" then none
      else c.Get (["groups", g, "replicasets", r] ++ p)) <;>
    cases (if p.head? = some "replicasets" then none else c.Get (["groups", g] ++ p)) <;>
    cases (if p.head? = some "groups" then none else c.Get p) <;> rfl

/-- C18 (amended) at a concrete input: instance `exist` of the configuration of
`TestInstantiate_inherbit`; `foo` comes from the instance, `car` from the
replicaset, `voo` from the group, `boo` from the global level, and `tar`,
defined only under other groups, replicasets and instances, is absent. -/
theorem Instantiate_most_specific_witness :
    (Instantiate inherbitConfig "exist").Get ["foo"] = some 1 ∧
    (Instantiate inherbitConfig "exist").Get ["car"] = some 2 ∧
    (Instantiate inherbitConfig "exist").Get ["voo"] = some 3 ∧
    (Instantiate inherbitConfig "exist").Get ["boo"] = some 4 ∧
    (Instantiate inherbitConfig "exist").Get ["tar"] = none :=
  ⟨(Instantiate_most_specific inherbitConfig "exist" "a" "b" (by decide) (by decide)
      ["foo"]).1.trans (by decide),
    (Instantiate_most_specific inherbitConfig "exist" "a" "b" (by decide) (by decide)
      ["car"]).1.trans (by decide),
    (Instantiate_most_specific inherbitConfig "exist" "a" "b" (by decide) (by decide)
      ["voo"]).1.trans (by decide),
    (Instantiate_most_specific inherbitConfig "exist" "a" "b" (by decide) (by decide)
      ["boo"]).1.trans (by decide),
    (Instantiate_most_specific inherbitConfig "exist" "a" "b" (by decide) (by decide)
      ["tar"]).1.trans (by decide)⟩

end TT
